import Mathlib

/-!
# chunkymonkey: a shallow embedding of the wire codec

The definitions below follow `src/lib/chunkymonkey/proto.go`.

* A reader (`io.Reader`) is the finite list of bytes still to be read; a byte is a
  natural number, and a Go `string` is its list of bytes.
* A writer (`io.Writer`) is the list of bytes written; it never fails.
* A receive handler is the list of the calls made on it, in order.
* Signed machine integers are `Int`, unsigned ones `Nat`; conversions are explicit.
-/

namespace Proto

/-! ## Integers and byte order -/

/-- Value of a byte sequence read in big-endian order (`binary.BigEndian.UintN`). -/
def beNat (bs : List Nat) : Nat :=
  bs.foldl (fun acc b => acc * 256 + b) 0

/-- The `k` big-endian bytes of the low `8 * k` bits of `n` (`binary.BigEndian.PutUintN`). -/
def beBytes : Nat → Nat → List Nat
  | 0, _ => []
  | k + 1, n => beBytes k (n / 256) ++ [n % 256]

/-- Go conversion `intW(u)` of an unsigned value: two's complement reading of the low `w` bits. -/
def toSigned (w : Nat) (n : Nat) : Int :=
  if n % 2 ^ w < 2 ^ (w - 1) then ((n % 2 ^ w : Nat) : Int)
  else ((n % 2 ^ w : Nat) : Int) - ((2 ^ w : Nat) : Int)

/-- Go conversion `uintW(x)` of a signed value: the residue modulo `2 ^ w`. -/
def toUnsigned (w : Nat) (x : Int) : Nat :=
  (x % ((2 ^ w : Nat) : Int)).toNat

/-- Decoding of an `int8` field. -/
def int8 (bs : List Nat) : Int := toSigned 8 (beNat bs)

/-- Decoding of an `int16` field. -/
def int16 (bs : List Nat) : Int := toSigned 16 (beNat bs)

/-- Decoding of an `int32` field. -/
def int32 (bs : List Nat) : Int := toSigned 32 (beNat bs)

/-- Encoding of an `int8` field. -/
def putInt8 (x : Int) : List Nat := beBytes 1 (toUnsigned 8 x)

/-- Encoding of an `int16` field. -/
def putInt16 (x : Int) : List Nat := beBytes 2 (toUnsigned 16 x)

/-- Encoding of an `int32` field. -/
def putInt32 (x : Int) : List Nat := beBytes 4 (toUnsigned 32 x)

/-- Encoding of a `byte` field. -/
def putByte (b : Nat) : List Nat := beBytes 1 b

/-- The bytes of `bs` from offset `off`, `len` of them: one field of a decoded struct. -/
def slice (off len : Nat) (bs : List Nat) : List Nat :=
  (bs.drop off).take len

/-! ## Errors and readers -/

/-- The error values the codec returns. -/
inductive Error where
  | eof
  | unexpectedEOF
  | invalidPacketID (id : Nat)
  | unsupportedVersion (version : Int)
  | unhandledPacketType (id : Nat)
  deriving DecidableEq, Repr

/-- Result of `io.ReadFull` into a buffer: the buffer afterwards, the error, the reader. -/
structure FullRead where
  buf : List Nat
  err : Option Error
  rest : List Nat
  deriving DecidableEq, Repr

/-- Go `io.ReadFull(reader, buf)` with `len(buf) = n`: fills the buffer, or reads what is
there and fails with `EOF` (nothing read) or `ErrUnexpectedEOF` (some bytes read); the
unfilled part of the buffer keeps its zero bytes. -/
def readFull (n : Nat) (r : List Nat) : FullRead :=
  if n ≤ r.length then ⟨r.take n, none, r.drop n⟩
  else if r.length = 0 then ⟨List.replicate n 0, some Error.eof, []⟩
  else ⟨r ++ List.replicate (n - r.length) 0, some Error.unexpectedEOF, []⟩

/-- Go `binary.Read(reader, binary.BigEndian, &data)` for data of `n` bytes: the bytes are
read in full before anything is decoded; on an error the data is left untouched. -/
def binaryRead (n : Nat) (r : List Nat) : Except Error (List Nat) × List Nat :=
  match (readFull n r).err with
  | some e => (Except.error e, (readFull n r).rest)
  | none => (Except.ok (readFull n r).buf, (readFull n r).rest)

/-- Result of `readString`. -/
structure StringRead where
  s : List Nat
  err : Option Error
  rest : List Nat
  deriving DecidableEq, Repr

/-- Source `readString`. -/
def readString (r : List Nat) : StringRead :=
  match binaryRead 2 r with
  | (Except.error e, r1) => ⟨[], some e, r1⟩
  | (Except.ok lb, r1) =>
    let length : Int := int16 lb
    let f := readFull (toUnsigned 16 length) r1
    ⟨f.buf, f.err, f.rest⟩

/-- Source `WriteString`: the bytes written. -/
def WriteString (s : List Nat) : List Nat :=
  putInt16 (toSigned 16 s.length) ++ s

/-! ## Types of the absent package `chunkymonkey/types` -/

/-- Modelled from the spec: the declarations of package `chunkymonkey/types` are not among
the sources. The written design fixes these widths, in bytes: a slot is
`(itemType: i16, count: i8, uses: i16)`, a block location is `(x: i32, y: i8, z: i32)`,
a chunk location is `(x: i32, z: i32)`, an entity id is a 32-bit counter, and a block id
is a byte. This one is the width of `ItemID`. -/
def sizeItemID : Nat := 2

/-- Modelled from the spec: width of `ItemCount` (`count: i8`), package `chunkymonkey/types`
being absent. -/
def sizeItemCount : Nat := 1

/-- Modelled from the spec: width of `ItemUses` (`uses: i16`), package `chunkymonkey/types`
being absent. -/
def sizeItemUses : Nat := 2

/-- Modelled from the spec: width of `BlockCoord` (`x: i32`), package `chunkymonkey/types`
being absent. -/
def sizeBlockCoord : Nat := 4

/-- Modelled from the spec: width of `BlockYCoord` (`y: i8`), package `chunkymonkey/types`
being absent. -/
def sizeBlockYCoord : Nat := 1

/-- Modelled from the spec: width of `ChunkCoord` (`x: i32`), package `chunkymonkey/types`
being absent. -/
def sizeChunkCoord : Nat := 4

/-- Modelled from the spec: width of `EntityID` (a 32-bit counter), package
`chunkymonkey/types` being absent. -/
def sizeEntityID : Nat := 4

/-- Modelled from the spec: width of `BlockID` (byte block-ids), package
`chunkymonkey/types` being absent. -/
def sizeBlockID : Nat := 1

/-- The named types of package `chunkymonkey/types` whose declaration is absent and whose
width the written design leaves open: each field is the width in bytes of the type of that
name. Values of these types are carried as their wire bytes. `subChunkCoord` is the
conversion `SubChunkCoord(i)` from an `int`. -/
structure WireTypes where
  windowID : Nat
  slotID : Nat
  txID : Nat
  face : Nat
  digStatus : Nat
  playerAnimation : Nat
  randomSeed : Nat
  dimensionID : Nat
  absCoord : Nat
  angleDegrees : Nat
  timeOfDay : Nat
  entityMobType : Nat
  absIntCoord : Nat
  angleBytes : Nat
  velocityComponent : Nat
  relMoveCoord : Nat
  entityStatus : Nat
  chunkLoadMode : Nat
  subChunkSizeCoord : Nat
  subChunkCoord : Int → Int

/-- The widths of the beta protocol this codec speaks (version 8), for evaluation on
concrete packets: one-byte window ids, faces, statuses, angles and relative moves, two-byte
slot and transaction ids and velocities, four-byte fixed-point positions and floats,
eight-byte doubles, times and seeds. -/
def beta : WireTypes where
  windowID := 1
  slotID := 2
  txID := 2
  face := 1
  digStatus := 1
  playerAnimation := 1
  randomSeed := 8
  dimensionID := 1
  absCoord := 8
  angleDegrees := 4
  timeOfDay := 8
  entityMobType := 1
  absIntCoord := 4
  angleBytes := 1
  velocityComponent := 2
  relMoveCoord := 1
  entityStatus := 1
  chunkLoadMode := 1
  subChunkSizeCoord := 1
  subChunkCoord := fun i => toSigned 8 (toUnsigned 8 i)

/-! ## Handler calls -/

/-- Source `WindowSlot`. -/
structure WindowSlot where
  ItemID : Int
  Amount : Int
  Uses : Int
  deriving DecidableEq, Repr

/-- The dynamic value held by `UnknownEntityExtra.Field3` (an `interface{}`). -/
inductive ExtraValue where
  | nil
  | byteVal (v : Nat)
  | int16Val (v : Int)
  | int32Val (v : Int)
  | floatVal (bits : Nat)
  | stringVal (s : List Nat)
  | position (x : Int) (y : Nat) (z : Int)
  deriving DecidableEq, Repr

/-- Source `UnknownEntityExtra`. -/
structure UnknownEntityExtra where
  Field1 : Nat
  Field2 : Nat
  Field3 : ExtraValue
  deriving DecidableEq, Repr

/-- The type `SubChunkXYZ` as `clientReadBlockChangeMulti` builds it. -/
structure SubChunkXYZ where
  X : Int
  Y : Int
  Z : Int
  deriving DecidableEq, Repr

/-- One call on a receive handler (`RecvHandler`, `ServerRecvHandler`,
`ClientRecvHandler`), with its arguments. Pointer arguments are given by their fields. -/
inductive Call where
  | RecvKeepAlive
  | RecvChatMessage (message : List Nat)
  | RecvOnGround (onGround : Bool)
  | RecvPlayerPosition (x y z stance : List Nat) (onGround : Bool)
  | RecvPlayerLook (yaw pitch : List Nat) (onGround : Bool)
  | RecvPlayerDigging (status : List Nat) (x y z : Int) (face : List Nat)
  | RecvPlayerBlockPlacement (itemID x y z : Int) (direction : List Nat) (amount uses : Int)
  | RecvPlayerAnimation (animation : List Nat)
  | RecvDisconnect (reason : List Nat)
  | RecvHoldingChange (itemID : Int)
  | ServerRecvWindowClick (windowID slot : List Nat) (rightClick : Bool) (txID : List Nat)
      (itemID amount uses : Int)
  | ClientRecvLogin (entityID : Int) (str1 str2 mapSeed dimension : List Nat)
  | ClientRecvTimeUpdate (time : List Nat)
  | ClientRecvEntityEquipment (entityID : Int) (slot : List Nat) (itemID uses : Int)
  | ClientRecvSpawnPosition (x y z : Int)
  | ClientRecvUseEntity (user target : Int) (leftClick : Bool)
  | ClientRecvUpdateHealth (health : Int)
  | ClientRecvPickupSpawn (entityID itemID count uses : Int) (x y z yaw pitch roll : List Nat)
  | ClientRecvItemCollect (collectedItem collector : Int)
  | ClientRecvEntitySpawn (entityID : Int) (mobType x y z yaw pitch : List Nat)
      (data : List UnknownEntityExtra)
  | ClientRecvUnknownX19 (field1 : Int) (field2 : List Nat) (field3 field4 field5 field6 : Int)
  | ClientRecvEntityVelocity (entityID : Int) (x y z : List Nat)
  | ClientRecvEntityDestroy (entityID : Int)
  | ClientRecvEntity (entityID : Int)
  | ClientRecvEntityRelMove (entityID : Int) (x y z : List Nat)
  | ClientRecvEntityLook (entityID : Int) (yaw pitch : List Nat)
  | ClientRecvEntityStatus (entityID : Int) (status : List Nat)
  | ClientRecvUnknownX28 (field1 : Int) (data : List UnknownEntityExtra)
  | ClientRecvPreChunk (x z : Int) (mode : List Nat)
  | ClientRecvMapChunk (x y z : Int) (sizeX sizeY sizeZ data : List Nat)
  | ClientRecvBlockChangeMulti (chunkX chunkZ : Int) (blockCoords : List SubChunkXYZ)
      (blockTypes blockMetaData : List Nat)
  | ClientRecvBlockChange (x y z : Int) (blockType blockMetaData : Nat)
  | ClientRecvUnknownX36 (field1 field2 field3 : Int) (field4 field5 : Nat)
  | ClientRecvSetSlot (windowID slot : List Nat) (itemID amount uses : Int)
  | ClientRecvWindowItems (windowID : List Nat) (items : List WindowSlot)
  deriving DecidableEq, Repr

/-- How a packet reader ends: it returns a nil error, returns an error, or the Go run time
panics (as `make` does on a negative length). -/
inductive Outcome where
  | ok
  | error (e : Error)
  | panic
  deriving DecidableEq, Repr

/-- What a packet reader does: the reader afterwards, the handler calls made, the end. -/
structure Result where
  rest : List Nat
  calls : List Call
  outcome : Outcome
  deriving DecidableEq, Repr

/-- Source `byteToBool`. -/
def byteToBool (b : Nat) : Bool := b != 0

/-- Source `boolToByte`. -/
def boolToByte (b : Bool) : Nat := if b then 1 else 0

/-! ## Packet readers common to both directions -/

/-- Source `readKeepAlive`. -/
def readKeepAlive (r : List Nat) : Result :=
  ⟨r, [Call.RecvKeepAlive], Outcome.ok⟩

/-- Source `readChatMessage`. -/
def readChatMessage (r : List Nat) : Result :=
  match (readString r).err with
  | some e => ⟨(readString r).rest, [], Outcome.error e⟩
  | none => ⟨(readString r).rest, [Call.RecvChatMessage (readString r).s], Outcome.ok⟩

/-- Source `readFlying`. -/
def readFlying (r : List Nat) : Result :=
  match binaryRead 1 r with
  | (Except.error e, r1) => ⟨r1, [], Outcome.error e⟩
  | (Except.ok p, r1) => ⟨r1, [Call.RecvOnGround (byteToBool (beNat p))], Outcome.ok⟩

/-- Source `readPlayerPosition`: the struct is `X, Y, Stance, Z, OnGround`. -/
def readPlayerPosition (T : WireTypes) (r : List Nat) : Result :=
  match binaryRead (4 * T.absCoord + 1) r with
  | (Except.error e, r1) => ⟨r1, [], Outcome.error e⟩
  | (Except.ok p, r1) =>
    let w := T.absCoord
    let x := slice 0 w p
    let y := slice w w p
    let stance := slice (2 * w) w p
    let z := slice (3 * w) w p
    let onGround := beNat (slice (4 * w) 1 p)
    ⟨r1, [Call.RecvPlayerPosition x y z stance (byteToBool onGround)], Outcome.ok⟩

/-- Source `readPlayerLook`: the struct is `Yaw, Pitch, OnGround`. -/
def readPlayerLook (T : WireTypes) (r : List Nat) : Result :=
  match binaryRead (2 * T.angleDegrees + 1) r with
  | (Except.error e, r1) => ⟨r1, [], Outcome.error e⟩
  | (Except.ok p, r1) =>
    let a := T.angleDegrees
    let yaw := slice 0 a p
    let pitch := slice a a p
    let onGround := beNat (slice (2 * a) 1 p)
    ⟨r1, [Call.RecvPlayerLook yaw pitch (byteToBool onGround)], Outcome.ok⟩

/-- Source `readPlayerDigging`: the struct is `Status, X, Y, Z, Face`. -/
def readPlayerDigging (T : WireTypes) (r : List Nat) : Result :=
  match binaryRead (T.digStatus + sizeBlockCoord + sizeBlockYCoord + sizeBlockCoord + T.face) r with
  | (Except.error e, r1) => ⟨r1, [], Outcome.error e⟩
  | (Except.ok p, r1) =>
    let status := slice 0 T.digStatus p
    let x := int32 (slice T.digStatus 4 p)
    let y := int8 (slice (T.digStatus + 4) 1 p)
    let z := int32 (slice (T.digStatus + 5) 4 p)
    let face := slice (T.digStatus + 9) T.face p
    ⟨r1, [Call.RecvPlayerDigging status x y z face], Outcome.ok⟩

/-- Source `readPlayerBlockPlacement`: the struct `packet` is `X, Y, Z, Face, ItemID`, the
struct `packetExtra` is `Amount, Uses` and keeps its zero values unless it is read. -/
def readPlayerBlockPlacement (T : WireTypes) (r : List Nat) : Result :=
  match binaryRead (sizeBlockCoord + sizeBlockYCoord + sizeBlockCoord + T.face + sizeItemID) r with
  | (Except.error e, r1) => ⟨r1, [], Outcome.error e⟩
  | (Except.ok p, r1) =>
    let x := int32 (slice 0 4 p)
    let y := int8 (slice 4 1 p)
    let z := int32 (slice 5 4 p)
    let face := slice 9 T.face p
    let itemID := int16 (slice (9 + T.face) 2 p)
    if itemID ≥ 0 then
      match binaryRead (sizeItemCount + sizeItemUses) r1 with
      | (Except.error e, r2) => ⟨r2, [], Outcome.error e⟩
      | (Except.ok q, r2) =>
        ⟨r2, [Call.RecvPlayerBlockPlacement itemID x y z face (int8 (slice 0 1 q))
          (int16 (slice 1 2 q))], Outcome.ok⟩
    else
      ⟨r1, [Call.RecvPlayerBlockPlacement itemID x y z face 0 0], Outcome.ok⟩

/-- Source `readPlayerAnimation`: the struct is `EntityID, Animation`. -/
def readPlayerAnimation (T : WireTypes) (r : List Nat) : Result :=
  match binaryRead (sizeEntityID + T.playerAnimation) r with
  | (Except.error e, r1) => ⟨r1, [], Outcome.error e⟩
  | (Except.ok p, r1) =>
    ⟨r1, [Call.RecvPlayerAnimation (slice 4 T.playerAnimation p)], Outcome.ok⟩

/-- Source `readDisconnect`. -/
def readDisconnect (r : List Nat) : Result :=
  match (readString r).err with
  | some e => ⟨(readString r).rest, [], Outcome.error e⟩
  | none => ⟨(readString r).rest, [Call.RecvDisconnect (readString r).s], Outcome.ok⟩

/-! ## Packet readers of the server -/

/-- Result of `ServerReadLogin`. -/
structure LoginRead where
  username : List Nat
  password : List Nat
  err : Option Error
  rest : List Nat
  deriving DecidableEq, Repr

/-- Source constant `protocolVersion`. -/
def protocolVersion : Int := 8

/-- Source constant `packetIDLogin`. -/
def packetIDLogin : Nat := 0x01

/-- Source `ServerReadLogin`: the struct `packetStart` is `PacketID byte, Version int32`,
the struct `packetEnd` is `MapSeed, Dimension`. -/
def ServerReadLogin (T : WireTypes) (r : List Nat) : LoginRead :=
  match binaryRead 5 r with
  | (Except.error e, r1) => ⟨[], [], some e, r1⟩
  | (Except.ok p, r1) =>
    let packetID := beNat (slice 0 1 p)
    let version := int32 (slice 1 4 p)
    if packetID ≠ packetIDLogin then ⟨[], [], some (Error.invalidPacketID packetID), r1⟩
    else if version ≠ protocolVersion then
      ⟨[], [], some (Error.unsupportedVersion version), r1⟩
    else
      let u := readString r1
      match u.err with
      | some e => ⟨u.s, [], some e, u.rest⟩
      | none =>
        let pw := readString u.rest
        match pw.err with
        | some e => ⟨u.s, pw.s, some e, pw.rest⟩
        | none =>
          match binaryRead (T.randomSeed + T.dimensionID) pw.rest with
          | (Except.error e, r4) => ⟨u.s, pw.s, some e, r4⟩
          | (Except.ok _, r4) => ⟨u.s, pw.s, none, r4⟩

/-- Source `serverReadPlayerPositionLook`: the struct is
`X, Stance, Y, Z, Yaw, Pitch, OnGround`. -/
def serverReadPlayerPositionLook (T : WireTypes) (r : List Nat) : Result :=
  match binaryRead (4 * T.absCoord + 2 * T.angleDegrees + 1) r with
  | (Except.error e, r1) => ⟨r1, [], Outcome.error e⟩
  | (Except.ok p, r1) =>
    let w := T.absCoord
    let a := T.angleDegrees
    let x := slice 0 w p
    let stance := slice w w p
    let y := slice (2 * w) w p
    let z := slice (3 * w) w p
    let yaw := slice (4 * w) a p
    let pitch := slice (4 * w + a) a p
    let onGround := beNat (slice (4 * w + 2 * a) 1 p)
    ⟨r1, [Call.RecvPlayerPosition x y z stance (byteToBool onGround),
          Call.RecvPlayerLook yaw pitch (byteToBool onGround)], Outcome.ok⟩

/-- Source `serverReadHoldingChange`. -/
def serverReadHoldingChange (r : List Nat) : Result :=
  match binaryRead sizeItemID r with
  | (Except.error e, r1) => ⟨r1, [], Outcome.error e⟩
  | (Except.ok p, r1) => ⟨r1, [Call.RecvHoldingChange (int16 p)], Outcome.ok⟩

/-- Source `serverReadWindowClick`: the struct `packetStart` is
`WindowID, Slot, RightClick byte, TxID, ItemID`, the struct `packetEnd` is `Amount, Uses`
and keeps its zero values unless it is read. -/
def serverReadWindowClick (T : WireTypes) (r : List Nat) : Result :=
  match binaryRead (T.windowID + T.slotID + 1 + T.txID + sizeItemID) r with
  | (Except.error e, r1) => ⟨r1, [], Outcome.error e⟩
  | (Except.ok p, r1) =>
    let windowID := slice 0 T.windowID p
    let slot := slice T.windowID T.slotID p
    let rightClick := beNat (slice (T.windowID + T.slotID) 1 p)
    let txID := slice (T.windowID + T.slotID + 1) T.txID p
    let itemID := int16 (slice (T.windowID + T.slotID + 1 + T.txID) 2 p)
    if itemID ≠ -1 then
      match binaryRead (sizeItemCount + sizeItemUses) r1 with
      | (Except.error e, r2) => ⟨r2, [], Outcome.error e⟩
      | (Except.ok q, r2) =>
        ⟨r2, [Call.ServerRecvWindowClick windowID slot (byteToBool rightClick) txID itemID
          (int8 (slice 0 1 q)) (int16 (slice 1 2 q))], Outcome.ok⟩
    else
      ⟨r1, [Call.ServerRecvWindowClick windowID slot (byteToBool rightClick) txID itemID 0 0],
        Outcome.ok⟩

/-! ## The unknown extra data -/

/-- Result of `readUnknownExtra`. -/
structure ExtraRead where
  data : List UnknownEntityExtra
  err : Option Error
  rest : List Nat
  deriving DecidableEq, Repr

/-- The `switch` of `readUnknownExtra` on `(entryType & 0xe0) >> 5`: the new value of
`field3`, the value of `err` and the reader afterwards. A case that fails leaves the zero
value of its variable in `field3`; outside the six cases nothing is read and `field3` keeps
the value it had. -/
def readExtraPayload (tag : Nat) (r : List Nat) (field3 : ExtraValue) :
    ExtraValue × Option Error × List Nat :=
  match tag with
  | 0 =>
    match binaryRead 1 r with
    | (Except.error e, r1) => (ExtraValue.byteVal 0, some e, r1)
    | (Except.ok b, r1) => (ExtraValue.byteVal (beNat b), none, r1)
  | 1 =>
    match binaryRead 2 r with
    | (Except.error e, r1) => (ExtraValue.int16Val 0, some e, r1)
    | (Except.ok b, r1) => (ExtraValue.int16Val (int16 b), none, r1)
  | 2 =>
    match binaryRead 4 r with
    | (Except.error e, r1) => (ExtraValue.int32Val 0, some e, r1)
    | (Except.ok b, r1) => (ExtraValue.int32Val (int32 b), none, r1)
  | 3 =>
    match binaryRead 4 r with
    | (Except.error e, r1) => (ExtraValue.floatVal 0, some e, r1)
    | (Except.ok b, r1) => (ExtraValue.floatVal (beNat b), none, r1)
  | 4 => (ExtraValue.stringVal (readString r).s, (readString r).err, (readString r).rest)
  | 5 =>
    match binaryRead 5 r with
    | (Except.error e, r1) => (ExtraValue.position 0 0 0, some e, r1)
    | (Except.ok b, r1) =>
      (ExtraValue.position (int16 (slice 0 2 b)) (beNat (slice 2 1 b)) (int16 (slice 3 2 b)),
        none, r1)
  | _ => (field3, none, r)

/-- The reader never grows under `readFull`. -/
theorem readFull_rest_length_le (n : Nat) (r : List Nat) :
    (readFull n r).rest.length ≤ r.length := by
  unfold readFull
  split
  · simp
  · split <;> simp

/-- The reader never grows under `binaryRead`. -/
theorem binaryRead_rest_length_le (n : Nat) (r : List Nat) :
    (binaryRead n r).2.length ≤ r.length := by
  have h := readFull_rest_length_le n r
  unfold binaryRead
  split <;> exact h

/-- A successful `binaryRead` of one byte shortens the reader. -/
theorem binaryRead_one_ok_lt (r r1 b : List Nat) (h : binaryRead 1 r = (Except.ok b, r1)) :
    r1.length < r.length := by
  unfold binaryRead readFull at h
  cases r with
  | nil => simp at h
  | cons x xs =>
    simp at h
    rw [← h.2]
    simp

/-- The reader never grows under `readString`. -/
theorem readString_rest_length_le (r : List Nat) : (readString r).rest.length ≤ r.length := by
  have h1 := binaryRead_rest_length_le 2 r
  unfold readString
  split
  · rename_i e r1 heq
    rw [heq] at h1
    exact h1
  · rename_i lb r1 heq
    rw [heq] at h1
    exact Nat.le_trans (readFull_rest_length_le _ r1) h1

/-- The reader never grows under `readExtraPayload`. -/
theorem readExtraPayload_rest_length_le (tag : Nat) (r : List Nat) (field3 : ExtraValue) :
    (readExtraPayload tag r field3).2.2.length ≤ r.length := by
  unfold readExtraPayload
  split
  · have h := binaryRead_rest_length_le 1 r
    split <;> (rename_i heq; rw [heq] at h; exact h)
  · have h := binaryRead_rest_length_le 2 r
    split <;> (rename_i heq; rw [heq] at h; exact h)
  · have h := binaryRead_rest_length_le 4 r
    split <;> (rename_i heq; rw [heq] at h; exact h)
  · have h := binaryRead_rest_length_le 4 r
    split <;> (rename_i heq; rw [heq] at h; exact h)
  · exact readString_rest_length_le r
  · have h := binaryRead_rest_length_le 5 r
    split <;> (rename_i heq; rw [heq] at h; exact h)
  · exact Nat.le_refl _

/-- The `for` loop of `readUnknownExtra`, from the reader `r` with the current values of
`field3` and `data`. The record appended carries the function's own `field1` and `field2`,
which are never assigned (the `field1` of the `switch` is local to it). -/
def readUnknownExtraLoop (r : List Nat) (field3 : ExtraValue)
    (data : List UnknownEntityExtra) : ExtraRead :=
  match h : binaryRead 1 r with
  | (Except.error e, r1) => ⟨data, some e, r1⟩
  | (Except.ok b, r1) =>
    if beNat b = 127 then ⟨data, none, r1⟩
    else
      match (readExtraPayload ((beNat b &&& 0xe0) >>> 5) r1 field3).2.1 with
      | some e =>
        ⟨data ++ [⟨0, 0, (readExtraPayload ((beNat b &&& 0xe0) >>> 5) r1 field3).1⟩], some e,
          (readExtraPayload ((beNat b &&& 0xe0) >>> 5) r1 field3).2.2⟩
      | none =>
        readUnknownExtraLoop (readExtraPayload ((beNat b &&& 0xe0) >>> 5) r1 field3).2.2
          (readExtraPayload ((beNat b &&& 0xe0) >>> 5) r1 field3).1
          (data ++ [⟨0, 0, (readExtraPayload ((beNat b &&& 0xe0) >>> 5) r1 field3).1⟩])
termination_by r.length
decreasing_by
  exact Nat.lt_of_le_of_lt (readExtraPayload_rest_length_le _ r1 field3)
    (binaryRead_one_ok_lt r r1 b h)

/-- Source `readUnknownExtra`. -/
def readUnknownExtra (r : List Nat) : ExtraRead :=
  readUnknownExtraLoop r ExtraValue.nil []

/-! ## Packet readers of the client -/

/-- Source `clientReadLogin`: an `EntityID`, two strings, the struct `MapSeed, Dimension`. -/
def clientReadLogin (T : WireTypes) (r : List Nat) : Result :=
  match binaryRead sizeEntityID r with
  | (Except.error e, r1) => ⟨r1, [], Outcome.error e⟩
  | (Except.ok p, r1) =>
    match (readString r1).err with
    | some e => ⟨(readString r1).rest, [], Outcome.error e⟩
    | none =>
      match (readString (readString r1).rest).err with
      | some e => ⟨(readString (readString r1).rest).rest, [], Outcome.error e⟩
      | none =>
        match binaryRead (T.randomSeed + T.dimensionID) (readString (readString r1).rest).rest with
        | (Except.error e, r4) => ⟨r4, [], Outcome.error e⟩
        | (Except.ok q, r4) =>
          ⟨r4, [Call.ClientRecvLogin (int32 p) (readString r1).s
            (readString (readString r1).rest).s (slice 0 T.randomSeed q)
            (slice T.randomSeed T.dimensionID q)], Outcome.ok⟩

/-- Source `clientReadTimeUpdate`. -/
def clientReadTimeUpdate (T : WireTypes) (r : List Nat) : Result :=
  match binaryRead T.timeOfDay r with
  | (Except.error e, r1) => ⟨r1, [], Outcome.error e⟩
  | (Except.ok p, r1) => ⟨r1, [Call.ClientRecvTimeUpdate p], Outcome.ok⟩

/-- Source `clientReadEntityEquipment`: the struct is `EntityID, Slot, ItemID, Uses`. No
table of readers names this function. -/
def clientReadEntityEquipment (T : WireTypes) (r : List Nat) : Result :=
  match binaryRead (sizeEntityID + T.slotID + sizeItemID + sizeItemUses) r with
  | (Except.error e, r1) => ⟨r1, [], Outcome.error e⟩
  | (Except.ok p, r1) =>
    ⟨r1, [Call.ClientRecvEntityEquipment (int32 (slice 0 4 p)) (slice 4 T.slotID p)
      (int16 (slice (4 + T.slotID) 2 p)) (int16 (slice (4 + T.slotID + 2) 2 p))], Outcome.ok⟩

/-- Source `clientReadSpawnPosition`: the struct is `X BlockCoord, Y int32, Z BlockCoord`;
`Y` is converted to a `BlockYCoord`. -/
def clientReadSpawnPosition (r : List Nat) : Result :=
  match binaryRead (sizeBlockCoord + 4 + sizeBlockCoord) r with
  | (Except.error e, r1) => ⟨r1, [], Outcome.error e⟩
  | (Except.ok p, r1) =>
    ⟨r1, [Call.ClientRecvSpawnPosition (int32 (slice 0 4 p))
      (toSigned 8 (toUnsigned 8 (int32 (slice 4 4 p)))) (int32 (slice 8 4 p))], Outcome.ok⟩

/-- Source `clientReadUseEntity`: the struct is `User, Target, LeftClick byte`. -/
def clientReadUseEntity (r : List Nat) : Result :=
  match binaryRead (sizeEntityID + sizeEntityID + 1) r with
  | (Except.error e, r1) => ⟨r1, [], Outcome.error e⟩
  | (Except.ok p, r1) =>
    ⟨r1, [Call.ClientRecvUseEntity (int32 (slice 0 4 p)) (int32 (slice 4 4 p))
      (byteToBool (beNat (slice 8 1 p)))], Outcome.ok⟩

/-- Source `clientReadUpdateHealth`. -/
def clientReadUpdateHealth (r : List Nat) : Result :=
  match binaryRead 2 r with
  | (Except.error e, r1) => ⟨r1, [], Outcome.error e⟩
  | (Except.ok p, r1) => ⟨r1, [Call.ClientRecvUpdateHealth (int16 p)], Outcome.ok⟩

/-- Source `clientReadPlayerPositionLook`: the struct is
`X, Y, Stance, Z, Yaw, Pitch, OnGround`. -/
def clientReadPlayerPositionLook (T : WireTypes) (r : List Nat) : Result :=
  match binaryRead (4 * T.absCoord + 2 * T.angleDegrees + 1) r with
  | (Except.error e, r1) => ⟨r1, [], Outcome.error e⟩
  | (Except.ok p, r1) =>
    let w := T.absCoord
    let a := T.angleDegrees
    let x := slice 0 w p
    let y := slice w w p
    let stance := slice (2 * w) w p
    let z := slice (3 * w) w p
    let yaw := slice (4 * w) a p
    let pitch := slice (4 * w + a) a p
    let onGround := beNat (slice (4 * w + 2 * a) 1 p)
    ⟨r1, [Call.RecvPlayerPosition x y z stance (byteToBool onGround),
          Call.RecvPlayerLook yaw pitch (byteToBool onGround)], Outcome.ok⟩

/-- Source `clientReadPickupSpawn`: the struct is
`EntityID, ItemID, Count, Uses, X, Y, Z, Yaw, Pitch, Roll`. -/
def clientReadPickupSpawn (T : WireTypes) (r : List Nat) : Result :=
  match binaryRead (sizeEntityID + sizeItemID + sizeItemCount + sizeItemUses
      + 3 * T.absIntCoord + 3 * T.angleBytes) r with
  | (Except.error e, r1) => ⟨r1, [], Outcome.error e⟩
  | (Except.ok p, r1) =>
    let c := T.absIntCoord
    let a := T.angleBytes
    ⟨r1, [Call.ClientRecvPickupSpawn (int32 (slice 0 4 p)) (int16 (slice 4 2 p))
      (int8 (slice 6 1 p)) (int16 (slice 7 2 p))
      (slice 9 c p) (slice (9 + c) c p) (slice (9 + 2 * c) c p)
      (slice (9 + 3 * c) a p) (slice (9 + 3 * c + a) a p) (slice (9 + 3 * c + 2 * a) a p)],
      Outcome.ok⟩

/-- Source `clientReadItemCollect`: the struct is `CollectedItem, Collector`. -/
def clientReadItemCollect (r : List Nat) : Result :=
  match binaryRead (sizeEntityID + sizeEntityID) r with
  | (Except.error e, r1) => ⟨r1, [], Outcome.error e⟩
  | (Except.ok p, r1) =>
    ⟨r1, [Call.ClientRecvItemCollect (int32 (slice 0 4 p)) (int32 (slice 4 4 p))], Outcome.ok⟩

/-- Source `clientReadEntitySpawn`: the struct `EntityID, MobType, X, Y, Z, Yaw, Pitch`,
then the unknown extra data. -/
def clientReadEntitySpawn (T : WireTypes) (r : List Nat) : Result :=
  match binaryRead (sizeEntityID + T.entityMobType + 3 * T.absIntCoord + 2 * T.angleBytes) r with
  | (Except.error e, r1) => ⟨r1, [], Outcome.error e⟩
  | (Except.ok p, r1) =>
    match (readUnknownExtra r1).err with
    | some e => ⟨(readUnknownExtra r1).rest, [], Outcome.error e⟩
    | none =>
      let m := T.entityMobType
      let c := T.absIntCoord
      let a := T.angleBytes
      ⟨(readUnknownExtra r1).rest, [Call.ClientRecvEntitySpawn (int32 (slice 0 4 p))
        (slice 4 m p) (slice (4 + m) c p) (slice (4 + m + c) c p) (slice (4 + m + 2 * c) c p)
        (slice (4 + m + 3 * c) a p) (slice (4 + m + 3 * c + a) a p)
        (readUnknownExtra r1).data], Outcome.ok⟩

/-- Source `clientReadUnknownX19`: an `int32`, a string, the struct of four `int32`. -/
def clientReadUnknownX19 (r : List Nat) : Result :=
  match binaryRead 4 r with
  | (Except.error e, r1) => ⟨r1, [], Outcome.error e⟩
  | (Except.ok p, r1) =>
    match (readString r1).err with
    | some e => ⟨(readString r1).rest, [], Outcome.error e⟩
    | none =>
      match binaryRead 16 (readString r1).rest with
      | (Except.error e, r3) => ⟨r3, [], Outcome.error e⟩
      | (Except.ok q, r3) =>
        ⟨r3, [Call.ClientRecvUnknownX19 (int32 p) (readString r1).s (int32 (slice 0 4 q))
          (int32 (slice 4 4 q)) (int32 (slice 8 4 q)) (int32 (slice 12 4 q))], Outcome.ok⟩

/-- Source `clientReadEntityVelocity`: the struct is `EntityID, X, Y, Z`. -/
def clientReadEntityVelocity (T : WireTypes) (r : List Nat) : Result :=
  match binaryRead (sizeEntityID + 3 * T.velocityComponent) r with
  | (Except.error e, r1) => ⟨r1, [], Outcome.error e⟩
  | (Except.ok p, r1) =>
    let v := T.velocityComponent
    ⟨r1, [Call.ClientRecvEntityVelocity (int32 (slice 0 4 p)) (slice 4 v p) (slice (4 + v) v p)
      (slice (4 + 2 * v) v p)], Outcome.ok⟩

/-- Source `clientReadEntity`. -/
def clientReadEntity (r : List Nat) : Result :=
  match binaryRead sizeEntityID r with
  | (Except.error e, r1) => ⟨r1, [], Outcome.error e⟩
  | (Except.ok p, r1) => ⟨r1, [Call.ClientRecvEntity (int32 p)], Outcome.ok⟩

/-- Source `clientReadEntityDestroy`. -/
def clientReadEntityDestroy (r : List Nat) : Result :=
  match binaryRead sizeEntityID r with
  | (Except.error e, r1) => ⟨r1, [], Outcome.error e⟩
  | (Except.ok p, r1) => ⟨r1, [Call.ClientRecvEntityDestroy (int32 p)], Outcome.ok⟩

/-- Source `clientReadEntityRelMove`: the struct is `EntityID, X, Y, Z`. -/
def clientReadEntityRelMove (T : WireTypes) (r : List Nat) : Result :=
  match binaryRead (sizeEntityID + 3 * T.relMoveCoord) r with
  | (Except.error e, r1) => ⟨r1, [], Outcome.error e⟩
  | (Except.ok p, r1) =>
    let m := T.relMoveCoord
    ⟨r1, [Call.ClientRecvEntityRelMove (int32 (slice 0 4 p)) (slice 4 m p) (slice (4 + m) m p)
      (slice (4 + 2 * m) m p)], Outcome.ok⟩

/-- Source `clientReadEntityLook`: the struct is `EntityID, Yaw, Pitch`. -/
def clientReadEntityLook (T : WireTypes) (r : List Nat) : Result :=
  match binaryRead (sizeEntityID + 2 * T.angleBytes) r with
  | (Except.error e, r1) => ⟨r1, [], Outcome.error e⟩
  | (Except.ok p, r1) =>
    let a := T.angleBytes
    ⟨r1, [Call.ClientRecvEntityLook (int32 (slice 0 4 p)) (slice 4 a p) (slice (4 + a) a p)],
      Outcome.ok⟩

/-- Source `clientReadEntityLookAndRelMove`: the struct is `EntityID, X, Y, Z, Yaw, Pitch`. -/
def clientReadEntityLookAndRelMove (T : WireTypes) (r : List Nat) : Result :=
  match binaryRead (sizeEntityID + 3 * T.relMoveCoord + 2 * T.angleBytes) r with
  | (Except.error e, r1) => ⟨r1, [], Outcome.error e⟩
  | (Except.ok p, r1) =>
    let m := T.relMoveCoord
    let a := T.angleBytes
    ⟨r1, [Call.ClientRecvEntityRelMove (int32 (slice 0 4 p)) (slice 4 m p) (slice (4 + m) m p)
        (slice (4 + 2 * m) m p),
      Call.ClientRecvEntityLook (int32 (slice 0 4 p)) (slice (4 + 3 * m) a p)
        (slice (4 + 3 * m + a) a p)], Outcome.ok⟩

/-- Source `clientReadEntityStatus`: the struct is `EntityID, Status`. -/
def clientReadEntityStatus (T : WireTypes) (r : List Nat) : Result :=
  match binaryRead (sizeEntityID + T.entityStatus) r with
  | (Except.error e, r1) => ⟨r1, [], Outcome.error e⟩
  | (Except.ok p, r1) =>
    ⟨r1, [Call.ClientRecvEntityStatus (int32 (slice 0 4 p)) (slice 4 T.entityStatus p)],
      Outcome.ok⟩

/-- Source `clientReadUnknownX28`: an `int32`, then the unknown extra data. -/
def clientReadUnknownX28 (r : List Nat) : Result :=
  match binaryRead 4 r with
  | (Except.error e, r1) => ⟨r1, [], Outcome.error e⟩
  | (Except.ok p, r1) =>
    match (readUnknownExtra r1).err with
    | some e => ⟨(readUnknownExtra r1).rest, [], Outcome.error e⟩
    | none =>
      ⟨(readUnknownExtra r1).rest, [Call.ClientRecvUnknownX28 (int32 p) (readUnknownExtra r1).data],
        Outcome.ok⟩

/-- Source `clientReadPreChunk`: the struct is `X, Z, Mode`. -/
def clientReadPreChunk (T : WireTypes) (r : List Nat) : Result :=
  match binaryRead (sizeChunkCoord + sizeChunkCoord + T.chunkLoadMode) r with
  | (Except.error e, r1) => ⟨r1, [], Outcome.error e⟩
  | (Except.ok p, r1) =>
    ⟨r1, [Call.ClientRecvPreChunk (int32 (slice 0 4 p)) (int32 (slice 4 4 p))
      (slice 8 T.chunkLoadMode p)], Outcome.ok⟩

/-- Source `clientReadMapChunk`: the struct is
`X, Y, Z, SizeX, SizeY, SizeZ, CompressedLength int32`; `make` panics on a negative
length. -/
def clientReadMapChunk (T : WireTypes) (r : List Nat) : Result :=
  match binaryRead (sizeBlockCoord + sizeBlockYCoord + sizeBlockCoord + 3 * T.subChunkSizeCoord
      + 4) r with
  | (Except.error e, r1) => ⟨r1, [], Outcome.error e⟩
  | (Except.ok p, r1) =>
    let c := T.subChunkSizeCoord
    let compressedLength := int32 (slice (9 + 3 * c) 4 p)
    if compressedLength < 0 then ⟨r1, [], Outcome.panic⟩
    else
      match (readFull compressedLength.toNat r1).err with
      | some e => ⟨(readFull compressedLength.toNat r1).rest, [], Outcome.error e⟩
      | none =>
        ⟨(readFull compressedLength.toNat r1).rest,
          [Call.ClientRecvMapChunk (int32 (slice 0 4 p)) (int8 (slice 4 1 p))
            (int32 (slice 5 4 p)) (slice 9 c p) (slice (9 + c) c p) (slice (9 + 2 * c) c p)
            (readFull compressedLength.toNat r1).buf], Outcome.ok⟩

/-- Go `binary.Read(reader, binary.BigEndian, data)` for a slice `data` of `n` elements of
`w` bytes each, already made (all zero): the elements as their bytes, the error, the reader
afterwards. On an error the slice keeps its zero elements. -/
def binaryReadSlice (w n : Nat) (r : List Nat) : List (List Nat) × Option Error × List Nat :=
  match binaryRead (w * n) r with
  | (Except.error e, r1) => (List.replicate n (List.replicate w 0), some e, r1)
  | (Except.ok bs, r1) => ((List.range n).map (fun i => slice (w * i) w bs), none, r1)

/-- The end of a reader whose named result `err` has the value `e` at its `return`. -/
def Outcome.ofErr (e : Option Error) : Outcome :=
  match e with
  | some x => Outcome.error x
  | none => Outcome.ok

/-- The element that the `for ... range rawBlockLocs` loop of `clientReadBlockChangeMulti`
appends for the loop variable `rawLoc`, which ranges over the indices of the slice. -/
def blockLocOfRaw (T : WireTypes) (rawLoc : Nat) : SubChunkXYZ :=
  { X := T.subChunkCoord ((rawLoc >>> 12 : Nat) : Int)
    Y := T.subChunkCoord ((rawLoc &&& 0xff : Nat) : Int)
    Z := T.subChunkCoord (((rawLoc >>> 8) &&& 0xff : Nat) : Int) }

/-- Source `clientReadBlockChangeMulti`: the struct is `ChunkX, ChunkZ, Count int16`; the
three slices are made with `Count` elements (`make` panics on a negative length) and read
one after the other, each read overwriting `err`; `blockLocs` is made with `Count` zero
elements and the loop appends to it. -/
def clientReadBlockChangeMulti (T : WireTypes) (r : List Nat) : Result :=
  match binaryRead (sizeChunkCoord + sizeChunkCoord + 2) r with
  | (Except.error e, r1) => ⟨r1, [], Outcome.error e⟩
  | (Except.ok p, r1) =>
    let count := int16 (slice 8 2 p)
    if count < 0 then ⟨r1, [], Outcome.panic⟩
    else
      let n := count.toNat
      let rawBlockLocs := binaryReadSlice 2 n r1
      let blockTypes := binaryReadSlice sizeBlockID n rawBlockLocs.2.2
      let blockMetadata := binaryReadSlice 1 n blockTypes.2.2
      let blockLocs : List SubChunkXYZ :=
        List.replicate n ⟨0, 0, 0⟩ ++ (List.range (rawBlockLocs.1.length)).map (blockLocOfRaw T)
      ⟨blockMetadata.2.2,
        [Call.ClientRecvBlockChangeMulti (int32 (slice 0 4 p)) (int32 (slice 4 4 p)) blockLocs
          (blockTypes.1.map beNat) (blockMetadata.1.map beNat)],
        Outcome.ofErr blockMetadata.2.1⟩

/-- Source `clientReadBlockChange`: the struct is `X, Y, Z, BlockType, BlockMetadata byte`. -/
def clientReadBlockChange (r : List Nat) : Result :=
  match binaryRead (sizeBlockCoord + sizeBlockYCoord + sizeBlockCoord + sizeBlockID + 1) r with
  | (Except.error e, r1) => ⟨r1, [], Outcome.error e⟩
  | (Except.ok p, r1) =>
    ⟨r1, [Call.ClientRecvBlockChange (int32 (slice 0 4 p)) (int8 (slice 4 1 p))
      (int32 (slice 5 4 p)) (beNat (slice 9 1 p)) (beNat (slice 10 1 p))], Outcome.ok⟩

/-- Source `clientReadUnknownX36`: the struct is
`Field1 int32, Field2 int16, Field3 int32, Field4, Field5 byte`. -/
def clientReadUnknownX36 (r : List Nat) : Result :=
  match binaryRead 12 r with
  | (Except.error e, r1) => ⟨r1, [], Outcome.error e⟩
  | (Except.ok p, r1) =>
    ⟨r1, [Call.ClientRecvUnknownX36 (int32 (slice 0 4 p)) (int16 (slice 4 2 p))
      (int32 (slice 6 4 p)) (beNat (slice 10 1 p)) (beNat (slice 11 1 p))], Outcome.ok⟩

/-- Source `clientReadSetSlot`: the struct `packetStart` is `WindowID, Slot, ItemID`, the
struct `packetEnd` is `Amount, Uses` and keeps its zero values unless it is read. -/
def clientReadSetSlot (T : WireTypes) (r : List Nat) : Result :=
  match binaryRead (T.windowID + T.slotID + sizeItemID) r with
  | (Except.error e, r1) => ⟨r1, [], Outcome.error e⟩
  | (Except.ok p, r1) =>
    let windowID := slice 0 T.windowID p
    let slot := slice T.windowID T.slotID p
    let itemID := int16 (slice (T.windowID + T.slotID) 2 p)
    if itemID ≠ -1 then
      match binaryRead (sizeItemCount + sizeItemUses) r1 with
      | (Except.error e, r2) => ⟨r2, [], Outcome.error e⟩
      | (Except.ok q, r2) =>
        ⟨r2, [Call.ClientRecvSetSlot windowID slot itemID (int8 (slice 0 1 q))
          (int16 (slice 1 2 q))], Outcome.ok⟩
    else
      ⟨r1, [Call.ClientRecvSetSlot windowID slot itemID 0 0], Outcome.ok⟩

/-- The `for` loop of `clientReadWindowItems` with `n` iterations still to run, from the
reader `r` and the current value of `items`: the final `items`, the error that ended the
loop early if one did, the reader afterwards. The struct `itemInfo` is `Amount, Uses` and
is declared afresh, zero, by each iteration. -/
def readWindowItemsLoop : Nat → List Nat → List WindowSlot →
    List WindowSlot × Option Error × List Nat
  | 0, r, items => (items, none, r)
  | n + 1, r, items =>
    match binaryRead sizeItemID r with
    | (Except.error e, r1) => (items, some e, r1)
    | (Except.ok ib, r1) =>
      if int16 ib ≠ -1 then
        match binaryRead (sizeItemCount + sizeItemUses) r1 with
        | (Except.error e, r2) => (items, some e, r2)
        | (Except.ok q, r2) =>
          readWindowItemsLoop n r2
            (items ++ [⟨int16 ib, int8 (slice 0 1 q), int16 (slice 1 2 q)⟩])
      else
        readWindowItemsLoop n r1 (items ++ [⟨int16 ib, 0, 0⟩])

/-- Source `clientReadWindowItems`: the struct `packetStart` is `WindowID, Count int16`;
`items` is made with `Count` zero elements (`make` panics on a negative length) and the
loop appends to it. -/
def clientReadWindowItems (T : WireTypes) (r : List Nat) : Result :=
  match binaryRead (T.windowID + 2) r with
  | (Except.error e, r1) => ⟨r1, [], Outcome.error e⟩
  | (Except.ok p, r1) =>
    let windowID := slice 0 T.windowID p
    let count := int16 (slice T.windowID 2 p)
    if count < 0 then ⟨r1, [], Outcome.panic⟩
    else
      let loop := readWindowItemsLoop count.toNat r1 (List.replicate count.toNat ⟨0, 0, 0⟩)
      match loop.2.1 with
      | some e => ⟨loop.2.2, [], Outcome.error e⟩
      | none => ⟨loop.2.2, [Call.ClientRecvWindowItems windowID loop.1], Outcome.ok⟩

/-! ## The tables of readers and the two entry points -/

/-- Source table `commonReadFns`: the reader registered for a packet id, if there is one. -/
def commonReadFns (T : WireTypes) (packetID : Nat) : Option (List Nat → Result) :=
  match packetID with
  | 0x00 => some readKeepAlive
  | 0x03 => some readChatMessage
  | 0x0a => some readFlying
  | 0x0b => some (readPlayerPosition T)
  | 0x0c => some (readPlayerLook T)
  | 0x0e => some (readPlayerDigging T)
  | 0x0f => some (readPlayerBlockPlacement T)
  | 0x12 => some (readPlayerAnimation T)
  | 0xff => some readDisconnect
  | _ => none

/-- Source table `csReadFns`: the readers for packets from a client to the server. -/
def csReadFns (T : WireTypes) (packetID : Nat) : Option (List Nat → Result) :=
  match packetID with
  | 0x0d => some (serverReadPlayerPositionLook T)
  | 0x66 => some (serverReadWindowClick T)
  | 0x10 => some serverReadHoldingChange
  | _ => none

/-- Source table `scReadFns`: the readers for packets from the server to a client. -/
def scReadFns (T : WireTypes) (packetID : Nat) : Option (List Nat → Result) :=
  match packetID with
  | 0x01 => some (clientReadLogin T)
  | 0x04 => some (clientReadTimeUpdate T)
  | 0x06 => some clientReadSpawnPosition
  | 0x07 => some clientReadUseEntity
  | 0x08 => some clientReadUpdateHealth
  | 0x0d => some (clientReadPlayerPositionLook T)
  | 0x18 => some (clientReadEntitySpawn T)
  | 0x15 => some (clientReadPickupSpawn T)
  | 0x16 => some clientReadItemCollect
  | 0x19 => some clientReadUnknownX19
  | 0x1c => some (clientReadEntityVelocity T)
  | 0x1d => some clientReadEntityDestroy
  | 0x1e => some clientReadEntity
  | 0x1f => some (clientReadEntityRelMove T)
  | 0x20 => some (clientReadEntityLook T)
  | 0x21 => some (clientReadEntityLookAndRelMove T)
  | 0x26 => some (clientReadEntityStatus T)
  | 0x28 => some clientReadUnknownX28
  | 0x32 => some (clientReadPreChunk T)
  | 0x33 => some (clientReadMapChunk T)
  | 0x34 => some (clientReadBlockChangeMulti T)
  | 0x35 => some clientReadBlockChange
  | 0x36 => some clientReadUnknownX36
  | 0x67 => some (clientReadSetSlot T)
  | 0x68 => some (clientReadWindowItems T)
  | _ => none

/-- Source `ServerReadPacket`. -/
def ServerReadPacket (T : WireTypes) (r : List Nat) : Result :=
  match binaryRead 1 r with
  | (Except.error e, r1) => ⟨r1, [], Outcome.error e⟩
  | (Except.ok b, r1) =>
    match commonReadFns T (beNat b) with
    | some commonFn => commonFn r1
    | none =>
      match csReadFns T (beNat b) with
      | some csFn => csFn r1
      | none => ⟨r1, [], Outcome.error (Error.unhandledPacketType (beNat b))⟩

/-- Source `ClientReadPacket`. -/
def ClientReadPacket (T : WireTypes) (r : List Nat) : Result :=
  match binaryRead 1 r with
  | (Except.error e, r1) => ⟨r1, [], Outcome.error e⟩
  | (Except.ok b, r1) =>
    match commonReadFns T (beNat b) with
    | some commonFn => commonFn r1
    | none =>
      match scReadFns T (beNat b) with
      | some scFn => scFn r1
      | none => ⟨r1, [], Outcome.error (Error.unhandledPacketType (beNat b))⟩

/-! ## Packet writers -/

/-- Source `WriteBlockChange`: the struct written is
`PacketID byte, X, Y, Z, BlockType, BlockMetadata byte` with `PacketID = 0x35`. -/
def WriteBlockChange (x y z : Int) (blockType blockMetaData : Nat) : List Nat :=
  putByte 0x35 ++ putInt32 x ++ putInt8 y ++ putInt32 z ++ putByte blockType
    ++ putByte blockMetaData


/-- Source `ServerWriteLogin`: the struct `PacketID byte, EntityID` with
`PacketID = packetIDLogin`, two empty strings, the struct `MapSeed, Dimension` with both
fields zero (a zero of any numeric type is written as zero bytes). -/
def ServerWriteLogin (T : WireTypes) (entityID : Int) : List Nat :=
  (putByte packetIDLogin ++ putInt32 entityID) ++ WriteString [] ++ WriteString []
    ++ (List.replicate T.randomSeed 0 ++ List.replicate T.dimensionID 0)

/-- Source `WriteChatMessage`: the byte `packetIDChatMessage = 0x03`, then the string. -/
def WriteChatMessage (message : List Nat) : List Nat :=
  putByte 0x03 ++ WriteString message

/-- Modelled from the spec: the constant `ChunkSizeX` of the absent package
`chunkymonkey/types`; a chunk is a 16×128×16 column of blocks. -/
def ChunkSizeX : Nat := 16

/-- Modelled from the spec: the constant `ChunkSizeY` of the absent package
`chunkymonkey/types`; a chunk is a 16×128×16 column of blocks. -/
def ChunkSizeY : Nat := 128

/-- Modelled from the spec: the constant `ChunkSizeZ` of the absent package
`chunkymonkey/types`; a chunk is a 16×128×16 column of blocks. -/
def ChunkSizeZ : Nat := 16

/-- Source `WriteMapChunk`. The zlib stream that `zlib.NewWriter` produces for the bytes
written to it is the parameter `Z`; the method `GetChunkCornerBlockXY` of the absent
package `chunkymonkey/types` is the parameter `getChunkCornerBlockXY`, from the chunk
location to the block location `(x, y, z)`. The struct written is
`PacketID byte, X, Y, Z, SizeX, SizeY, SizeZ, CompressedLength int32` with
`PacketID = 0x33`, followed by the compressed bytes. -/
def WriteMapChunk (T : WireTypes) (Z : List Nat → List Nat)
    (getChunkCornerBlockXY : Int → Int → Int × Int × Int) (chunkX chunkZ : Int)
    (blocks blockData blockLight skyLight : List Nat) : List Nat :=
  let bs := Z (blocks ++ blockData ++ blockLight ++ skyLight)
  let chunkCornerLoc := getChunkCornerBlockXY chunkX chunkZ
  (putByte 0x33 ++ putInt32 chunkCornerLoc.1 ++ putInt8 chunkCornerLoc.2.1
      ++ putInt32 chunkCornerLoc.2.2
      ++ beBytes T.subChunkSizeCoord (ChunkSizeX - 1)
      ++ beBytes T.subChunkSizeCoord (ChunkSizeY - 1)
      ++ beBytes T.subChunkSizeCoord (ChunkSizeZ - 1)
      ++ putInt32 (toSigned 32 bs.length))
    ++ bs

/-- Source `ServerWritePlayerPositionLook`: the struct written is
`PacketID byte, X, Y, Stance, Z, Yaw, Pitch, OnGround byte` with
`PacketID = packetIDPlayerPositionLook = 0x0d`. The coordinates, the stance and the angles
are given by their wire bytes. -/
def ServerWritePlayerPositionLook (x y z yaw pitch stance : List Nat) (onGround : Bool) :
    List Nat :=
  putByte 0x0d ++ x ++ y ++ stance ++ z ++ yaw ++ pitch ++ putByte (boolToByte onGround)

/-! ## The format of the unknown extra data, as the design describes it -/

/-- One record of the unknown extra data as the written design describes the format (this
is the specification side, not code of the repository): an entry type byte and a payload
that is a byte, an `i16`, an `i32`, an `f32`, a length-prefixed string or a packed
`(i16, byte, i16)` position, given here by its bytes. -/
inductive ExtraRecord where
  | byteRec (entryType v : Nat)
  | int16Rec (entryType b1 b0 : Nat)
  | int32Rec (entryType b3 b2 b1 b0 : Nat)
  | floatRec (entryType b3 b2 b1 b0 : Nat)
  | stringRec (entryType : Nat) (s : List Nat)
  | positionRec (entryType x1 x0 y z1 z0 : Nat)
  deriving DecidableEq, Repr

/-- The entry type byte of a record of the format. -/
def ExtraRecord.entryType : ExtraRecord → Nat
  | byteRec t _ => t
  | int16Rec t _ _ => t
  | int32Rec t _ _ _ _ => t
  | floatRec t _ _ _ _ => t
  | stringRec t _ => t
  | positionRec t _ _ _ _ _ => t

/-- The kind that the format assigns to each payload shape: the value that the top three
bits of the entry type must have. -/
def ExtraRecord.kind : ExtraRecord → Nat
  | byteRec _ _ => 0
  | int16Rec _ _ _ => 1
  | int32Rec _ _ _ _ _ => 2
  | floatRec _ _ _ _ _ => 3
  | stringRec _ _ => 4
  | positionRec _ _ _ _ _ _ => 5

/-- The payload bytes of a record of the format: 1, 2, 4, 4 and 5 bytes, and for a string
its `i16` length followed by its bytes. -/
def ExtraRecord.payload : ExtraRecord → List Nat
  | byteRec _ v => [v]
  | int16Rec _ b1 b0 => [b1, b0]
  | int32Rec _ b3 b2 b1 b0 => [b3, b2, b1, b0]
  | floatRec _ b3 b2 b1 b0 => [b3, b2, b1, b0]
  | stringRec _ s => [s.length / 256, s.length % 256] ++ s
  | positionRec _ x1 x0 y z1 z0 => [x1, x0, y, z1, z0]

/-- The value a record of the format stands for. -/
def ExtraRecord.value : ExtraRecord → ExtraValue
  | byteRec _ v => ExtraValue.byteVal v
  | int16Rec _ b1 b0 => ExtraValue.int16Val (int16 [b1, b0])
  | int32Rec _ b3 b2 b1 b0 => ExtraValue.int32Val (int32 [b3, b2, b1, b0])
  | floatRec _ b3 b2 b1 b0 => ExtraValue.floatVal (beNat [b3, b2, b1, b0])
  | stringRec _ s => ExtraValue.stringVal s
  | positionRec _ x1 x0 y z1 z0 => ExtraValue.position (int16 [x1, x0]) y (int16 [z1, z0])

/-- A record of the format is well formed when its entry type is not the terminator 127,
the top three bits of the entry type are its kind, and a string is at most 32767 bytes
long. -/
def ExtraRecord.wellFormed (rec : ExtraRecord) : Prop :=
  rec.entryType ≠ 127 ∧ (rec.entryType &&& 0xe0) >>> 5 = rec.kind
    ∧ (∀ t s, rec = ExtraRecord.stringRec t s → s.length ≤ 32767)

/-- The bytes of a sequence of records of the format, one after the other: each is its
entry type byte followed by its payload. -/
def extraRecordsBytes : List ExtraRecord → List Nat
  | [] => []
  | rec :: recs => (rec.entryType :: rec.payload) ++ extraRecordsBytes recs



/-! ## Properties of outcomes -/

/-- The outcome is not the unhandled-packet-type error with which `ServerReadPacket` and
`ClientReadPacket` answer a packet id that has no reader. -/
def Outcome.handled (o : Outcome) : Prop :=
  ∀ id : Nat, o ≠ Outcome.error (Error.unhandledPacketType id)

end Proto

/-! # The window package

The definitions below follow `src/chunkymonkey/window/window.go`. Windows and inventories
are objects with identity: a world holds them by reference (a natural number), and a
pointer to an element of a window's `views` slice is the window's reference with an index.
The viewer of a window (`IWindowViewer`) is the list of the packets passed to its
`TransmitPacket`, in order.
-/

namespace window

/-- Modelled from the spec: the type `slot.Slot` of the absent package `chunkymonkey/slot`;
a slot is `(itemType: i16, count: i8, uses: i16)`. -/
structure Slot where
  itemType : Int
  count : Int
  uses : Int
  deriving DecidableEq, Repr

/-- What this package takes from absent packages, as parameters: `slotId x` is the value of
type `SlotId` (package `chunkymonkey/types`) that the integer `x` has after a `SlotId`
addition, so that the Go expression `a + b` on slot ids is `slotId (a + b)`;
`sendUpdate slot windowId slotId` is the bytes that `slot.SendUpdate(buf, windowId, slotId)`
writes to the empty buffer `buf` (package `chunkymonkey/slot`); `writeWindowClose windowId`
is the bytes that `proto.WriteWindowClose(buf, windowId)` writes. -/
structure Env where
  slotId : Int → Int
  sendUpdate : Slot → Int → Int → List Nat
  writeWindowClose : Int → List Nat

/-- A pointer `&w.views[index]` to an `inventoryView`, which is what an inventory holds as
its subscriber. -/
structure ViewRef where
  window : Nat
  index : Nat
  deriving DecidableEq, Repr

/-- Modelled from the spec: an implementation of `IInventory`, the package
`chunkymonkey/inventory` being absent. An inventory has a number of slots and a
`SetSubscriber(one)` slot holding at most one subscriber. -/
structure Inventory where
  numSlots : Int
  subscriber : Option ViewRef
  deriving DecidableEq, Repr

/-- Source type `inventoryView`. The pointer `window` and the interface value `inventory`
are references, `none` for `nil`. -/
structure inventoryView where
  window : Option Nat
  inventory : Option Nat
  startSlot : Int
  endSlot : Int
  deriving DecidableEq, Repr

/-- Source type `Window`. The viewer is a reference to an `IWindowViewer`. -/
structure Window where
  windowId : Int
  invTypeId : Int
  viewer : Nat
  views : List inventoryView
  title : List Nat
  numSlots : Int
  deriving DecidableEq, Repr

/-- The objects the package works on: the inventories and windows by reference, for each
viewer the packets passed to its `TransmitPacket`, the calls of `SetSubscriber` made so far
(inventory and argument), and whether a nil dereference has panicked. -/
structure World where
  inventories : Nat → Inventory
  windows : Nat → Window
  transmitted : Nat → List (List Nat)
  setSubscriberCalls : List (Nat × Option ViewRef)
  panicked : Bool

/-- Modelled from the spec: the method `SetSubscriber` of an inventory, the package
`chunkymonkey/inventory` being absent: the inventory holds the one subscriber last set,
or none after `SetSubscriber(nil)`. The call is recorded. -/
def SetSubscriber (σ : World) (inv : Nat) (subscriber : Option ViewRef) : World :=
  { σ with
    inventories := fun i =>
      if i = inv then { σ.inventories i with subscriber := subscriber } else σ.inventories i
    setSubscriberCalls := σ.setSubscriberCalls ++ [(inv, subscriber)] }

/-- The method `TransmitPacket` of a viewer: the packet is recorded. -/
def TransmitPacket (σ : World) (viewer : Nat) (packet : List Nat) : World :=
  { σ with
    transmitted := fun v => if v = viewer then σ.transmitted v ++ [packet] else σ.transmitted v }

/-- A nil dereference. -/
def panic (σ : World) : World :=
  { σ with panicked := true }

/-- The assignment of the four fields of `w.views[index]`. -/
def setView (σ : World) (iv : ViewRef) (view : inventoryView) : World :=
  { σ with
    windows := fun w =>
      if w = iv.window then
        { σ.windows w with views := (σ.windows w).views.set iv.index view }
      else σ.windows w }

/-- Source `inventoryView.Init`, on the view `iv`. -/
def inventoryView.Init (σ : World) (iv : ViewRef) (window : Nat) (inventory : Nat)
    (startSlot endSlot : Int) : World :=
  SetSubscriber (setView σ iv ⟨some window, some inventory, startSlot, endSlot⟩) inventory
    (some iv)

/-- Source `inventoryView.Finalize`, on a view given by its fields. -/
def inventoryView.Finalize (σ : World) (view : inventoryView) : World :=
  match view.inventory with
  | none => panic σ
  | some inv => SetSubscriber σ inv none

/-- Source `inventoryView.SlotUpdate`, on the view `iv`: the bytes that `slot.SendUpdate`
writes for the window's id and `iv.startSlot + slotId` are passed to the `TransmitPacket`
of the window's viewer. -/
def inventoryView.SlotUpdate (E : Env) (σ : World) (iv : ViewRef) (slot : Slot)
    (slotId : Int) : World :=
  match (σ.windows iv.window).views[iv.index]? with
  | none => panic σ
  | some view =>
    match view.window with
    | none => panic σ
    | some w =>
      TransmitPacket σ (σ.windows w).viewer
        (E.sendUpdate slot (σ.windows w).windowId (E.slotId (view.startSlot + slotId)))

/-- Modelled from the spec: an inventory, the package `chunkymonkey/inventory` being
absent, emits `SlotUpdate(slot, slotId)` to its subscriber on a mutation of a slot, and to
nobody when it has no subscriber. -/
def emitSlotUpdate (E : Env) (σ : World) (inv : Nat) (slot : Slot) (slotId : Int) : World :=
  match (σ.inventories inv).subscriber with
  | none => σ
  | some iv => inventoryView.SlotUpdate E σ iv slot slotId

/-- The `for index, inv := range inventories` loop of `Window.Init` on the window `w`, from
the index `index` with the current `startSlot`: the world and the final `startSlot`. -/
def initLoop (E : Env) (w : Nat) : List Nat → Nat → Int → World → World × Int
  | [], _, startSlot, σ => (σ, startSlot)
  | inv :: inventories, index, startSlot, σ =>
    initLoop E w inventories (index + 1) (E.slotId (startSlot + (σ.inventories inv).numSlots))
      (inventoryView.Init σ ⟨w, index⟩ w inv startSlot
        (E.slotId (startSlot + (σ.inventories inv).numSlots)))

/-- Source `Window.Init`, on the window `w`: the fields are set, `views` is made with one
zero element for each inventory, the loop initialises the views, and `numSlots` is the
final `startSlot`. -/
def Window.Init (E : Env) (σ : World) (w : Nat) (windowId invTypeId : Int) (viewer : Nat)
    (title : List Nat) (inventories : List Nat) : World :=
  let σ0 : World :=
    { σ with
      windows := fun v =>
        if v = w then
          { windowId := windowId, invTypeId := invTypeId, viewer := viewer,
            views := List.replicate inventories.length ⟨none, none, 0, 0⟩,
            title := title, numSlots := (σ.windows v).numSlots }
        else σ.windows v }
  let r := initLoop E w inventories 0 0 σ0
  { r.1 with
    windows := fun v =>
      if v = w then { r.1.windows v with numSlots := r.2 } else r.1.windows v }

/-- The `for index := range w.views` loop of `Window.Finalize`, over the views still to
finalize. A panic ends it. -/
def finalizeLoop : List inventoryView → World → World
  | [], σ => σ
  | view :: views, σ =>
    if (inventoryView.Finalize σ view).panicked then inventoryView.Finalize σ view
    else finalizeLoop views (inventoryView.Finalize σ view)

/-- Source `Window.Finalize`, on the window `w`: every view is finalized; with
`sendClosePacket` the close packet is written to a buffer, and nothing is done with the
buffer. -/
def Window.Finalize (E : Env) (σ : World) (w : Nat) (sendClosePacket : Bool) : World :=
  let σ1 := finalizeLoop (σ.windows w).views σ
  if sendClosePacket then
    let _buf := E.writeWindowClose (σ1.windows w).windowId
    σ1
  else σ1

/-- The sum of the numbers of slots `numSlots inv` over a list of inventories. -/
def slotSum (numSlots : Nat → Int) (inventories : List Nat) : Int :=
  (inventories.map numSlots).sum

/-- The calls of `SetSubscriber` that subscribe view `k`, `k + 1`, ... of the window `w` to
the inventories of the list, one call for each, in order. -/
def initCalls (w : Nat) : Nat → List Nat → List (Nat × Option ViewRef)
  | _, [] => []
  | k, inv :: invs => (inv, some ⟨w, k⟩) :: initCalls w (k + 1) invs

/-- The method `NumSlots` of the inventory `inv` in the world `σ`. -/
def NumSlots (σ : World) (inv : Nat) : Int :=
  (σ.inventories inv).numSlots

/-- A sample of the absent packages, for evaluation: slot ids are 16-bit signed integers,
`slot.SendUpdate` writes a set-slot packet `0x67, windowId, slotId (2 bytes), itemType
(2 bytes)` followed by count and uses (2 bytes) unless the item type is -1, and
`proto.WriteWindowClose` writes `0x65, windowId`. -/
def sampleEnv : Env where
  slotId := fun x => Proto.toSigned 16 (Proto.toUnsigned 16 x)
  sendUpdate := fun slot windowId slotId =>
    [0x67] ++ Proto.putInt8 windowId ++ Proto.putInt16 slotId ++ Proto.putInt16 slot.itemType
      ++ (if slot.itemType ≠ -1 then Proto.putInt8 slot.count ++ Proto.putInt16 slot.uses
          else [])
  writeWindowClose := fun windowId => [0x65] ++ Proto.putInt8 windowId

/-- A sample world, for evaluation: the inventories 10, 11 and 12 are a main inventory of
36 slots, an armor inventory of 4 and a crafting inventory of 5, all without subscriber;
no window is initialised and nothing has been transmitted. -/
def sampleWorld : World where
  inventories := fun i =>
    if i = 10 then ⟨36, none⟩ else if i = 11 then ⟨4, none⟩ else if i = 12 then ⟨5, none⟩
    else ⟨0, none⟩
  windows := fun _ => ⟨0, 0, 0, [], [], 0⟩
  transmitted := fun _ => []
  setSubscriberCalls := []
  panicked := false

end window

/-! # The block loader

Package `chunkymonkey/block`, file `loader.go`. The JSON decoder and `json.Unmarshal` are
the standard library's and stand as parameters: the decoder by what it leaves in the map and
whether it reports an error, `json.Unmarshal` by whether it accepts the raw arguments for
the aspect. A Go map is ranged over in an order the language leaves open, so that each of
the two `range` loops of `LoadBlockDefs` has its own list of the entries of the map. -/

namespace block

/-- The errors `LoadBlockDefs` can return: the one of the decoder, the one of
`strconv.Atoi` for a key, the three made with `os.NewError`, and the one of
`json.Unmarshal`. -/
inductive Error where
  | decode
  | atoi (s : String)
  | outOfRange (id : Int)
  | definedMoreThanOnce (id : Int)
  | unknownAspect (name : String)
  | unmarshal
  deriving DecidableEq, Repr

/-- What a Go call ends with: it returns a value and an error (`none` for `nil`), or it
panics. -/
inductive Loaded (α : Type) where
  | returned (value : α) (err : Option Error)
  | panic
  deriving DecidableEq, Repr

/-- The value of a string of decimal digits after the digits `acc` read so far, most
significant first; `none` when a character is not a digit. -/
def digitsValue : List Char → Nat → Option Nat
  | [], acc => some acc
  | c :: cs, acc =>
    if 48 ≤ c.toNat ∧ c.toNat ≤ 57 then digitsValue cs (acc * 10 + (c.toNat - 48)) else none

/-- The standard library's `strconv.Atoi`, for an `int` of 32 bits: an optional sign `+`
(43) or `-` (45) and then one or more decimal digits. The value is 0 with an error when the
string is not of this form, and the nearest `int` with an error when the number is out of
the range of `int`. -/
def Atoi (s : String) : Int × Option Error :=
  match s.toList with
  | [] => (0, some (Error.atoi s))
  | c :: cs =>
    match (if c.toNat = 43 ∨ c.toNat = 45 then cs else c :: cs) with
    | [] => (0, some (Error.atoi s))
    | d :: ds =>
      match digitsValue (d :: ds) 0 with
      | none => (0, some (Error.atoi s))
      | some un =>
        if c.toNat = 45 then
          (if 2 ^ 31 < un then (-(2 ^ 31), some (Error.atoi s)) else (-(un : Int), none))
        else
          (if 2 ^ 31 ≤ un then (2 ^ 31 - 1, some (Error.atoi s)) else ((un : Int), none))

/-- The kinds of aspect the package makes: the results of `makeStandardAspect` and of
`makeVoidAspect`, whose declarations are in files of the package that are absent. -/
inductive AspectKind where
  | standard
  | void
  deriving DecidableEq, Repr

/-- A value of the interface `IBlockAspect`: an aspect made by one of the makers and then
filled by `json.Unmarshal` from the raw arguments. -/
structure IBlockAspect where
  kind : AspectKind
  args : List Nat
  deriving DecidableEq, Repr

/-- Source type `BlockType`, as far as the loader uses it; the embedded `BlockAttrs`, whose
declaration is absent, is of the parameter type `Attrs`. The `Aspect` is `none` for the nil
interface. -/
structure BlockType (Attrs : Type) where
  attrs : Attrs
  Aspect : Option IBlockAspect
  defined : Bool
  deriving DecidableEq, Repr

/-- Source type `blockDef`. The pointer `AspectArgs` is `none` for `nil`, which is what the
decoder leaves when the JSON object has no such member, and else the bytes of `Raw`. -/
structure blockDef (Attrs : Type) where
  attrs : Attrs
  Aspect : String
  AspectArgs : Option (List Nat)
  deriving DecidableEq, Repr

/-- The map `aspectMakers` as `init` sets it: the maker registered under a name, `none`
when the name is not a key. -/
def aspectMakers (name : String) : Option AspectKind :=
  if name = "Standard" then some AspectKind.standard
  else if name = "Void" then some AspectKind.void
  else none

/-- Source `blockDef.loadAspect`. The parameter `unmarshal kind raw` says whether
`json.Unmarshal(raw, aspect)` returns no error for an aspect of this kind. The map is
looked up before `bd.AspectArgs` is dereferenced, and a nil `AspectArgs` panics. -/
def loadAspect {Attrs : Type} (unmarshal : AspectKind → List Nat → Bool)
    (bd : blockDef Attrs) : Loaded (Option IBlockAspect) :=
  match aspectMakers bd.Aspect with
  | none => Loaded.returned none (some (Error.unknownAspect bd.Aspect))
  | some kind =>
    match bd.AspectArgs with
    | none => Loaded.panic
    | some raw =>
      Loaded.returned (some ⟨kind, raw⟩) (if unmarshal kind raw then none else some Error.unmarshal)

/-- Source `blockDef.LoadBlockType`: the block is nil when the aspect did not load. -/
def LoadBlockType {Attrs : Type} (unmarshal : AspectKind → List Nat → Bool)
    (bd : blockDef Attrs) : Loaded (Option (BlockType Attrs)) :=
  match loadAspect unmarshal bd with
  | Loaded.panic => Loaded.panic
  | Loaded.returned _ (some e) => Loaded.returned none (some e)
  | Loaded.returned aspect none => Loaded.returned (some ⟨bd.attrs, aspect, false⟩) none

/-- The first loop of `LoadBlockDefs`, `for idStr := range blocksStr`, over the entries
still to visit, with the current `maxId` and `err`: either the function returns with an
error, or the loop ends with `maxId` and `err`. Each pass assigns `err`. -/
def rangeCheckLoop {Attrs : Type} :
    List (String × blockDef Attrs) → Int → Option Error → Except Error (Int × Option Error)
  | [], maxId, err => Except.ok (maxId, err)
  | (idStr, _) :: rest, maxId, _ =>
    match (Atoi idStr).2 with
    | some e => Except.error e
    | none =>
      if (Atoi idStr).1 < 0 ∨ (Atoi idStr).1 > 255 then
        Except.error (Error.outOfRange (Atoi idStr).1)
      else
        rangeCheckLoop rest (if (Atoi idStr).1 > maxId then (Atoi idStr).1 else maxId) none

/-- The second loop of `LoadBlockDefs`, `for idStr, blockDef := range blocksStr`, over the
entries still to visit, with the current `blocks` and `err`. An index out of the range of
`blocks` panics. The error assigned when `blocks[id].defined` holds is assigned over by the
next statement, `block, err = blockDef.LoadBlockType()`, before anything reads it. -/
def loadLoop {Attrs : Type} (unmarshal : AspectKind → List Nat → Bool) :
    List (String × blockDef Attrs) → List (BlockType Attrs) → Option Error →
      Loaded (List (BlockType Attrs))
  | [], blocks, err => Loaded.returned blocks err
  | (idStr, bd) :: rest, blocks, err =>
    if (Atoi idStr).1 < 0 then Loaded.panic
    else
      match blocks[(Atoi idStr).1.toNat]? with
      | none => Loaded.panic
      | some old =>
        let _err : Option Error :=
          if old.defined then some (Error.definedMoreThanOnce (Atoi idStr).1) else err
        match LoadBlockType unmarshal bd with
        | Loaded.panic => Loaded.panic
        | Loaded.returned _ (some e) => Loaded.returned blocks (some e)
        | Loaded.returned none none => Loaded.panic
        | Loaded.returned (some block) none =>
          loadLoop unmarshal rest
            (blocks.set (Atoi idStr).1.toNat { block with defined := true }) none

/-- Source `LoadBlockDefs`, after `decoder.Decode(&blocksStr)`: `decodeFails` says whether
the decoder returned an error, `first` and `second` are the entries of the map `blocksStr`
in the order of the first and of the second `range` loop. The error of the decoder is
assigned to `err` and not looked at. The nil list is `[]`, and the zero `BlockType` has
the zero `Attrs`. -/
def LoadBlockDefs {Attrs : Type} [Inhabited Attrs] (unmarshal : AspectKind → List Nat → Bool)
    (decodeFails : Bool) (first second : List (String × blockDef Attrs)) :
    Loaded (List (BlockType Attrs)) :=
  match rangeCheckLoop first 0 (if decodeFails then some Error.decode else none) with
  | Except.error e => Loaded.returned [] (some e)
  | Except.ok (maxId, err) =>
    loadLoop unmarshal second (List.replicate (maxId + 1).toNat ⟨default, none, false⟩) err

/-- A sample of `json.Unmarshal`, for evaluation: the raw arguments `{}` (123, 125) are
accepted for every aspect, everything else is refused. -/
def sampleUnmarshal : AspectKind → List Nat → Bool :=
  fun _ raw => raw = [123, 125]

end block

/-! # The chunk store

Package `chunkymonkey/chunkstore`, file `chunk_reader.go`. The package `nbt` of the tag
tree is absent and is modelled from the design. -/

namespace chunkstore

/-- Modelled from the spec: a tag of the absent package `nbt`, a discriminated value with
the eleven kinds of the design; a `Compound` maps names to tags, and a `List` holds the
kind of its elements and the elements. -/
inductive Tag where
  | byte (v : Int)
  | short (v : Int)
  | int (v : Int)
  | long (v : Int)
  | float (bits : Nat)
  | double (bits : Nat)
  | byteArray (v : List Nat)
  | string (v : String)
  | list (kind : Nat) (v : List Tag)
  | compound (tags : List (String × Tag))
  | intArray (v : List Int)

/-- Modelled from the spec: the method `Lookup` of a tag, on the path given by its
components, `Level/Entities` being `["Level", "Entities"]`. It is defined only on chains of
`Compound`: the first component is looked up in the compound and the rest of the path in
the tag found; every other case gives `none`, the nil tag. -/
def Tag.Lookup : Tag → List String → Option Tag
  | Tag.compound tags, name :: rest =>
    match tags.lookup name, rest with
    | none, _ => none
    | some t, [] => some t
    | some t, next :: more => t.Lookup (next :: more)
  | _, _ => none

/-- Source type `chunkReader`. -/
structure chunkReader where
  chunkTag : Tag

/-- What a Go call without an error result ends with: it returns a value, or it panics. -/
inductive Got (α : Type) where
  | value (v : α)
  | panic
  deriving DecidableEq, Repr

/-- Source `newChunkReader`, after `nbt.Read(reader)`, whose result `read` is the tag or
the error: the error is passed on with a nil reader, and a tag is stored as it is. -/
def newChunkReader {ε : Type} (read : Except ε Tag) : Option chunkReader × Option ε :=
  match read with
  | Except.error err => (none, some err)
  | Except.ok chunkTag => (some ⟨chunkTag⟩, none)

/-- The Go expression `tag.(*nbt.Int).Value`: a type assertion without the second result,
which panics on the nil tag and on a tag of another kind. -/
def assertInt : Option Tag → Got Int
  | some (Tag.int v) => Got.value v
  | _ => Got.panic

/-- The Go expression `tag.(*nbt.ByteArray).Value`, which panics on the nil tag and on a
tag of another kind. -/
def assertByteArray : Option Tag → Got (List Nat)
  | some (Tag.byteArray v) => Got.value v
  | _ => Got.panic

/-- Source `chunkReader.ChunkLoc`: the fields `X` and `Z`, in this order. -/
def chunkReader.ChunkLoc (r : chunkReader) : Got (Int × Int) :=
  match assertInt (r.chunkTag.Lookup ["Level", "xPos"]) with
  | Got.panic => Got.panic
  | Got.value x =>
    match assertInt (r.chunkTag.Lookup ["Level", "zPos"]) with
    | Got.panic => Got.panic
    | Got.value z => Got.value (x, z)

/-- Source `chunkReader.Blocks`. -/
def chunkReader.Blocks (r : chunkReader) : Got (List Nat) :=
  assertByteArray (r.chunkTag.Lookup ["Level", "Blocks"])

/-- Source `chunkReader.BlockData`. -/
def chunkReader.BlockData (r : chunkReader) : Got (List Nat) :=
  assertByteArray (r.chunkTag.Lookup ["Level", "Data"])

/-- Source `chunkReader.BlockLight`. -/
def chunkReader.BlockLight (r : chunkReader) : Got (List Nat) :=
  assertByteArray (r.chunkTag.Lookup ["Level", "BlockLight"])

/-- Source `chunkReader.SkyLight`. -/
def chunkReader.SkyLight (r : chunkReader) : Got (List Nat) :=
  assertByteArray (r.chunkTag.Lookup ["Level", "SkyLight"])

/-- Source `chunkReader.HeightMap`. -/
def chunkReader.HeightMap (r : chunkReader) : Got (List Nat) :=
  assertByteArray (r.chunkTag.Lookup ["Level", "HeightMap"])

/-- Source `chunkReader.Entities`: the type assertion has the second result `ok`, so that
it does not panic; without a list the nil slice `[]` is returned. -/
def chunkReader.Entities (r : chunkReader) : List Tag :=
  match r.chunkTag.Lookup ["Level", "Entities"] with
  | some (Tag.list _ v) => v
  | _ => []

/-- A sample chunk, for evaluation: the `Level` compound holds the tags `level`. -/
def sampleChunk (level : List (String × Tag)) : Tag :=
  Tag.compound [("Level", Tag.compound level)]

/-- The required tags of a sample chunk at `(3, -2)`. -/
def sampleLevel : List (String × Tag) :=
  [("xPos", Tag.int 3), ("zPos", Tag.int (-2)), ("Blocks", Tag.byteArray [1, 2]),
    ("Data", Tag.byteArray [3]), ("BlockLight", Tag.byteArray [4]),
    ("SkyLight", Tag.byteArray [5]), ("HeightMap", Tag.byteArray [6])]

end chunkstore

/-! # The player

Package `chunkymonkey`, files `player.go` and `pickup.go`. A goroutine is not modelled:
a call is followed up to the point where it returns, panics, or waits for another
goroutine. The game and the chunks are in absent files. -/

namespace chunkymonkey

/-- A value of type `[]byte`: `none` for the nil slice, and else the bytes, `some []`
being a slice of length 0 that is not nil. -/
abbrev Packet := Option (List Nat)

/-- A channel `chan []byte`: its capacity, the values sent and not yet received, and
whether it has been closed. -/
structure Chan where
  capacity : Nat
  buffer : List Packet
  closed : Bool
  deriving DecidableEq, Repr

/-- What a call ends with: it returns in a new state, it waits for another goroutine, or
it panics. -/
inductive Step (α : Type) where
  | done (s : α)
  | blocks
  | panic
  deriving DecidableEq, Repr

/-- The Go statement `c <- v`: a send on a closed channel panics; on an open channel the
value is placed in the buffer when there is room, and else the sender waits until a
receiver has taken a value. -/
def Chan.send (c : Chan) (v : Packet) : Step Chan :=
  if c.closed then Step.panic
  else if c.buffer.length < c.capacity then Step.done { c with buffer := c.buffer ++ [v] }
  else Step.blocks

/-- The Go call `close(c)`: closing a closed channel panics. -/
def Chan.close (c : Chan) : Step Chan :=
  if c.closed then Step.panic else Step.done { c with closed := true }

/-- A value of type `BlockXYZ` of the absent package `chunkymonkey/types`. -/
structure BlockXYZ where
  x : Int
  y : Int
  z : Int
  deriving DecidableEq, Repr

/-- Source type `PickupItem`, without the embedded `Entity`. -/
structure PickupItem where
  itemType : Int
  count : Int
  position : Int × Int × Int
  orientation : Int × Int × Int
  deriving DecidableEq, Repr

/-- The functions that this model passes to `game.Enqueue`: the one of
`RecvPlayerDigging` with its `blockLoc`, the one of `RecvDisconnect`, and the one of
`NewPickupItem` with its item. -/
inductive Work where
  | digBlock (blockLoc : BlockXYZ)
  | disconnect
  | addPickupItem (item : PickupItem)
  deriving DecidableEq, Repr

/-- What the player takes from absent files, as parameters: the constants `DigBlockBroke`,
`BlockIDAir`, `BlockIDDirt` and `BlockIDGrass` and the methods `ToChunkLocal` and
`ToXYZInteger` of the package `chunkymonkey/types`; `Get chunkLoc` is what
`game.chunkManager.Get` returns, `none` for nil and else a chunk; `GetBlock chunk subLoc`
is the block type and the flag `err` that `chunk.GetBlock` returns; `SetBlock chunk subLoc
blockType metadata` is what `chunk.SetBlock` returns. -/
structure Env where
  DigBlockBroke : Int
  BlockIDAir : Int
  BlockIDDirt : Int
  BlockIDGrass : Int
  ToChunkLocal : BlockXYZ → (Int × Int) × (Int × Int × Int)
  ToXYZInteger : BlockXYZ → Int × Int × Int
  Get : Int × Int → Option Nat
  GetBlock : Nat → Int × Int × Int → Int × Bool
  SetBlock : Nat → Int × Int × Int → Int → Int → Bool

/-- The game and one player: the work enqueued on the game and not yet run, whether
`game.RemovePlayer` has been called for the player, the calls of `chunk.SetBlock` made so
far (chunk, location, block type, metadata), the items passed to `game.AddPickupItem`, the
transmit queue of the player, and whether its connection has been closed. -/
structure State where
  queue : List Work
  removed : Bool
  setBlockCalls : List (Nat × (Int × Int × Int) × Int × Int)
  pickupItems : List PickupItem
  txQueue : Chan
  connClosed : Bool
  deriving DecidableEq, Repr

/-- Modelled from the spec: the method `Enqueue` of the game, whose file is absent: the
work is placed on the queue of the game, which runs it later on its own goroutine. -/
def Enqueue (s : State) (work : Work) : State :=
  { s with queue := s.queue ++ [work] }

/-- Source `NewPickupItem`: the item is made with the orientation `(0, 0, 0)`, and the work
that adds it is enqueued. -/
def NewPickupItem (s : State) (itemType count : Int) (position : Int × Int × Int) : State :=
  Enqueue s (Work.addPickupItem ⟨itemType, count, position, (0, 0, 0)⟩)

/-- The player that `StartPlayer` makes: its transmit queue is `make(chan []byte, 128)`,
open and empty, and its connection is open. The work that `StartPlayer` enqueues (the
player is added, the login packet written, the two loops started and `postLogin` run) is
not followed. -/
def StartPlayer (s : State) : State :=
  { s with txQueue := ⟨128, [], false⟩, connClosed := false, removed := false }

/-- Source `Player.TransmitPacket`: a nil packet is skipped, every other packet is sent on
the transmit queue. -/
def TransmitPacket (s : State) (packet : Packet) : Step State :=
  match packet with
  | none => Step.done s
  | some bs =>
    match s.txQueue.send (some bs) with
    | Step.done c => Step.done { s with txQueue := c }
    | Step.blocks => Step.blocks
    | Step.panic => Step.panic

/-- Source `Player.RecvPlayerDigging`: work is enqueued for the status `DigBlockBroke`
only. -/
def RecvPlayerDigging (E : Env) (s : State) (status : Int) (blockLoc : BlockXYZ)
    (_face : Int) : State :=
  if status = E.DigBlockBroke then Enqueue s (Work.digBlock blockLoc) else s

/-- Source `Player.RecvDisconnect`: the work is enqueued. -/
def RecvDisconnect (s : State) (_reason : List Nat) : State :=
  Enqueue s Work.disconnect

/-- The bodies of the functions passed to `game.Enqueue`, run by the game in the state
`s`. The one of `RecvPlayerDigging` returns when there is no chunk or `GetBlock` sets its
flag, and else calls `SetBlock` with air and, when that returns false and the block read
was dirt or grass, `NewPickupItem` with the item type of dirt and the count 1. The one of
`RecvDisconnect` removes the player, closes the transmit queue and closes the connection.
The one of `NewPickupItem` passes the item to `game.AddPickupItem`. -/
def runWork (E : Env) (s : State) : Work → Step State
  | Work.digBlock blockLoc =>
    match E.Get (E.ToChunkLocal blockLoc).1 with
    | none => Step.done s
    | some chunk =>
      if (E.GetBlock chunk (E.ToChunkLocal blockLoc).2).2 then Step.done s
      else
        let s1 : State :=
          { s with setBlockCalls := s.setBlockCalls
              ++ [(chunk, (E.ToChunkLocal blockLoc).2, E.BlockIDAir, 0)] }
        if !(E.SetBlock chunk (E.ToChunkLocal blockLoc).2 E.BlockIDAir 0) then
          if (E.GetBlock chunk (E.ToChunkLocal blockLoc).2).1 = E.BlockIDDirt
              ∨ (E.GetBlock chunk (E.ToChunkLocal blockLoc).2).1 = E.BlockIDGrass then
            Step.done (NewPickupItem s1 E.BlockIDDirt 1 (E.ToXYZInteger blockLoc))
          else Step.done s1
        else Step.done s1
  | Work.disconnect =>
    match s.txQueue.close with
    | Step.done c => Step.done { s with removed := true, txQueue := c, connClosed := true }
    | Step.blocks => Step.blocks
    | Step.panic => Step.panic
  | Work.addPickupItem item => Step.done { s with pickupItems := s.pickupItems ++ [item] }

/-- A sample of the absent files, for evaluation: the status 3 is `DigBlockBroke`, the
block ids of air, dirt and grass are 0, 3 and 2, a chunk has 16 by 16 columns, the one
chunk 0 is at `(0, 0)`, a block of it is read as grass at height 64 and as stone (1)
elsewhere, with the flag set above height 127, and `SetBlock` returns false. -/
def sampleGame : Env where
  DigBlockBroke := 3
  BlockIDAir := 0
  BlockIDDirt := 3
  BlockIDGrass := 2
  ToChunkLocal := fun b => ((b.x / 16, b.z / 16), (b.x % 16, b.y, b.z % 16))
  ToXYZInteger := fun b => (b.x * 32 + 16, b.y * 32, b.z * 32 + 16)
  Get := fun loc => if loc = (0, 0) then some 0 else none
  GetBlock := fun _ subLoc => (if subLoc.2.1 = 64 then 2 else 1, decide (127 < subLoc.2.1))
  SetBlock := fun _ _ _ _ => false

/-- A sample state, for evaluation: a player just made, nothing enqueued. -/
def sampleState : State :=
  StartPlayer ⟨[], false, [], [], ⟨0, [], false⟩, false⟩

end chunkymonkey

namespace Proto

/-! ## Basic facts -/

theorem beNat_singleton (b : Nat) : beNat [b] = b := by
  simp [beNat]

theorem binaryRead_append (p rest : List Nat) :
    binaryRead p.length (p ++ rest) = (Except.ok p, rest) := by
  simp [binaryRead, readFull]

theorem readFull_of_le (n : Nat) (r : List Nat) (h : n ≤ r.length) :
    readFull n r = ⟨r.take n, none, r.drop n⟩ := by
  unfold readFull
  rw [if_pos h]

theorem binaryRead_of_le (n : Nat) (r : List Nat) (h : n ≤ r.length) :
    binaryRead n r = (Except.ok (r.take n), r.drop n) := by
  unfold binaryRead
  rw [readFull_of_le n r h]

theorem binaryRead_of_lt (n : Nat) (r : List Nat) (h : r.length < n) :
    binaryRead n r = (Except.error (if r.length = 0 then Error.eof else Error.unexpectedEOF), []) := by
  unfold binaryRead readFull
  rw [if_neg (Nat.not_le.mpr h)]
  by_cases h0 : r.length = 0
  · rw [if_pos h0, if_pos h0]
  · rw [if_neg h0, if_neg h0]

theorem binaryRead_ok (n : Nat) (r p r1 : List Nat) (h : binaryRead n r = (Except.ok p, r1)) :
    n ≤ r.length ∧ p = r.take n ∧ r1 = r.drop n := by
  by_cases hn : n ≤ r.length
  · rw [binaryRead_of_le n r hn] at h
    simp only [Prod.mk.injEq, Except.ok.injEq] at h
    exact ⟨hn, h.1.symm, h.2.symm⟩
  · rw [binaryRead_of_lt n r (Nat.not_le.mp hn)] at h
    simp at h

theorem binaryRead_error (n : Nat) (r r1 : List Nat) (e : Error)
    (h : binaryRead n r = (Except.error e, r1)) :
    r.length < n ∧ r1 = [] ∧ (e = Error.eof ∨ e = Error.unexpectedEOF) := by
  by_cases hn : n ≤ r.length
  · rw [binaryRead_of_le n r hn] at h
    simp at h
  · rw [binaryRead_of_lt n r (Nat.not_le.mp hn)] at h
    simp only [Prod.mk.injEq, Except.error.injEq] at h
    refine ⟨Nat.not_le.mp hn, h.2.symm, ?_⟩
    rw [← h.1]
    by_cases h0 : r.length = 0
    · left
      rw [if_pos h0]
    · right
      rw [if_neg h0]

/-- C1. For every input that starts with the packet id `0x01` followed by four bytes whose
big-endian `int32` value differs from 8, `ServerReadLogin` returns the
unsupported-protocol-version error with an empty username and an empty password, having
read only those five bytes; and for every input whose first byte is not `0x01` (the empty
input included) it returns an error, again with an empty username and password. -/
theorem ServerReadLogin_rejects (T : WireTypes) :
    (∀ v3 v2 v1 v0 : Nat, ∀ rest : List Nat, int32 [v3, v2, v1, v0] ≠ 8 →
      ServerReadLogin T (0x01 :: v3 :: v2 :: v1 :: v0 :: rest)
        = ⟨[], [], some (Error.unsupportedVersion (int32 [v3, v2, v1, v0])), rest⟩) ∧
    (∀ r : List Nat, r.head? ≠ some 0x01 →
      (ServerReadLogin T r).err ≠ none ∧ (ServerReadLogin T r).username = []
        ∧ (ServerReadLogin T r).password = []) := by
  constructor
  · intro v3 v2 v1 v0 rest hv
    have hb : binaryRead 5 (0x01 :: v3 :: v2 :: v1 :: v0 :: rest)
        = (Except.ok [0x01, v3, v2, v1, v0], rest) :=
      binaryRead_append [0x01, v3, v2, v1, v0] rest
    unfold ServerReadLogin
    rw [hb]
    simp [slice, beNat_singleton, packetIDLogin, protocolVersion, hv]
  · intro r hr
    unfold ServerReadLogin
    split
    · simp
    · rename_i p r1 heq
      obtain ⟨hlen, hp, -⟩ := binaryRead_ok 5 r p r1 heq
      cases r with
      | nil => simp at hlen
      | cons a as =>
        have ha : a ≠ 1 := by simpa using hr
        simp [hp, slice, beNat_singleton, packetIDLogin, ha]


/-- Witness of C1: a login with version 7, and an input that starts with `0x02`. -/
theorem ServerReadLogin_rejects_witness :
    ServerReadLogin beta (0x01 :: 0 :: 0 :: 0 :: 7 :: [0, 1, 65])
        = ⟨[], [], some (Error.unsupportedVersion (int32 [0, 0, 0, 7])), [0, 1, 65]⟩
      ∧ ((ServerReadLogin beta [2, 0, 0, 0, 8, 0, 0, 0, 0]).err ≠ none
        ∧ (ServerReadLogin beta [2, 0, 0, 0, 8, 0, 0, 0, 0]).username = []
        ∧ (ServerReadLogin beta [2, 0, 0, 0, 8, 0, 0, 0, 0]).password = []) :=
  ⟨(ServerReadLogin_rejects beta).1 0 0 0 7 [0, 1, 65] (by decide),
    (ServerReadLogin_rejects beta).2 [2, 0, 0, 0, 8, 0, 0, 0, 0] (by decide)⟩

theorem putInt16_toSigned (n : Nat) :
    putInt16 (toSigned 16 n) = [n / 256 % 256, n % 256] := by
  have h : toUnsigned 16 (toSigned 16 n) = n % 65536 := by
    unfold toUnsigned toSigned
    norm_num
    split <;> omega
  unfold putInt16
  rw [h]
  simp only [beBytes, List.nil_append, List.cons_append, List.cons.injEq, and_true]
  omega

theorem int16_pair (a b : Nat) (ha : a < 256) (hb : b < 256) :
    toUnsigned 16 (int16 [a, b]) = a * 256 + b := by
  unfold toUnsigned int16 toSigned beNat
  simp only [List.foldl]
  norm_num
  split <;> omega

theorem readFull_append (p rest : List Nat) :
    readFull p.length (p ++ rest) = ⟨p, none, rest⟩ := by
  simp [readFull]

/-- C5. String round trip: for a byte string `s` of at most 32767 bytes and any bytes `t`
after it, `readString` on the bytes of `WriteString s` followed by `t` returns `s` with no
error and leaves exactly `t` unread; `WriteString s` is `2 + len(s)` bytes long, and its
first two bytes are `len(s)` in big-endian order. -/
theorem readString_WriteString (s t : List Nat) (h : s.length ≤ 32767) :
    readString (WriteString s ++ t) = ⟨s, none, t⟩
      ∧ (WriteString s).length = 2 + s.length
      ∧ (WriteString s).take 2 = [s.length / 256, s.length % 256] := by
  have hw : WriteString s = [s.length / 256, s.length % 256] ++ s := by
    unfold WriteString
    rw [putInt16_toSigned]
    have h1 : s.length / 256 % 256 = s.length / 256 := by omega
    rw [h1]
  have hb : binaryRead 2 ([s.length / 256, s.length % 256] ++ (s ++ t))
      = (Except.ok [s.length / 256, s.length % 256], s ++ t) :=
    binaryRead_append [s.length / 256, s.length % 256] (s ++ t)
  have hl : toUnsigned 16 (int16 [s.length / 256, s.length % 256]) = s.length := by
    rw [int16_pair _ _ (by omega) (by omega)]
    omega
  refine ⟨?_, ?_, ?_⟩
  · rw [hw, List.append_assoc]
    unfold readString
    rw [hb]
    simp only [hl]
    rw [readFull_append]
  · rw [hw]
    simp
    omega
  · rw [hw]
    simp

/-- Witness of C5: the two-byte string `hi` followed by two more bytes. -/
theorem readString_WriteString_witness :
    readString (WriteString [104, 105] ++ [9, 9]) = ⟨[104, 105], none, [9, 9]⟩
      ∧ (WriteString [104, 105]).length = 2 + [104, 105].length
      ∧ (WriteString [104, 105]).take 2 = [[104, 105].length / 256, [104, 105].length % 256] :=
  readString_WriteString [104, 105] [9, 9] (by decide)


theorem beBytes_four (u : Nat) :
    beBytes 4 u = [u / 16777216 % 256, u / 65536 % 256, u / 256 % 256, u % 256] := by
  simp only [beBytes, List.nil_append, List.cons_append, List.cons.injEq, and_true]
  omega

/-- C6. For a block location `(x, y, z)` with `x`, `z` in the `int32` range and `y` in the
`int8` range, a block type byte and a metadata byte, `WriteBlockChange` writes exactly the
12 bytes `0x35`, four bytes whose big-endian value is `x` in two's complement, the byte of
`y` in two's complement, four bytes for `z` likewise, the block type, the metadata. -/
theorem WriteBlockChange_bytes (x y z : Int) (blockType blockMetaData : Nat)
    (hx : -2147483648 ≤ x ∧ x < 2147483648) (hy : -128 ≤ y ∧ y < 128)
    (hz : -2147483648 ≤ z ∧ z < 2147483648)
    (ht : blockType < 256) (hm : blockMetaData < 256) :
    ∃ x3 x2 x1 x0 y0 z3 z2 z1 z0 : Nat,
      WriteBlockChange x y z blockType blockMetaData
        = [0x35, x3, x2, x1, x0, y0, z3, z2, z1, z0, blockType, blockMetaData]
      ∧ (WriteBlockChange x y z blockType blockMetaData).length = 12
      ∧ x3 < 256 ∧ x2 < 256 ∧ x1 < 256 ∧ x0 < 256 ∧ y0 < 256
      ∧ z3 < 256 ∧ z2 < 256 ∧ z1 < 256 ∧ z0 < 256
      ∧ ((x3 * 16777216 + x2 * 65536 + x1 * 256 + x0 : Nat) : Int)
          = (if 0 ≤ x then x else x + 4294967296)
      ∧ ((y0 : Nat) : Int) = (if 0 ≤ y then y else y + 256)
      ∧ ((z3 * 16777216 + z2 * 65536 + z1 * 256 + z0 : Nat) : Int)
          = (if 0 ≤ z then z else z + 4294967296) := by
  have hw : WriteBlockChange x y z blockType blockMetaData
      = [0x35, toUnsigned 32 x / 16777216 % 256, toUnsigned 32 x / 65536 % 256,
          toUnsigned 32 x / 256 % 256, toUnsigned 32 x % 256, toUnsigned 8 y % 256,
          toUnsigned 32 z / 16777216 % 256, toUnsigned 32 z / 65536 % 256,
          toUnsigned 32 z / 256 % 256, toUnsigned 32 z % 256, blockType, blockMetaData] := by
    unfold WriteBlockChange putByte putInt32 putInt8
    rw [beBytes_four, beBytes_four]
    simp only [beBytes, List.nil_append, List.cons_append]
    rw [Nat.mod_eq_of_lt ht, Nat.mod_eq_of_lt hm]
  have hux : ((toUnsigned 32 x : Nat) : Int) = (if 0 ≤ x then x else x + 4294967296)
      ∧ toUnsigned 32 x < 4294967296 := by
    unfold toUnsigned
    norm_num
    split <;> omega
  have huz : ((toUnsigned 32 z : Nat) : Int) = (if 0 ≤ z then z else z + 4294967296)
      ∧ toUnsigned 32 z < 4294967296 := by
    unfold toUnsigned
    norm_num
    split <;> omega
  have huy : ((toUnsigned 8 y : Nat) : Int) = (if 0 ≤ y then y else y + 256)
      ∧ toUnsigned 8 y < 256 := by
    unfold toUnsigned
    norm_num
    split <;> omega
  refine ⟨_, _, _, _, _, _, _, _, _, hw, by rw [hw]; rfl, ?_, ?_, ?_, ?_, ?_, ?_, ?_, ?_, ?_,
    ?_, ?_, ?_⟩
  · omega
  · omega
  · omega
  · omega
  · omega
  · omega
  · omega
  · omega
  · omega
  · rw [← hux.1]
    omega
  · rw [← huy.1]
    omega
  · rw [← huz.1]
    omega

/-- Witness of C6: the block change of the dig-and-drop scenario, `(5, 64, 7)` set to air,
is written as `35 00 00 00 05 40 00 00 00 07 00 00`. -/
theorem WriteBlockChange_bytes_witness :
    WriteBlockChange 5 64 7 0 0 = [0x35, 0, 0, 0, 5, 0x40, 0, 0, 0, 7, 0, 0]
      ∧ ∃ x3 x2 x1 x0 y0 z3 z2 z1 z0 : Nat,
        WriteBlockChange 5 64 7 0 0 = [0x35, x3, x2, x1, x0, y0, z3, z2, z1, z0, 0, 0]
        ∧ (WriteBlockChange 5 64 7 0 0).length = 12
        ∧ x3 < 256 ∧ x2 < 256 ∧ x1 < 256 ∧ x0 < 256 ∧ y0 < 256
        ∧ z3 < 256 ∧ z2 < 256 ∧ z1 < 256 ∧ z0 < 256
        ∧ ((x3 * 16777216 + x2 * 65536 + x1 * 256 + x0 : Nat) : Int)
            = (if (0 : Int) ≤ 5 then 5 else 5 + 4294967296)
        ∧ ((y0 : Nat) : Int) = (if (0 : Int) ≤ 64 then 64 else 64 + 256)
        ∧ ((z3 * 16777216 + z2 * 65536 + z1 * 256 + z0 : Nat) : Int)
            = (if (0 : Int) ≤ 7 then 7 else 7 + 4294967296) :=
  ⟨by decide, WriteBlockChange_bytes 5 64 7 0 0 (by decide) (by decide) (by decide) (by decide)
    (by decide)⟩


theorem binaryRead_cons (b : Nat) (rest : List Nat) :
    binaryRead 1 (b :: rest) = (Except.ok [b], rest) :=
  binaryRead_append [b] rest

theorem commonReadFns_isSome (T : WireTypes) (b : Nat) :
    (commonReadFns T b).isSome ↔ b ∈ [0x00, 0x03, 0x0a, 0x0b, 0x0c, 0x0e, 0x0f, 0x12, 0xff] := by
  constructor
  · intro h
    unfold commonReadFns at h
    split at h <;> simp_all
  · intro h
    simp only [List.mem_cons, List.mem_singleton, List.not_mem_nil, or_false] at h
    rcases h with rfl | rfl | rfl | rfl | rfl | rfl | rfl | rfl | rfl <;> rfl

theorem csReadFns_isSome (T : WireTypes) (b : Nat) :
    (csReadFns T b).isSome ↔ b ∈ [0x0d, 0x66, 0x10] := by
  constructor
  · intro h
    unfold csReadFns at h
    split at h <;> simp_all
  · intro h
    simp only [List.mem_cons, List.mem_singleton, List.not_mem_nil, or_false] at h
    rcases h with rfl | rfl | rfl <;> rfl

/-- C2. For every packet id byte `b`, `ServerReadPacket` has a reader to dispatch to (in
`commonReadFns` or, failing that, in `csReadFns`) if and only if `b` is one of the common
ids or one of the client-to-server ids, and then it runs that reader on the bytes after
the id; for every other `b` it returns the unhandled-packet-type error for `b`, makes no
handler call and leaves all bytes after the id unread. -/
theorem ServerReadPacket_dispatch (T : WireTypes) (b : Nat) (rest : List Nat) :
    (((commonReadFns T b).isSome ∨ (csReadFns T b).isSome)
        ↔ (b ∈ [0x00, 0x03, 0x0a, 0x0b, 0x0c, 0x0e, 0x0f, 0x12, 0xff] ∨ b ∈ [0x0d, 0x66, 0x10]))
      ∧ (∀ fn, commonReadFns T b = some fn → ServerReadPacket T (b :: rest) = fn rest)
      ∧ (∀ fn, commonReadFns T b = none → csReadFns T b = some fn →
          ServerReadPacket T (b :: rest) = fn rest)
      ∧ (¬ (b ∈ [0x00, 0x03, 0x0a, 0x0b, 0x0c, 0x0e, 0x0f, 0x12, 0xff] ∨ b ∈ [0x0d, 0x66, 0x10]) →
          ServerReadPacket T (b :: rest)
            = ⟨rest, [], Outcome.error (Error.unhandledPacketType b)⟩) := by
  refine ⟨?_, ?_, ?_, ?_⟩
  · rw [commonReadFns_isSome, csReadFns_isSome]
  · intro fn h
    unfold ServerReadPacket
    rw [binaryRead_cons]
    simp only [beNat_singleton, h]
  · intro fn h1 h2
    unfold ServerReadPacket
    rw [binaryRead_cons]
    simp only [beNat_singleton, h1, h2]
  · intro h
    rw [← commonReadFns_isSome T b, ← csReadFns_isSome T b] at h
    have h1 : commonReadFns T b = none := by
      cases hc : commonReadFns T b with
      | none => rfl
      | some f => exact absurd (Or.inl (by simp [hc])) h
    have h2 : csReadFns T b = none := by
      cases hc : csReadFns T b with
      | none => rfl
      | some f => exact absurd (Or.inr (by simp [hc])) h
    unfold ServerReadPacket
    rw [binaryRead_cons]
    simp only [beNat_singleton, h1, h2]


/-! ## The readers return only the errors of the reader -/

theorem readFull_err (n : Nat) (r : List Nat) (e : Error) (h : (readFull n r).err = some e) :
    e = Error.eof ∨ e = Error.unexpectedEOF := by
  unfold readFull at h
  split at h
  · simp at h
  · split at h
    · simp at h
      exact Or.inl h.symm
    · simp at h
      exact Or.inr h.symm

theorem readString_err (r : List Nat) (e : Error) (h : (readString r).err = some e) :
    e = Error.eof ∨ e = Error.unexpectedEOF := by
  unfold readString at h
  split at h
  · rename_i e1 r1 heq
    simp at h
    rw [← h]
    exact (binaryRead_error _ _ _ _ heq).2.2
  · exact readFull_err _ _ _ h

theorem readExtraPayload_err (tag : Nat) (r : List Nat) (field3 : ExtraValue) (e : Error)
    (h : (readExtraPayload tag r field3).2.1 = some e) :
    e = Error.eof ∨ e = Error.unexpectedEOF := by
  unfold readExtraPayload at h
  split at h
  · split at h
    · rename_i heq
      simp at h
      rw [← h]
      exact (binaryRead_error _ _ _ _ heq).2.2
    · simp at h
  · split at h
    · rename_i heq
      simp at h
      rw [← h]
      exact (binaryRead_error _ _ _ _ heq).2.2
    · simp at h
  · split at h
    · rename_i heq
      simp at h
      rw [← h]
      exact (binaryRead_error _ _ _ _ heq).2.2
    · simp at h
  · split at h
    · rename_i heq
      simp at h
      rw [← h]
      exact (binaryRead_error _ _ _ _ heq).2.2
    · simp at h
  · exact readString_err r e h
  · split at h
    · rename_i heq
      simp at h
      rw [← h]
      exact (binaryRead_error _ _ _ _ heq).2.2
    · simp at h
  · simp at h

theorem readUnknownExtraLoop_err (n : Nat) :
    ∀ (r : List Nat), r.length ≤ n → ∀ (field3 : ExtraValue) (data : List UnknownEntityExtra)
      (e : Error), (readUnknownExtraLoop r field3 data).err = some e →
      e = Error.eof ∨ e = Error.unexpectedEOF := by
  induction n with
  | zero =>
    intro r hr field3 data e h
    have hr0 : r = [] := List.length_eq_zero.mp (Nat.le_zero.mp hr)
    subst hr0
    unfold readUnknownExtraLoop at h
    split at h
    · rename_i heq
      simp at h
      rw [← h]
      exact (binaryRead_error _ _ _ _ heq).2.2
    · rename_i heq
      have := (binaryRead_ok _ _ _ _ heq).1
      simp at this
  | succ n ih =>
    intro r hr field3 data e h
    unfold readUnknownExtraLoop at h
    split at h
    · rename_i heq
      simp at h
      rw [← h]
      exact (binaryRead_error _ _ _ _ heq).2.2
    · rename_i b r1 heq
      have hlt := binaryRead_one_ok_lt r r1 b heq
      split at h
      · simp at h
      · split at h
        · rename_i e1 hp
          simp at h
          rw [← h]
          exact readExtraPayload_err _ _ _ _ hp
        · have hle := readExtraPayload_rest_length_le ((beNat b &&& 0xe0) >>> 5) r1 field3
          exact ih _ (by omega) _ _ _ h

theorem readUnknownExtra_err (r : List Nat) (e : Error) (h : (readUnknownExtra r).err = some e) :
    e = Error.eof ∨ e = Error.unexpectedEOF :=
  readUnknownExtraLoop_err r.length r (Nat.le_refl _) _ _ e h

theorem readWindowItemsLoop_err (n : Nat) :
    ∀ (r : List Nat) (items : List WindowSlot) (e : Error),
      (readWindowItemsLoop n r items).2.1 = some e →
      e = Error.eof ∨ e = Error.unexpectedEOF := by
  induction n with
  | zero =>
    intro r items e h
    simp [readWindowItemsLoop] at h
  | succ n ih =>
    intro r items e h
    unfold readWindowItemsLoop at h
    split at h
    · rename_i heq
      simp at h
      rw [← h]
      exact (binaryRead_error _ _ _ _ heq).2.2
    · split at h
      · split at h
        · rename_i heq
          simp at h
          rw [← h]
          exact (binaryRead_error _ _ _ _ heq).2.2
        · exact ih _ _ _ h
      · exact ih _ _ _ h


set_option linter.unusedTactic false
set_option linter.unreachableTactic false

theorem handled_ok : Outcome.ok.handled := by
  intro id h
  cases h

theorem handled_panic : Outcome.panic.handled := by
  intro id h
  cases h

theorem handled_of_reader_error (e : Error) (h : e = Error.eof ∨ e = Error.unexpectedEOF) :
    (Outcome.error e).handled := by
  intro id he
  rcases h with rfl | rfl <;> cases he

theorem clientReadLogin_handled (T : WireTypes) (r : List Nat) :
    (clientReadLogin T r).outcome.handled := by
  unfold clientReadLogin
  repeat' (first | split | dsimp only)
  all_goals first
    | exact handled_ok
    | exact handled_panic
    | exact handled_of_reader_error _ (binaryRead_error _ _ _ _ (by assumption)).2.2
    | exact handled_of_reader_error _ (readString_err _ _ (by assumption))
    | exact handled_of_reader_error _ (readFull_err _ _ _ (by assumption))
    | exact handled_of_reader_error _ (readUnknownExtra_err _ _ (by assumption))
    | exact handled_of_reader_error _ (readWindowItemsLoop_err _ _ _ _ (by assumption))

theorem clientReadTimeUpdate_handled (T : WireTypes) (r : List Nat) :
    (clientReadTimeUpdate T r).outcome.handled := by
  unfold clientReadTimeUpdate
  repeat' (first | split | dsimp only)
  all_goals first
    | exact handled_ok
    | exact handled_panic
    | exact handled_of_reader_error _ (binaryRead_error _ _ _ _ (by assumption)).2.2
    | exact handled_of_reader_error _ (readString_err _ _ (by assumption))
    | exact handled_of_reader_error _ (readFull_err _ _ _ (by assumption))
    | exact handled_of_reader_error _ (readUnknownExtra_err _ _ (by assumption))
    | exact handled_of_reader_error _ (readWindowItemsLoop_err _ _ _ _ (by assumption))

theorem clientReadPickupSpawn_handled (T : WireTypes) (r : List Nat) :
    (clientReadPickupSpawn T r).outcome.handled := by
  unfold clientReadPickupSpawn
  repeat' (first | split | dsimp only)
  all_goals first
    | exact handled_ok
    | exact handled_panic
    | exact handled_of_reader_error _ (binaryRead_error _ _ _ _ (by assumption)).2.2
    | exact handled_of_reader_error _ (readString_err _ _ (by assumption))
    | exact handled_of_reader_error _ (readFull_err _ _ _ (by assumption))
    | exact handled_of_reader_error _ (readUnknownExtra_err _ _ (by assumption))
    | exact handled_of_reader_error _ (readWindowItemsLoop_err _ _ _ _ (by assumption))

theorem clientReadEntitySpawn_handled (T : WireTypes) (r : List Nat) :
    (clientReadEntitySpawn T r).outcome.handled := by
  unfold clientReadEntitySpawn
  repeat' (first | split | dsimp only)
  all_goals first
    | exact handled_ok
    | exact handled_panic
    | exact handled_of_reader_error _ (binaryRead_error _ _ _ _ (by assumption)).2.2
    | exact handled_of_reader_error _ (readString_err _ _ (by assumption))
    | exact handled_of_reader_error _ (readFull_err _ _ _ (by assumption))
    | exact handled_of_reader_error _ (readUnknownExtra_err _ _ (by assumption))
    | exact handled_of_reader_error _ (readWindowItemsLoop_err _ _ _ _ (by assumption))

theorem clientReadEntityVelocity_handled (T : WireTypes) (r : List Nat) :
    (clientReadEntityVelocity T r).outcome.handled := by
  unfold clientReadEntityVelocity
  repeat' (first | split | dsimp only)
  all_goals first
    | exact handled_ok
    | exact handled_panic
    | exact handled_of_reader_error _ (binaryRead_error _ _ _ _ (by assumption)).2.2
    | exact handled_of_reader_error _ (readString_err _ _ (by assumption))
    | exact handled_of_reader_error _ (readFull_err _ _ _ (by assumption))
    | exact handled_of_reader_error _ (readUnknownExtra_err _ _ (by assumption))
    | exact handled_of_reader_error _ (readWindowItemsLoop_err _ _ _ _ (by assumption))

theorem clientReadEntityRelMove_handled (T : WireTypes) (r : List Nat) :
    (clientReadEntityRelMove T r).outcome.handled := by
  unfold clientReadEntityRelMove
  repeat' (first | split | dsimp only)
  all_goals first
    | exact handled_ok
    | exact handled_panic
    | exact handled_of_reader_error _ (binaryRead_error _ _ _ _ (by assumption)).2.2
    | exact handled_of_reader_error _ (readString_err _ _ (by assumption))
    | exact handled_of_reader_error _ (readFull_err _ _ _ (by assumption))
    | exact handled_of_reader_error _ (readUnknownExtra_err _ _ (by assumption))
    | exact handled_of_reader_error _ (readWindowItemsLoop_err _ _ _ _ (by assumption))

theorem clientReadEntityLook_handled (T : WireTypes) (r : List Nat) :
    (clientReadEntityLook T r).outcome.handled := by
  unfold clientReadEntityLook
  repeat' (first | split | dsimp only)
  all_goals first
    | exact handled_ok
    | exact handled_panic
    | exact handled_of_reader_error _ (binaryRead_error _ _ _ _ (by assumption)).2.2
    | exact handled_of_reader_error _ (readString_err _ _ (by assumption))
    | exact handled_of_reader_error _ (readFull_err _ _ _ (by assumption))
    | exact handled_of_reader_error _ (readUnknownExtra_err _ _ (by assumption))
    | exact handled_of_reader_error _ (readWindowItemsLoop_err _ _ _ _ (by assumption))

theorem clientReadEntityLookAndRelMove_handled (T : WireTypes) (r : List Nat) :
    (clientReadEntityLookAndRelMove T r).outcome.handled := by
  unfold clientReadEntityLookAndRelMove
  repeat' (first | split | dsimp only)
  all_goals first
    | exact handled_ok
    | exact handled_panic
    | exact handled_of_reader_error _ (binaryRead_error _ _ _ _ (by assumption)).2.2
    | exact handled_of_reader_error _ (readString_err _ _ (by assumption))
    | exact handled_of_reader_error _ (readFull_err _ _ _ (by assumption))
    | exact handled_of_reader_error _ (readUnknownExtra_err _ _ (by assumption))
    | exact handled_of_reader_error _ (readWindowItemsLoop_err _ _ _ _ (by assumption))

theorem clientReadEntityStatus_handled (T : WireTypes) (r : List Nat) :
    (clientReadEntityStatus T r).outcome.handled := by
  unfold clientReadEntityStatus
  repeat' (first | split | dsimp only)
  all_goals first
    | exact handled_ok
    | exact handled_panic
    | exact handled_of_reader_error _ (binaryRead_error _ _ _ _ (by assumption)).2.2
    | exact handled_of_reader_error _ (readString_err _ _ (by assumption))
    | exact handled_of_reader_error _ (readFull_err _ _ _ (by assumption))
    | exact handled_of_reader_error _ (readUnknownExtra_err _ _ (by assumption))
    | exact handled_of_reader_error _ (readWindowItemsLoop_err _ _ _ _ (by assumption))

theorem clientReadPreChunk_handled (T : WireTypes) (r : List Nat) :
    (clientReadPreChunk T r).outcome.handled := by
  unfold clientReadPreChunk
  repeat' (first | split | dsimp only)
  all_goals first
    | exact handled_ok
    | exact handled_panic
    | exact handled_of_reader_error _ (binaryRead_error _ _ _ _ (by assumption)).2.2
    | exact handled_of_reader_error _ (readString_err _ _ (by assumption))
    | exact handled_of_reader_error _ (readFull_err _ _ _ (by assumption))
    | exact handled_of_reader_error _ (readUnknownExtra_err _ _ (by assumption))
    | exact handled_of_reader_error _ (readWindowItemsLoop_err _ _ _ _ (by assumption))

theorem clientReadMapChunk_handled (T : WireTypes) (r : List Nat) :
    (clientReadMapChunk T r).outcome.handled := by
  unfold clientReadMapChunk
  repeat' (first | split | dsimp only)
  all_goals first
    | exact handled_ok
    | exact handled_panic
    | exact handled_of_reader_error _ (binaryRead_error _ _ _ _ (by assumption)).2.2
    | exact handled_of_reader_error _ (readString_err _ _ (by assumption))
    | exact handled_of_reader_error _ (readFull_err _ _ _ (by assumption))
    | exact handled_of_reader_error _ (readUnknownExtra_err _ _ (by assumption))
    | exact handled_of_reader_error _ (readWindowItemsLoop_err _ _ _ _ (by assumption))

theorem clientReadSetSlot_handled (T : WireTypes) (r : List Nat) :
    (clientReadSetSlot T r).outcome.handled := by
  unfold clientReadSetSlot
  repeat' (first | split | dsimp only)
  all_goals first
    | exact handled_ok
    | exact handled_panic
    | exact handled_of_reader_error _ (binaryRead_error _ _ _ _ (by assumption)).2.2
    | exact handled_of_reader_error _ (readString_err _ _ (by assumption))
    | exact handled_of_reader_error _ (readFull_err _ _ _ (by assumption))
    | exact handled_of_reader_error _ (readUnknownExtra_err _ _ (by assumption))
    | exact handled_of_reader_error _ (readWindowItemsLoop_err _ _ _ _ (by assumption))

theorem clientReadWindowItems_handled (T : WireTypes) (r : List Nat) :
    (clientReadWindowItems T r).outcome.handled := by
  unfold clientReadWindowItems
  repeat' (first | split | dsimp only)
  all_goals first
    | exact handled_ok
    | exact handled_panic
    | exact handled_of_reader_error _ (binaryRead_error _ _ _ _ (by assumption)).2.2
    | exact handled_of_reader_error _ (readString_err _ _ (by assumption))
    | exact handled_of_reader_error _ (readFull_err _ _ _ (by assumption))
    | exact handled_of_reader_error _ (readUnknownExtra_err _ _ (by assumption))
    | exact handled_of_reader_error _ (readWindowItemsLoop_err _ _ _ _ (by assumption))

theorem clientReadPlayerPositionLook_handled (T : WireTypes) (r : List Nat) :
    (clientReadPlayerPositionLook T r).outcome.handled := by
  unfold clientReadPlayerPositionLook
  repeat' (first | split | dsimp only)
  all_goals first
    | exact handled_ok
    | exact handled_panic
    | exact handled_of_reader_error _ (binaryRead_error _ _ _ _ (by assumption)).2.2
    | exact handled_of_reader_error _ (readString_err _ _ (by assumption))
    | exact handled_of_reader_error _ (readFull_err _ _ _ (by assumption))
    | exact handled_of_reader_error _ (readUnknownExtra_err _ _ (by assumption))
    | exact handled_of_reader_error _ (readWindowItemsLoop_err _ _ _ _ (by assumption))

theorem clientReadSpawnPosition_handled (r : List Nat) :
    (clientReadSpawnPosition r).outcome.handled := by
  unfold clientReadSpawnPosition
  repeat' (first | split | dsimp only)
  all_goals first
    | exact handled_ok
    | exact handled_panic
    | exact handled_of_reader_error _ (binaryRead_error _ _ _ _ (by assumption)).2.2
    | exact handled_of_reader_error _ (readString_err _ _ (by assumption))
    | exact handled_of_reader_error _ (readFull_err _ _ _ (by assumption))
    | exact handled_of_reader_error _ (readUnknownExtra_err _ _ (by assumption))
    | exact handled_of_reader_error _ (readWindowItemsLoop_err _ _ _ _ (by assumption))

theorem clientReadUseEntity_handled (r : List Nat) :
    (clientReadUseEntity r).outcome.handled := by
  unfold clientReadUseEntity
  repeat' (first | split | dsimp only)
  all_goals first
    | exact handled_ok
    | exact handled_panic
    | exact handled_of_reader_error _ (binaryRead_error _ _ _ _ (by assumption)).2.2
    | exact handled_of_reader_error _ (readString_err _ _ (by assumption))
    | exact handled_of_reader_error _ (readFull_err _ _ _ (by assumption))
    | exact handled_of_reader_error _ (readUnknownExtra_err _ _ (by assumption))
    | exact handled_of_reader_error _ (readWindowItemsLoop_err _ _ _ _ (by assumption))

theorem clientReadUpdateHealth_handled (r : List Nat) :
    (clientReadUpdateHealth r).outcome.handled := by
  unfold clientReadUpdateHealth
  repeat' (first | split | dsimp only)
  all_goals first
    | exact handled_ok
    | exact handled_panic
    | exact handled_of_reader_error _ (binaryRead_error _ _ _ _ (by assumption)).2.2
    | exact handled_of_reader_error _ (readString_err _ _ (by assumption))
    | exact handled_of_reader_error _ (readFull_err _ _ _ (by assumption))
    | exact handled_of_reader_error _ (readUnknownExtra_err _ _ (by assumption))
    | exact handled_of_reader_error _ (readWindowItemsLoop_err _ _ _ _ (by assumption))

theorem clientReadItemCollect_handled (r : List Nat) :
    (clientReadItemCollect r).outcome.handled := by
  unfold clientReadItemCollect
  repeat' (first | split | dsimp only)
  all_goals first
    | exact handled_ok
    | exact handled_panic
    | exact handled_of_reader_error _ (binaryRead_error _ _ _ _ (by assumption)).2.2
    | exact handled_of_reader_error _ (readString_err _ _ (by assumption))
    | exact handled_of_reader_error _ (readFull_err _ _ _ (by assumption))
    | exact handled_of_reader_error _ (readUnknownExtra_err _ _ (by assumption))
    | exact handled_of_reader_error _ (readWindowItemsLoop_err _ _ _ _ (by assumption))

theorem clientReadUnknownX19_handled (r : List Nat) :
    (clientReadUnknownX19 r).outcome.handled := by
  unfold clientReadUnknownX19
  repeat' (first | split | dsimp only)
  all_goals first
    | exact handled_ok
    | exact handled_panic
    | exact handled_of_reader_error _ (binaryRead_error _ _ _ _ (by assumption)).2.2
    | exact handled_of_reader_error _ (readString_err _ _ (by assumption))
    | exact handled_of_reader_error _ (readFull_err _ _ _ (by assumption))
    | exact handled_of_reader_error _ (readUnknownExtra_err _ _ (by assumption))
    | exact handled_of_reader_error _ (readWindowItemsLoop_err _ _ _ _ (by assumption))

theorem clientReadEntityDestroy_handled (r : List Nat) :
    (clientReadEntityDestroy r).outcome.handled := by
  unfold clientReadEntityDestroy
  repeat' (first | split | dsimp only)
  all_goals first
    | exact handled_ok
    | exact handled_panic
    | exact handled_of_reader_error _ (binaryRead_error _ _ _ _ (by assumption)).2.2
    | exact handled_of_reader_error _ (readString_err _ _ (by assumption))
    | exact handled_of_reader_error _ (readFull_err _ _ _ (by assumption))
    | exact handled_of_reader_error _ (readUnknownExtra_err _ _ (by assumption))
    | exact handled_of_reader_error _ (readWindowItemsLoop_err _ _ _ _ (by assumption))

theorem clientReadEntity_handled (r : List Nat) :
    (clientReadEntity r).outcome.handled := by
  unfold clientReadEntity
  repeat' (first | split | dsimp only)
  all_goals first
    | exact handled_ok
    | exact handled_panic
    | exact handled_of_reader_error _ (binaryRead_error _ _ _ _ (by assumption)).2.2
    | exact handled_of_reader_error _ (readString_err _ _ (by assumption))
    | exact handled_of_reader_error _ (readFull_err _ _ _ (by assumption))
    | exact handled_of_reader_error _ (readUnknownExtra_err _ _ (by assumption))
    | exact handled_of_reader_error _ (readWindowItemsLoop_err _ _ _ _ (by assumption))

theorem clientReadUnknownX28_handled (r : List Nat) :
    (clientReadUnknownX28 r).outcome.handled := by
  unfold clientReadUnknownX28
  repeat' (first | split | dsimp only)
  all_goals first
    | exact handled_ok
    | exact handled_panic
    | exact handled_of_reader_error _ (binaryRead_error _ _ _ _ (by assumption)).2.2
    | exact handled_of_reader_error _ (readString_err _ _ (by assumption))
    | exact handled_of_reader_error _ (readFull_err _ _ _ (by assumption))
    | exact handled_of_reader_error _ (readUnknownExtra_err _ _ (by assumption))
    | exact handled_of_reader_error _ (readWindowItemsLoop_err _ _ _ _ (by assumption))

theorem clientReadBlockChange_handled (r : List Nat) :
    (clientReadBlockChange r).outcome.handled := by
  unfold clientReadBlockChange
  repeat' (first | split | dsimp only)
  all_goals first
    | exact handled_ok
    | exact handled_panic
    | exact handled_of_reader_error _ (binaryRead_error _ _ _ _ (by assumption)).2.2
    | exact handled_of_reader_error _ (readString_err _ _ (by assumption))
    | exact handled_of_reader_error _ (readFull_err _ _ _ (by assumption))
    | exact handled_of_reader_error _ (readUnknownExtra_err _ _ (by assumption))
    | exact handled_of_reader_error _ (readWindowItemsLoop_err _ _ _ _ (by assumption))

theorem clientReadUnknownX36_handled (r : List Nat) :
    (clientReadUnknownX36 r).outcome.handled := by
  unfold clientReadUnknownX36
  repeat' (first | split | dsimp only)
  all_goals first
    | exact handled_ok
    | exact handled_panic
    | exact handled_of_reader_error _ (binaryRead_error _ _ _ _ (by assumption)).2.2
    | exact handled_of_reader_error _ (readString_err _ _ (by assumption))
    | exact handled_of_reader_error _ (readFull_err _ _ _ (by assumption))
    | exact handled_of_reader_error _ (readUnknownExtra_err _ _ (by assumption))
    | exact handled_of_reader_error _ (readWindowItemsLoop_err _ _ _ _ (by assumption))

theorem binaryReadSlice_err (w n : Nat) (r : List Nat) (e : Error)
    (h : (binaryReadSlice w n r).2.1 = some e) : e = Error.eof ∨ e = Error.unexpectedEOF := by
  unfold binaryReadSlice at h
  split at h
  · rename_i heq
    simp at h
    rw [← h]
    exact (binaryRead_error _ _ _ _ heq).2.2
  · simp at h

theorem clientReadBlockChangeMulti_handled (T : WireTypes) (r : List Nat) :
    (clientReadBlockChangeMulti T r).outcome.handled := by
  unfold clientReadBlockChangeMulti
  split
  · exact handled_of_reader_error _ (binaryRead_error _ _ _ _ (by assumption)).2.2
  · dsimp only
    split
    · exact handled_panic
    · dsimp only
      cases he : (binaryReadSlice 1 (int16 (slice 8 2 _)).toNat _).2.1 with
      | none => exact handled_ok
      | some e => exact handled_of_reader_error _ (binaryReadSlice_err _ _ _ _ he)


theorem scReadFns_handled (T : WireTypes) (b : Nat) (fn : List Nat → Result)
    (h : scReadFns T b = some fn) (r : List Nat) : (fn r).outcome.handled := by
  unfold scReadFns at h
  split at h
  · cases h
    exact clientReadLogin_handled T r
  · cases h
    exact clientReadTimeUpdate_handled T r
  · cases h
    exact clientReadSpawnPosition_handled r
  · cases h
    exact clientReadUseEntity_handled r
  · cases h
    exact clientReadUpdateHealth_handled r
  · cases h
    exact clientReadPlayerPositionLook_handled T r
  · cases h
    exact clientReadEntitySpawn_handled T r
  · cases h
    exact clientReadPickupSpawn_handled T r
  · cases h
    exact clientReadItemCollect_handled r
  · cases h
    exact clientReadUnknownX19_handled r
  · cases h
    exact clientReadEntityVelocity_handled T r
  · cases h
    exact clientReadEntityDestroy_handled r
  · cases h
    exact clientReadEntity_handled r
  · cases h
    exact clientReadEntityRelMove_handled T r
  · cases h
    exact clientReadEntityLook_handled T r
  · cases h
    exact clientReadEntityLookAndRelMove_handled T r
  · cases h
    exact clientReadEntityStatus_handled T r
  · cases h
    exact clientReadUnknownX28_handled r
  · cases h
    exact clientReadPreChunk_handled T r
  · cases h
    exact clientReadMapChunk_handled T r
  · cases h
    exact clientReadBlockChangeMulti_handled T r
  · cases h
    exact clientReadBlockChange_handled r
  · cases h
    exact clientReadUnknownX36_handled r
  · cases h
    exact clientReadSetSlot_handled T r
  · cases h
    exact clientReadWindowItems_handled T r
  · cases h

theorem ClientReadPacket_sc (T : WireTypes) (b : Nat) (rest : List Nat) (fn : List Nat → Result)
    (h1 : commonReadFns T b = none) (h2 : scReadFns T b = some fn) :
    ClientReadPacket T (b :: rest) = fn rest := by
  unfold ClientReadPacket
  rw [binaryRead_cons]
  simp only [beNat_singleton, h1, h2]

theorem ClientReadPacket_none (T : WireTypes) (b : Nat) (rest : List Nat)
    (h1 : commonReadFns T b = none) (h2 : scReadFns T b = none) :
    ClientReadPacket T (b :: rest) = ⟨rest, [], Outcome.error (Error.unhandledPacketType b)⟩ := by
  unfold ClientReadPacket
  rw [binaryRead_cons]
  simp only [beNat_singleton, h1, h2]

/-- C3, as the code has it. For every server-to-client packet id of the table other than
`0x05`, `0x14` and `0x22`, and for the unknown ids `0x19`, `0x28`, `0x36`, `scReadFns` has a
reader, `ClientReadPacket` runs it on the bytes after the id, and the outcome is never the
unhandled-packet-type error. For `0x14` (named-entity-spawn) and `0x22` (entity-teleport)
there is no reader: `ClientReadPacket` answers with the unhandled-packet-type error, makes
no handler call and leaves the bytes after the id unread. -/
theorem ClientReadPacket_registered (T : WireTypes) (b : Nat) (rest : List Nat) :
    (b ∈ [0x01, 0x04, 0x06, 0x07, 0x08, 0x15, 0x16, 0x18, 0x1c, 0x1d, 0x1e, 0x1f, 0x20, 0x21,
          0x26, 0x32, 0x33, 0x34, 0x35, 0x67, 0x68, 0x19, 0x28, 0x36] →
        (∃ fn, scReadFns T b = some fn ∧ ClientReadPacket T (b :: rest) = fn rest)
          ∧ (ClientReadPacket T (b :: rest)).outcome.handled)
      ∧ (b ∈ [0x14, 0x22] →
        ClientReadPacket T (b :: rest)
          = ⟨rest, [], Outcome.error (Error.unhandledPacketType b)⟩) := by
  constructor
  · intro hb
    have hc : commonReadFns T b = none := by
      simp only [List.mem_cons, List.mem_singleton, List.not_mem_nil, or_false] at hb
      rcases hb with h | h | h | h | h | h | h | h | h | h | h | h | h | h | h | h | h | h | h
        | h | h | h | h | h <;> (subst h; rfl)
    have hs : ∃ fn, scReadFns T b = some fn := by
      simp only [List.mem_cons, List.mem_singleton, List.not_mem_nil, or_false] at hb
      rcases hb with h | h | h | h | h | h | h | h | h | h | h | h | h | h | h | h | h | h | h
        | h | h | h | h | h <;> (subst h; exact ⟨_, rfl⟩)
    obtain ⟨fn, hfn⟩ := hs
    have hrun := ClientReadPacket_sc T b rest fn hc hfn
    refine ⟨⟨fn, hfn, hrun⟩, ?_⟩
    rw [hrun]
    exact scReadFns_handled T b fn hfn rest
  · intro hb
    simp only [List.mem_cons, List.mem_singleton, List.not_mem_nil, or_false] at hb
    rcases hb with h | h <;> (subst h; exact ClientReadPacket_none T _ rest rfl rfl)

/-- Witness of C3 as amended: the block-change id `0x35` followed by a complete packet and
one more byte; and the id `0x14`. -/
theorem ClientReadPacket_registered_witness :
    ((∃ fn, scReadFns beta 0x35 = some fn
          ∧ ClientReadPacket beta (0x35 :: [0, 0, 0, 5, 64, 0, 0, 0, 7, 0, 0, 9]) = fn
              [0, 0, 0, 5, 64, 0, 0, 0, 7, 0, 0, 9])
        ∧ (ClientReadPacket beta (0x35 :: [0, 0, 0, 5, 64, 0, 0, 0, 7, 0, 0, 9])).outcome.handled)
      ∧ ClientReadPacket beta (0x14 :: [1, 2])
          = ⟨[1, 2], [], Outcome.error (Error.unhandledPacketType 0x14)⟩ :=
  ⟨(ClientReadPacket_registered beta 0x35 [0, 0, 0, 5, 64, 0, 0, 0, 7, 0, 0, 9]).1 (by decide),
    (ClientReadPacket_registered beta 0x14 [1, 2]).2 (by decide)⟩

/-- Counterexample to C3 as stated: the ids `0x14` and `0x22` of the server-to-client table
have no reader in `commonReadFns` or `scReadFns`, and `ClientReadPacket` answers each with
the unhandled-packet-type error. -/
theorem ClientReadPacket_unregistered_counterexample :
    (commonReadFns beta 0x14).isSome = false ∧ (scReadFns beta 0x14).isSome = false
      ∧ ClientReadPacket beta [0x14, 1, 2]
          = ⟨[1, 2], [], Outcome.error (Error.unhandledPacketType 0x14)⟩
      ∧ (commonReadFns beta 0x22).isSome = false ∧ (scReadFns beta 0x22).isSome = false
      ∧ ClientReadPacket beta [0x22, 1, 2]
          = ⟨[1, 2], [], Outcome.error (Error.unhandledPacketType 0x22)⟩ := by
  refine ⟨rfl, rfl, ?_, rfl, rfl, ?_⟩
  · exact ClientReadPacket_none beta 0x14 [1, 2] rfl rfl
  · exact ClientReadPacket_none beta 0x22 [1, 2] rfl rfl

/-- C4, as the code has it. The ids `0x66` (window-click) and `0x10` (holding-change) are
client-to-server only: `ClientReadPacket` answers each with the unhandled-packet-type
error, makes no handler call and leaves the bytes after the id unread. The id `0x0d`
(position+look) has a reader in both directions: `ClientReadPacket` runs
`clientReadPlayerPositionLook` on it and the outcome is never the unhandled-packet-type
error. -/
theorem ClientReadPacket_client_to_server_ids (T : WireTypes) (rest : List Nat) :
    ClientReadPacket T (0x66 :: rest)
        = ⟨rest, [], Outcome.error (Error.unhandledPacketType 0x66)⟩
      ∧ ClientReadPacket T (0x10 :: rest)
        = ⟨rest, [], Outcome.error (Error.unhandledPacketType 0x10)⟩
      ∧ scReadFns T 0x0d = some (clientReadPlayerPositionLook T)
      ∧ ClientReadPacket T (0x0d :: rest) = clientReadPlayerPositionLook T rest
      ∧ (ClientReadPacket T (0x0d :: rest)).outcome.handled := by
  have h := ClientReadPacket_sc T 0x0d rest (clientReadPlayerPositionLook T) rfl rfl
  refine ⟨ClientReadPacket_none T 0x66 rest rfl rfl, ClientReadPacket_none T 0x10 rest rfl rfl,
    rfl, h, ?_⟩
  rw [h]
  exact clientReadPlayerPositionLook_handled T rest

/-- Counterexample to C4 as stated: on the id `0x0d` followed by a complete position+look
packet, `ClientReadPacket` returns no error and calls `RecvPlayerPosition` and
`RecvPlayerLook`. -/
theorem ClientReadPacket_position_look_counterexample :
    ClientReadPacket beta (0x0d :: (List.replicate 40 0 ++ [1, 7]))
      = ⟨[7], [Call.RecvPlayerPosition (List.replicate 8 0) (List.replicate 8 0)
                (List.replicate 8 0) (List.replicate 8 0) true,
              Call.RecvPlayerLook (List.replicate 4 0) (List.replicate 4 0) true],
          Outcome.ok⟩ := by
  decide


/-! ## Conditional fields -/

theorem slice_mid (a b c : List Nat) : slice a.length b.length (a ++ b ++ c) = b := by
  simp [slice]

theorem slice_mid_of (a b c : List Nat) (off len : Nat) (ha : a.length = off)
    (hb : b.length = len) : slice off len (a ++ b ++ c) = b := by
  rw [← ha, ← hb]
  exact slice_mid a b c

theorem binaryRead_append_of (n : Nat) (p rest : List Nat) (h : p.length = n) :
    binaryRead n (p ++ rest) = (Except.ok p, rest) := by
  rw [← h]
  exact binaryRead_append p rest

/-- C7. `readPlayerBlockPlacement` reads the `(amount, uses)` tail exactly when the decoded
`int16` item id is at least 0. On the packet body `x, y, z, face, itemID`: if
`itemID >= 0` and three more bytes follow, it consumes those three bytes and passes their
values as amount and uses to `RecvPlayerBlockPlacement`; if `itemID >= 0` and fewer than
three bytes follow, it returns an error without calling the handler; if `itemID < 0` it
consumes no byte after the item id and passes amount 0 and uses 0. -/
theorem readPlayerBlockPlacement_tail (T : WireTypes)
    (x3 x2 x1 x0 y z3 z2 z1 z0 i1 i0 a u1 u0 : Nat) (face rest : List Nat)
    (hface : face.length = T.face) :
    (0 ≤ int16 [i1, i0] →
        readPlayerBlockPlacement T
            ([x3, x2, x1, x0, y, z3, z2, z1, z0] ++ face ++ [i1, i0] ++ ([a, u1, u0] ++ rest))
          = ⟨rest, [Call.RecvPlayerBlockPlacement (int16 [i1, i0]) (int32 [x3, x2, x1, x0])
              (int8 [y]) (int32 [z3, z2, z1, z0]) face (int8 [a]) (int16 [u1, u0])],
              Outcome.ok⟩)
      ∧ (0 ≤ int16 [i1, i0] → rest.length < 3 →
          (readPlayerBlockPlacement T
              ([x3, x2, x1, x0, y, z3, z2, z1, z0] ++ face ++ [i1, i0] ++ rest)).calls = []
          ∧ (readPlayerBlockPlacement T
              ([x3, x2, x1, x0, y, z3, z2, z1, z0] ++ face ++ [i1, i0] ++ rest)).outcome
            = Outcome.error (if rest.length = 0 then Error.eof else Error.unexpectedEOF))
      ∧ (int16 [i1, i0] < 0 →
        readPlayerBlockPlacement T
            ([x3, x2, x1, x0, y, z3, z2, z1, z0] ++ face ++ [i1, i0] ++ rest)
          = ⟨rest, [Call.RecvPlayerBlockPlacement (int16 [i1, i0]) (int32 [x3, x2, x1, x0])
              (int8 [y]) (int32 [z3, z2, z1, z0]) face 0 0], Outcome.ok⟩) := by
  have hb : ∀ tl : List Nat,
      binaryRead (sizeBlockCoord + sizeBlockYCoord + sizeBlockCoord + T.face + sizeItemID)
        ([x3, x2, x1, x0, y, z3, z2, z1, z0] ++ face ++ [i1, i0] ++ tl)
        = (Except.ok ([x3, x2, x1, x0, y, z3, z2, z1, z0] ++ face ++ [i1, i0]), tl) := by
    intro tl
    apply binaryRead_append_of
    simp [hface, sizeBlockCoord, sizeBlockYCoord, sizeItemID]
    omega
  have hsx : slice 0 4 ([x3, x2, x1, x0, y, z3, z2, z1, z0] ++ face ++ [i1, i0])
      = [x3, x2, x1, x0] :=
    slice_mid_of [] [x3, x2, x1, x0] ([y, z3, z2, z1, z0] ++ face ++ [i1, i0]) 0 4 rfl rfl
  have hsy : slice 4 1 ([x3, x2, x1, x0, y, z3, z2, z1, z0] ++ face ++ [i1, i0]) = [y] :=
    slice_mid_of [x3, x2, x1, x0] [y] ([z3, z2, z1, z0] ++ face ++ [i1, i0]) 4 1 rfl rfl
  have hsz : slice 5 4 ([x3, x2, x1, x0, y, z3, z2, z1, z0] ++ face ++ [i1, i0])
      = [z3, z2, z1, z0] :=
    slice_mid_of [x3, x2, x1, x0, y] [z3, z2, z1, z0] (face ++ [i1, i0]) 5 4 rfl rfl
  have hsf : slice 9 T.face ([x3, x2, x1, x0, y, z3, z2, z1, z0] ++ face ++ [i1, i0])
      = face :=
    slice_mid_of [x3, x2, x1, x0, y, z3, z2, z1, z0] face [i1, i0] 9 T.face rfl hface
  have hsi : slice (9 + T.face) 2 ([x3, x2, x1, x0, y, z3, z2, z1, z0] ++ face ++ [i1, i0])
      = [i1, i0] := by
    have h := slice_mid_of ([x3, x2, x1, x0, y, z3, z2, z1, z0] ++ face) [i1, i0] []
      (9 + T.face) 2 (by simp [hface]; omega) rfl
    simpa using h
  have ht : binaryRead (sizeItemCount + sizeItemUses) ([a, u1, u0] ++ rest)
      = (Except.ok [a, u1, u0], rest) :=
    binaryRead_append_of _ [a, u1, u0] rest rfl
  refine ⟨?_, ?_, ?_⟩
  · intro hi
    unfold readPlayerBlockPlacement
    rw [hb]
    simp only [hsx, hsy, hsz, hsf, hsi]
    rw [if_pos hi, ht]
    rfl
  · intro hi hr
    have hs : binaryRead (sizeItemCount + sizeItemUses) rest
        = (Except.error (if rest.length = 0 then Error.eof else Error.unexpectedEOF), []) :=
      binaryRead_of_lt _ rest hr
    unfold readPlayerBlockPlacement
    rw [hb]
    simp only [hsx, hsy, hsz, hsf, hsi]
    rw [if_pos hi, hs]
    exact ⟨rfl, rfl⟩
  · intro hi
    unfold readPlayerBlockPlacement
    rw [hb]
    simp only [hsx, hsy, hsz, hsf, hsi]
    rw [if_neg (not_le.mpr hi)]


/-- Witness of C7: a placement with item id 5 followed by the tail `9, 256`, and a
placement with item id -2 followed by bytes that are not read. -/
theorem readPlayerBlockPlacement_tail_witness :
    readPlayerBlockPlacement beta
        ([0, 0, 0, 1, 2, 0, 0, 0, 3] ++ [4] ++ [0, 5] ++ ([9, 1, 0] ++ [33]))
      = ⟨[33], [Call.RecvPlayerBlockPlacement (int16 [0, 5]) (int32 [0, 0, 0, 1]) (int8 [2])
          (int32 [0, 0, 0, 3]) [4] (int8 [9]) (int16 [1, 0])], Outcome.ok⟩
    ∧ readPlayerBlockPlacement beta
        ([0, 0, 0, 1, 2, 0, 0, 0, 3] ++ [4] ++ [255, 254] ++ [9, 1, 0, 33])
      = ⟨[9, 1, 0, 33], [Call.RecvPlayerBlockPlacement (int16 [255, 254]) (int32 [0, 0, 0, 1])
          (int8 [2]) (int32 [0, 0, 0, 3]) [4] 0 0], Outcome.ok⟩ :=
  ⟨(readPlayerBlockPlacement_tail beta 0 0 0 1 2 0 0 0 3 0 5 9 1 0 [4] [33] rfl).1 (by decide),
    (readPlayerBlockPlacement_tail beta 0 0 0 1 2 0 0 0 3 255 254 0 0 0 [4] [9, 1, 0, 33]
      rfl).2.2 (by decide)⟩

theorem serverReadWindowClick_header (T : WireTypes) (w s tx : List Nat) (rc i1 i0 : Nat)
    (hw : w.length = T.windowID) (hs : s.length = T.slotID) (htx : tx.length = T.txID) :
    (∀ tl : List Nat, binaryRead (T.windowID + T.slotID + 1 + T.txID + sizeItemID)
        (w ++ s ++ [rc] ++ tx ++ [i1, i0] ++ tl)
        = (Except.ok (w ++ s ++ [rc] ++ tx ++ [i1, i0]), tl))
      ∧ slice 0 T.windowID (w ++ s ++ [rc] ++ tx ++ [i1, i0]) = w
      ∧ slice T.windowID T.slotID (w ++ s ++ [rc] ++ tx ++ [i1, i0]) = s
      ∧ slice (T.windowID + T.slotID) 1 (w ++ s ++ [rc] ++ tx ++ [i1, i0]) = [rc]
      ∧ slice (T.windowID + T.slotID + 1) T.txID (w ++ s ++ [rc] ++ tx ++ [i1, i0]) = tx
      ∧ slice (T.windowID + T.slotID + 1 + T.txID) 2 (w ++ s ++ [rc] ++ tx ++ [i1, i0])
          = [i1, i0] := by
  refine ⟨?_, ?_, ?_, ?_, ?_, ?_⟩
  · intro tl
    apply binaryRead_append_of
    simp [hw, hs, htx, sizeItemID]
    omega
  · have h := slice_mid_of [] w (s ++ [rc] ++ tx ++ [i1, i0]) 0 T.windowID rfl hw
    simpa using h
  · have h := slice_mid_of w s ([rc] ++ tx ++ [i1, i0]) T.windowID T.slotID hw hs
    simpa using h
  · have h := slice_mid_of (w ++ s) [rc] (tx ++ [i1, i0]) (T.windowID + T.slotID) 1
      (by simp [hw, hs]) rfl
    simpa using h
  · have h := slice_mid_of (w ++ s ++ [rc]) tx [i1, i0] (T.windowID + T.slotID + 1) T.txID
      (by simp [hw, hs]; omega) htx
    simpa using h
  · have h := slice_mid_of (w ++ s ++ [rc] ++ tx) [i1, i0] []
      (T.windowID + T.slotID + 1 + T.txID) 2 (by simp [hw, hs, htx]; omega) rfl
    simpa using h

theorem clientReadSetSlot_header (T : WireTypes) (w s : List Nat) (i1 i0 : Nat)
    (hw : w.length = T.windowID) (hs : s.length = T.slotID) :
    (∀ tl : List Nat, binaryRead (T.windowID + T.slotID + sizeItemID)
        (w ++ s ++ [i1, i0] ++ tl) = (Except.ok (w ++ s ++ [i1, i0]), tl))
      ∧ slice 0 T.windowID (w ++ s ++ [i1, i0]) = w
      ∧ slice T.windowID T.slotID (w ++ s ++ [i1, i0]) = s
      ∧ slice (T.windowID + T.slotID) 2 (w ++ s ++ [i1, i0]) = [i1, i0] := by
  refine ⟨?_, ?_, ?_, ?_⟩
  · intro tl
    apply binaryRead_append_of
    simp [hw, hs, sizeItemID]
    omega
  · have h := slice_mid_of [] w (s ++ [i1, i0]) 0 T.windowID rfl hw
    simpa using h
  · exact slice_mid_of w s [i1, i0] T.windowID T.slotID hw hs
  · have h := slice_mid_of (w ++ s) [i1, i0] [] (T.windowID + T.slotID) 2
      (by simp [hw, hs]) rfl
    simpa using h

/-- C8. `serverReadWindowClick` and `clientReadSetSlot` each read the `(amount, uses)` tail
exactly when the decoded item id differs from -1 (so also for -2 and every other negative
id). On a packet body ending in the item id: if `itemID != -1` and three more bytes
follow, those three bytes are consumed and passed as amount and uses; if `itemID != -1`
and fewer than three bytes follow, an error is returned and the handler is not called; if
`itemID == -1`, no byte after the item id is consumed and amount 0, uses 0 are passed. -/
theorem window_slot_tail (T : WireTypes) (w s tx : List Nat) (rc i1 i0 a u1 u0 : Nat)
    (rest : List Nat)
    (hw : w.length = T.windowID) (hs : s.length = T.slotID) (htx : tx.length = T.txID) :
    (int16 [i1, i0] ≠ -1 →
        serverReadWindowClick T (w ++ s ++ [rc] ++ tx ++ [i1, i0] ++ ([a, u1, u0] ++ rest))
          = ⟨rest, [Call.ServerRecvWindowClick w s (byteToBool rc) tx (int16 [i1, i0])
              (int8 [a]) (int16 [u1, u0])], Outcome.ok⟩
        ∧ clientReadSetSlot T (w ++ s ++ [i1, i0] ++ ([a, u1, u0] ++ rest))
          = ⟨rest, [Call.ClientRecvSetSlot w s (int16 [i1, i0]) (int8 [a]) (int16 [u1, u0])],
              Outcome.ok⟩)
      ∧ (int16 [i1, i0] ≠ -1 → rest.length < 3 →
        (serverReadWindowClick T (w ++ s ++ [rc] ++ tx ++ [i1, i0] ++ rest)).calls = []
        ∧ (serverReadWindowClick T (w ++ s ++ [rc] ++ tx ++ [i1, i0] ++ rest)).outcome
            = Outcome.error (if rest.length = 0 then Error.eof else Error.unexpectedEOF)
        ∧ (clientReadSetSlot T (w ++ s ++ [i1, i0] ++ rest)).calls = []
        ∧ (clientReadSetSlot T (w ++ s ++ [i1, i0] ++ rest)).outcome
            = Outcome.error (if rest.length = 0 then Error.eof else Error.unexpectedEOF))
      ∧ (int16 [i1, i0] = -1 →
        serverReadWindowClick T (w ++ s ++ [rc] ++ tx ++ [i1, i0] ++ rest)
          = ⟨rest, [Call.ServerRecvWindowClick w s (byteToBool rc) tx (int16 [i1, i0]) 0 0],
              Outcome.ok⟩
        ∧ clientReadSetSlot T (w ++ s ++ [i1, i0] ++ rest)
          = ⟨rest, [Call.ClientRecvSetSlot w s (int16 [i1, i0]) 0 0], Outcome.ok⟩) := by
  obtain ⟨hb, h1, h2, h3, h4, h5⟩ := serverReadWindowClick_header T w s tx rc i1 i0 hw hs htx
  obtain ⟨kb, k1, k2, k3⟩ := clientReadSetSlot_header T w s i1 i0 hw hs
  have ht : binaryRead (sizeItemCount + sizeItemUses) ([a, u1, u0] ++ rest)
      = (Except.ok [a, u1, u0], rest) :=
    binaryRead_append_of _ [a, u1, u0] rest rfl
  refine ⟨?_, ?_, ?_⟩
  · intro hi
    constructor
    · unfold serverReadWindowClick
      rw [hb]
      simp only [h1, h2, h3, h4, h5, beNat_singleton]
      rw [if_pos hi, ht]
      rfl
    · unfold clientReadSetSlot
      rw [kb]
      simp only [k1, k2, k3]
      rw [if_pos hi, ht]
      rfl
  · intro hi hr
    have hshort : binaryRead (sizeItemCount + sizeItemUses) rest
        = (Except.error (if rest.length = 0 then Error.eof else Error.unexpectedEOF), []) :=
      binaryRead_of_lt _ rest hr
    have hsrv : serverReadWindowClick T (w ++ s ++ [rc] ++ tx ++ [i1, i0] ++ rest)
        = ⟨[], [], Outcome.error (if rest.length = 0 then Error.eof else Error.unexpectedEOF)⟩ := by
      unfold serverReadWindowClick
      rw [hb]
      simp only [h1, h2, h3, h4, h5, beNat_singleton]
      rw [if_pos hi, hshort]
    have hcli : clientReadSetSlot T (w ++ s ++ [i1, i0] ++ rest)
        = ⟨[], [], Outcome.error (if rest.length = 0 then Error.eof else Error.unexpectedEOF)⟩ := by
      unfold clientReadSetSlot
      rw [kb]
      simp only [k1, k2, k3]
      rw [if_pos hi, hshort]
    rw [hsrv, hcli]
    exact ⟨rfl, rfl, rfl, rfl⟩
  · intro hi
    constructor
    · unfold serverReadWindowClick
      rw [hb]
      simp only [h1, h2, h3, h4, h5, beNat_singleton]
      rw [if_neg (not_not.mpr hi)]
    · unfold clientReadSetSlot
      rw [kb]
      simp only [k1, k2, k3]
      rw [if_neg (not_not.mpr hi)]

/-- Witness of C8: a click and a set-slot with item id -2, whose tail `7, 1` is read, and
with item id -1, after which nothing is read. -/
theorem window_slot_tail_witness :
    (serverReadWindowClick beta ([3] ++ [0, 36] ++ [1] ++ [0, 9] ++ [255, 254] ++ ([7, 0, 1] ++ [33]))
        = ⟨[33], [Call.ServerRecvWindowClick [3] [0, 36] (byteToBool 1) [0, 9] (int16 [255, 254])
            (int8 [7]) (int16 [0, 1])], Outcome.ok⟩
      ∧ clientReadSetSlot beta ([3] ++ [0, 36] ++ [255, 254] ++ ([7, 0, 1] ++ [33]))
        = ⟨[33], [Call.ClientRecvSetSlot [3] [0, 36] (int16 [255, 254]) (int8 [7])
            (int16 [0, 1])], Outcome.ok⟩)
    ∧ (serverReadWindowClick beta ([3] ++ [0, 36] ++ [1] ++ [0, 9] ++ [255, 255] ++ [7, 0, 1, 33])
        = ⟨[7, 0, 1, 33], [Call.ServerRecvWindowClick [3] [0, 36] (byteToBool 1) [0, 9]
            (int16 [255, 255]) 0 0], Outcome.ok⟩
      ∧ clientReadSetSlot beta ([3] ++ [0, 36] ++ [255, 255] ++ [7, 0, 1, 33])
        = ⟨[7, 0, 1, 33], [Call.ClientRecvSetSlot [3] [0, 36] (int16 [255, 255]) 0 0],
            Outcome.ok⟩) :=
  ⟨(window_slot_tail beta [3] [0, 36] [0, 9] 1 255 254 7 0 1 [33] rfl rfl rfl).1 (by decide),
    (window_slot_tail beta [3] [0, 36] [0, 9] 1 255 255 0 0 0 [7, 0, 1, 33] rfl rfl rfl).2.2
      (by decide)⟩


/-! ## Slices made with a length and then appended to -/

theorem readWindowItemsLoop_ok (n : Nat) :
    ∀ (r : List Nat) (items out : List WindowSlot) (r1 : List Nat),
      readWindowItemsLoop n r items = (out, none, r1) →
      ∃ new : List WindowSlot, out = items ++ new ∧ new.length = n := by
  induction n with
  | zero =>
    intro r items out r1 h
    simp only [readWindowItemsLoop, Prod.mk.injEq] at h
    exact ⟨[], by simp [h.1], rfl⟩
  | succ n ih =>
    intro r items out r1 h
    unfold readWindowItemsLoop at h
    split at h
    · simp at h
    · split at h
      · split at h
        · simp at h
        · obtain ⟨new, hn, hl⟩ := ih _ _ _ _ h
          rw [List.append_assoc] at hn
          exact ⟨_, hn, by simp [hl]⟩
      · obtain ⟨new, hn, hl⟩ := ih _ _ _ _ h
        rw [List.append_assoc] at hn
        exact ⟨_, hn, by simp [hl]⟩

/-- C9, what the code does. On a window-items body with window id `w` and a count `n >= 0`
on which the reader returns no error, `ClientRecvWindowItems` is called once, with a list
of `2 * n` slots: `n` zero slots (those `make` created) followed by the `n` slots the loop
appended. -/
theorem clientReadWindowItems_appends (T : WireTypes) (w rest : List Nat) (c1 c0 : Nat)
    (hw : w.length = T.windowID) (hc : 0 ≤ int16 [c1, c0])
    (hok : (clientReadWindowItems T (w ++ [c1, c0] ++ rest)).outcome = Outcome.ok) :
    ∃ new : List WindowSlot, new.length = (int16 [c1, c0]).toNat
      ∧ (clientReadWindowItems T (w ++ [c1, c0] ++ rest)).calls
          = [Call.ClientRecvWindowItems w
              (List.replicate (int16 [c1, c0]).toNat ⟨0, 0, 0⟩ ++ new)]
      ∧ (List.replicate (int16 [c1, c0]).toNat (⟨0, 0, 0⟩ : WindowSlot) ++ new).length
          = 2 * (int16 [c1, c0]).toNat := by
  have hb : binaryRead (T.windowID + 2) (w ++ [c1, c0] ++ rest)
      = (Except.ok (w ++ [c1, c0]), rest) :=
    binaryRead_append_of _ (w ++ [c1, c0]) rest (by simp [hw])
  have h1 : slice 0 T.windowID (w ++ [c1, c0]) = w := by
    have h := slice_mid_of [] w [c1, c0] 0 T.windowID rfl hw
    simpa using h
  have h2 : slice T.windowID 2 (w ++ [c1, c0]) = [c1, c0] := by
    have h := slice_mid_of w [c1, c0] [] T.windowID 2 hw rfl
    simpa using h
  unfold clientReadWindowItems at hok ⊢
  rw [hb] at hok ⊢
  simp only [h1, h2] at hok ⊢
  rw [if_neg (not_lt.mpr hc)] at hok ⊢
  cases hl : readWindowItemsLoop (int16 [c1, c0]).toNat rest
      (List.replicate (int16 [c1, c0]).toNat ⟨0, 0, 0⟩) with
  | mk out p =>
    cases p with
    | mk e r1 =>
      rw [hl] at hok
      cases e with
      | some e => simp at hok
      | none =>
        obtain ⟨new, hn, hlen⟩ := readWindowItemsLoop_ok _ _ _ _ _ hl
        refine ⟨new, hlen, ?_, ?_⟩
        · dsimp only
          rw [hn]
        · simp [hlen]
          omega

/-- Witness of C9's theorem: window 3, count 1 and the one slot record `ff ff` (an empty
slot): the handler receives two slots, a zero slot and the empty slot. -/
theorem clientReadWindowItems_appends_witness :
    clientReadWindowItems beta ([3] ++ [0, 1] ++ [255, 255, 9])
        = ⟨[9], [Call.ClientRecvWindowItems [3] [⟨0, 0, 0⟩, ⟨-1, 0, 0⟩]], Outcome.ok⟩
      ∧ ∃ new : List WindowSlot, new.length = (int16 [0, 1]).toNat
        ∧ (clientReadWindowItems beta ([3] ++ [0, 1] ++ [255, 255, 9])).calls
            = [Call.ClientRecvWindowItems [3]
                (List.replicate (int16 [0, 1]).toNat ⟨0, 0, 0⟩ ++ new)]
        ∧ (List.replicate (int16 [0, 1]).toNat (⟨0, 0, 0⟩ : WindowSlot) ++ new).length
            = 2 * (int16 [0, 1]).toNat :=
  ⟨by decide, clientReadWindowItems_appends beta [3] [255, 255, 9] 0 1 rfl (by decide)
    (by decide)⟩


theorem binaryReadSlice_length (w n : Nat) (r : List Nat) :
    (binaryReadSlice w n r).1.length = n := by
  unfold binaryReadSlice
  split <;> simp

/-- C10, what the code does. On a multi-block-change body with a count `n >= 0`, whatever
follows the header, `ClientRecvBlockChangeMulti` is called once with block types and
metadata of length `n` each and with block coordinates of length `2 * n`: `n` zero
coordinates (those `make` created) followed by the `n` the loop appended. -/
theorem clientReadBlockChangeMulti_lengths (T : WireTypes) (cx cz rest : List Nat) (c1 c0 : Nat)
    (hx : cx.length = 4) (hz : cz.length = 4) (hc : 0 ≤ int16 [c1, c0]) :
    ∃ (locs : List SubChunkXYZ) (types metadata : List Nat),
      (clientReadBlockChangeMulti T (cx ++ cz ++ [c1, c0] ++ rest)).calls
          = [Call.ClientRecvBlockChangeMulti (int32 cx) (int32 cz)
              (List.replicate (int16 [c1, c0]).toNat ⟨0, 0, 0⟩ ++ locs) types metadata]
        ∧ locs.length = (int16 [c1, c0]).toNat
        ∧ (List.replicate (int16 [c1, c0]).toNat (⟨0, 0, 0⟩ : SubChunkXYZ) ++ locs).length
            = 2 * (int16 [c1, c0]).toNat
        ∧ types.length = (int16 [c1, c0]).toNat
        ∧ metadata.length = (int16 [c1, c0]).toNat := by
  have hb : binaryRead (sizeChunkCoord + sizeChunkCoord + 2) (cx ++ cz ++ [c1, c0] ++ rest)
      = (Except.ok (cx ++ cz ++ [c1, c0]), rest) :=
    binaryRead_append_of _ (cx ++ cz ++ [c1, c0]) rest
      (by simp [hx, hz, sizeChunkCoord])
  have h1 : slice 0 4 (cx ++ cz ++ [c1, c0]) = cx := by
    have h := slice_mid_of [] cx (cz ++ [c1, c0]) 0 4 rfl hx
    simpa using h
  have h2 : slice 4 4 (cx ++ cz ++ [c1, c0]) = cz :=
    slice_mid_of cx cz [c1, c0] 4 4 hx hz
  have h3 : slice 8 2 (cx ++ cz ++ [c1, c0]) = [c1, c0] := by
    have h := slice_mid_of (cx ++ cz) [c1, c0] [] 8 2 (by simp [hx, hz]) rfl
    simpa using h
  unfold clientReadBlockChangeMulti
  rw [hb]
  simp only [h1, h2, h3]
  rw [if_neg (not_lt.mpr hc)]
  refine ⟨_, _, _, rfl, ?_, ?_, ?_, ?_⟩
  · simp [binaryReadSlice_length]
  · simp [binaryReadSlice_length]
    omega
  · simp [binaryReadSlice_length]
  · simp [binaryReadSlice_length]

/-- Witness of C10's theorem: chunk `(1, 2)`, count 1, one raw position, one block type,
one metadata byte: the handler receives two block coordinates, one type, one metadata. -/
theorem clientReadBlockChangeMulti_lengths_witness :
    clientReadBlockChangeMulti beta
        ([0, 0, 0, 1] ++ [0, 0, 0, 2] ++ [0, 1] ++ [0x12, 0x34, 1, 3, 9])
        = ⟨[9], [Call.ClientRecvBlockChangeMulti 1 2 [⟨0, 0, 0⟩, ⟨0, 0, 0⟩] [1] [3]],
            Outcome.ok⟩
      ∧ ∃ (locs : List SubChunkXYZ) (types metadata : List Nat),
        (clientReadBlockChangeMulti beta
            ([0, 0, 0, 1] ++ [0, 0, 0, 2] ++ [0, 1] ++ [0x12, 0x34, 1, 3, 9])).calls
            = [Call.ClientRecvBlockChangeMulti (int32 [0, 0, 0, 1]) (int32 [0, 0, 0, 2])
                (List.replicate (int16 [0, 1]).toNat ⟨0, 0, 0⟩ ++ locs) types metadata]
          ∧ locs.length = (int16 [0, 1]).toNat
          ∧ (List.replicate (int16 [0, 1]).toNat (⟨0, 0, 0⟩ : SubChunkXYZ) ++ locs).length
              = 2 * (int16 [0, 1]).toNat
          ∧ types.length = (int16 [0, 1]).toNat
          ∧ metadata.length = (int16 [0, 1]).toNat :=
  ⟨by decide, clientReadBlockChangeMulti_lengths beta [0, 0, 0, 1] [0, 0, 0, 2]
    [0x12, 0x34, 1, 3, 9] 0 1 rfl rfl (by decide)⟩


/-! ## The coordinates of a multi-block change -/

/-- C11, what the code does. On a multi-block-change body with a count `n >= 0`, whatever
raw positions follow the header, the block coordinates that `clientReadBlockChangeMulti`
appends are computed from the indices `0 .. n-1` of the raw position slice (the single
variable of `for ... range` is the index), as `X = i >> 12`, `Y = i & 0xff`,
`Z = (i >> 8) & 0xff`, each converted to a `SubChunkCoord`; the raw position values read
from the packet are not used. -/
theorem clientReadBlockChangeMulti_coords (T : WireTypes) (cx cz rest : List Nat) (c1 c0 : Nat)
    (hx : cx.length = 4) (hz : cz.length = 4) (hc : 0 ≤ int16 [c1, c0]) :
    ∃ types metadata : List Nat,
      (clientReadBlockChangeMulti T (cx ++ cz ++ [c1, c0] ++ rest)).calls
        = [Call.ClientRecvBlockChangeMulti (int32 cx) (int32 cz)
            (List.replicate (int16 [c1, c0]).toNat ⟨0, 0, 0⟩
              ++ (List.range (int16 [c1, c0]).toNat).map (fun i =>
                  (⟨T.subChunkCoord ((i >>> 12 : Nat) : Int),
                    T.subChunkCoord ((i &&& 0xff : Nat) : Int),
                    T.subChunkCoord (((i >>> 8) &&& 0xff : Nat) : Int)⟩ : SubChunkXYZ)))
            types metadata] := by
  have hb : binaryRead (sizeChunkCoord + sizeChunkCoord + 2) (cx ++ cz ++ [c1, c0] ++ rest)
      = (Except.ok (cx ++ cz ++ [c1, c0]), rest) :=
    binaryRead_append_of _ (cx ++ cz ++ [c1, c0]) rest
      (by simp [hx, hz, sizeChunkCoord])
  have h1 : slice 0 4 (cx ++ cz ++ [c1, c0]) = cx := by
    have h := slice_mid_of [] cx (cz ++ [c1, c0]) 0 4 rfl hx
    simpa using h
  have h2 : slice 4 4 (cx ++ cz ++ [c1, c0]) = cz :=
    slice_mid_of cx cz [c1, c0] 4 4 hx hz
  have h3 : slice 8 2 (cx ++ cz ++ [c1, c0]) = [c1, c0] := by
    have h := slice_mid_of (cx ++ cz) [c1, c0] [] 8 2 (by simp [hx, hz]) rfl
    simpa using h
  unfold clientReadBlockChangeMulti
  rw [hb]
  simp only [h1, h2, h3]
  rw [if_neg (not_lt.mpr hc)]
  simp only [binaryReadSlice_length]
  exact ⟨_, _, rfl⟩

/-- Witness of C11's theorem: chunk `(1, 2)`, count 1 and the raw position `0x1234`, for
which the format gives `x = 1, z = 2, y = 0x34`: the coordinate appended is `(0, 0, 0)`,
computed from the index 0. -/
theorem clientReadBlockChangeMulti_coords_witness :
    clientReadBlockChangeMulti beta
        ([0, 0, 0, 1] ++ [0, 0, 0, 2] ++ [0, 1] ++ [0x12, 0x34, 1, 3])
        = ⟨[], [Call.ClientRecvBlockChangeMulti 1 2 [⟨0, 0, 0⟩, ⟨0, 0, 0⟩] [1] [3]],
            Outcome.ok⟩
      ∧ ((0x1234 >>> 12) &&& 0xF = 1 ∧ (0x1234 >>> 8) &&& 0xF = 2 ∧ 0x1234 &&& 0xFF = 0x34)
      ∧ ∃ types metadata : List Nat,
        (clientReadBlockChangeMulti beta
            ([0, 0, 0, 1] ++ [0, 0, 0, 2] ++ [0, 1] ++ [0x12, 0x34, 1, 3])).calls
          = [Call.ClientRecvBlockChangeMulti (int32 [0, 0, 0, 1]) (int32 [0, 0, 0, 2])
              (List.replicate (int16 [0, 1]).toNat ⟨0, 0, 0⟩
                ++ (List.range (int16 [0, 1]).toNat).map (fun i =>
                    (⟨beta.subChunkCoord ((i >>> 12 : Nat) : Int),
                      beta.subChunkCoord ((i &&& 0xff : Nat) : Int),
                      beta.subChunkCoord (((i >>> 8) &&& 0xff : Nat) : Int)⟩ : SubChunkXYZ)))
              types metadata] :=
  ⟨by decide, by decide, clientReadBlockChangeMulti_coords beta [0, 0, 0, 1] [0, 0, 0, 2]
    [0x12, 0x34, 1, 3] 0 1 rfl rfl (by decide)⟩


/-! ## The unknown extra data -/

theorem readUnknownExtraLoop_stop (rest : List Nat) (field3 : ExtraValue)
    (data : List UnknownEntityExtra) :
    readUnknownExtraLoop (127 :: rest) field3 data = ⟨data, none, rest⟩ := by
  unfold readUnknownExtraLoop
  split
  · rename_i heq
    rw [binaryRead_cons] at heq
    simp at heq
  · rename_i b r1 heq
    rw [binaryRead_cons] at heq
    simp only [Prod.mk.injEq, Except.ok.injEq] at heq
    obtain ⟨hb, hr⟩ := heq
    subst hb
    subst hr
    simp [beNat_singleton]

theorem readUnknownExtraLoop_step (t : Nat) (r1 : List Nat) (field3 v : ExtraValue)
    (data : List UnknownEntityExtra) (r2 : List Nat) (ht : t ≠ 127)
    (hp : readExtraPayload ((t &&& 0xe0) >>> 5) r1 field3 = (v, none, r2)) :
    readUnknownExtraLoop (t :: r1) field3 data
      = readUnknownExtraLoop r2 v (data ++ [⟨0, 0, v⟩]) := by
  rw [readUnknownExtraLoop]
  split
  · rename_i heq
    rw [binaryRead_cons] at heq
    simp at heq
  · rename_i b r1b heq
    rw [binaryRead_cons] at heq
    simp only [Prod.mk.injEq, Except.ok.injEq] at heq
    obtain ⟨hb, hr⟩ := heq
    subst hb
    subst hr
    simp only [beNat_singleton]
    rw [if_neg ht, hp]

theorem readString_prefixed (s t : List Nat) (h : s.length ≤ 32767) :
    readString ([s.length / 256, s.length % 256] ++ s ++ t) = ⟨s, none, t⟩ := by
  have hb : binaryRead 2 ([s.length / 256, s.length % 256] ++ (s ++ t))
      = (Except.ok [s.length / 256, s.length % 256], s ++ t) :=
    binaryRead_append [s.length / 256, s.length % 256] (s ++ t)
  have hl : toUnsigned 16 (int16 [s.length / 256, s.length % 256]) = s.length := by
    rw [int16_pair _ _ (by omega) (by omega)]
    omega
  rw [List.append_assoc]
  unfold readString
  rw [hb]
  simp only [hl]
  rw [readFull_append]

theorem readExtraPayload_record (rec : ExtraRecord) (rest : List Nat) (field3 : ExtraValue)
    (hs : ∀ t s, rec = ExtraRecord.stringRec t s → s.length ≤ 32767) :
    readExtraPayload rec.kind (rec.payload ++ rest) field3 = (rec.value, none, rest) := by
  cases rec with
  | byteRec t v =>
    have hb : binaryRead 1 ([v] ++ rest) = (Except.ok [v], rest) := binaryRead_append [v] rest
    simp only [ExtraRecord.kind, ExtraRecord.payload, ExtraRecord.value, readExtraPayload, hb,
      beNat_singleton]
  | int16Rec t b1 b0 =>
    have hb : binaryRead 2 ([b1, b0] ++ rest) = (Except.ok [b1, b0], rest) :=
      binaryRead_append [b1, b0] rest
    simp only [ExtraRecord.kind, ExtraRecord.payload, ExtraRecord.value, readExtraPayload, hb]
  | int32Rec t b3 b2 b1 b0 =>
    have hb : binaryRead 4 ([b3, b2, b1, b0] ++ rest) = (Except.ok [b3, b2, b1, b0], rest) :=
      binaryRead_append [b3, b2, b1, b0] rest
    simp only [ExtraRecord.kind, ExtraRecord.payload, ExtraRecord.value, readExtraPayload, hb]
  | floatRec t b3 b2 b1 b0 =>
    have hb : binaryRead 4 ([b3, b2, b1, b0] ++ rest) = (Except.ok [b3, b2, b1, b0], rest) :=
      binaryRead_append [b3, b2, b1, b0] rest
    simp only [ExtraRecord.kind, ExtraRecord.payload, ExtraRecord.value, readExtraPayload, hb]
  | stringRec t s =>
    have hr := readString_prefixed s rest (hs t s rfl)
    simp only [ExtraRecord.kind, ExtraRecord.payload, ExtraRecord.value, readExtraPayload, hr]
  | positionRec t x1 x0 y z1 z0 =>
    have hb : binaryRead 5 ([x1, x0, y, z1, z0] ++ rest)
        = (Except.ok [x1, x0, y, z1, z0], rest) :=
      binaryRead_append [x1, x0, y, z1, z0] rest
    have h1 : slice 0 2 [x1, x0, y, z1, z0] = [x1, x0] := rfl
    have h2 : slice 2 1 [x1, x0, y, z1, z0] = [y] := rfl
    have h3 : slice 3 2 [x1, x0, y, z1, z0] = [z1, z0] := rfl
    simp only [ExtraRecord.kind, ExtraRecord.payload, ExtraRecord.value, readExtraPayload, hb,
      h1, h2, h3, beNat_singleton]

theorem readUnknownExtraLoop_records (recs : List ExtraRecord) :
    ∀ (rest : List Nat) (field3 : ExtraValue) (data : List UnknownEntityExtra),
      (∀ rec ∈ recs, rec.wellFormed) →
      readUnknownExtraLoop (extraRecordsBytes recs ++ 127 :: rest) field3 data
        = ⟨data ++ recs.map (fun rec => ⟨0, 0, rec.value⟩), none, rest⟩ := by
  induction recs with
  | nil =>
    intro rest field3 data _
    simp only [extraRecordsBytes, List.nil_append, List.map_nil, List.append_nil]
    exact readUnknownExtraLoop_stop rest field3 data
  | cons rec recs ih =>
    intro rest field3 data hwf
    have hrec := hwf rec (List.mem_cons_self _ _)
    obtain ⟨hne, hkind, hstr⟩ := hrec
    have hp := readExtraPayload_record rec (extraRecordsBytes recs ++ 127 :: rest) field3 hstr
    rw [← hkind] at hp
    have hbytes : extraRecordsBytes (rec :: recs) ++ 127 :: rest
        = rec.entryType :: (rec.payload ++ (extraRecordsBytes recs ++ 127 :: rest)) := by
      simp [extraRecordsBytes]
    rw [hbytes, readUnknownExtraLoop_step _ _ _ _ _ _ hne hp,
      ih rest rec.value _ (fun r hr => hwf r (List.mem_cons_of_mem _ hr))]
    simp

/-- C12. On an input made of well-formed records of the format (an entry type byte other
than 127 whose top three bits select a payload of 1 byte, an `i16`, an `i32`, an `f32`, an
`i16`-length-prefixed string or a packed `(i16, byte, i16)`), then the byte 127, then any
further bytes, `readUnknownExtra` returns no error, returns one record per entry in the
same order, each holding the value of its payload, and leaves exactly the bytes after the
127 unread. -/
theorem readUnknownExtra_records (recs : List ExtraRecord) (rest : List Nat)
    (hwf : ∀ rec ∈ recs, rec.wellFormed) :
    (readUnknownExtra (extraRecordsBytes recs ++ 127 :: rest)).err = none
      ∧ (readUnknownExtra (extraRecordsBytes recs ++ 127 :: rest)).rest = rest
      ∧ (readUnknownExtra (extraRecordsBytes recs ++ 127 :: rest)).data.length = recs.length
      ∧ (readUnknownExtra (extraRecordsBytes recs ++ 127 :: rest)).data.map
          UnknownEntityExtra.Field3 = recs.map ExtraRecord.value := by
  unfold readUnknownExtra
  rw [readUnknownExtraLoop_records recs rest ExtraValue.nil [] hwf]
  refine ⟨rfl, rfl, ?_, ?_⟩
  · simp
  · simp [Function.comp_def]


/-- Witness of C12: a byte, an `i16`, an `i32`, an `f32`, the string `A` and a packed
position, then 127 and one more byte. -/
theorem readUnknownExtra_records_witness :
    extraRecordsBytes [ExtraRecord.byteRec 0x00 7, ExtraRecord.int16Rec 0x20 1 2,
        ExtraRecord.int32Rec 0x41 0 0 1 0, ExtraRecord.floatRec 0x60 63 128 0 0,
        ExtraRecord.stringRec 0x80 [65], ExtraRecord.positionRec 0xa1 0 1 2 0 3]
      = [0x00, 7, 0x20, 1, 2, 0x41, 0, 0, 1, 0, 0x60, 63, 128, 0, 0, 0x80, 0, 1, 65,
          0xa1, 0, 1, 2, 0, 3]
    ∧ (readUnknownExtra (extraRecordsBytes [ExtraRecord.byteRec 0x00 7,
        ExtraRecord.int16Rec 0x20 1 2, ExtraRecord.int32Rec 0x41 0 0 1 0,
        ExtraRecord.floatRec 0x60 63 128 0 0, ExtraRecord.stringRec 0x80 [65],
        ExtraRecord.positionRec 0xa1 0 1 2 0 3] ++ 127 :: [9])).err = none
    ∧ (readUnknownExtra (extraRecordsBytes [ExtraRecord.byteRec 0x00 7,
        ExtraRecord.int16Rec 0x20 1 2, ExtraRecord.int32Rec 0x41 0 0 1 0,
        ExtraRecord.floatRec 0x60 63 128 0 0, ExtraRecord.stringRec 0x80 [65],
        ExtraRecord.positionRec 0xa1 0 1 2 0 3] ++ 127 :: [9])).rest = [9]
    ∧ (readUnknownExtra (extraRecordsBytes [ExtraRecord.byteRec 0x00 7,
        ExtraRecord.int16Rec 0x20 1 2, ExtraRecord.int32Rec 0x41 0 0 1 0,
        ExtraRecord.floatRec 0x60 63 128 0 0, ExtraRecord.stringRec 0x80 [65],
        ExtraRecord.positionRec 0xa1 0 1 2 0 3] ++ 127 :: [9])).data.length = 6
    ∧ (readUnknownExtra (extraRecordsBytes [ExtraRecord.byteRec 0x00 7,
        ExtraRecord.int16Rec 0x20 1 2, ExtraRecord.int32Rec 0x41 0 0 1 0,
        ExtraRecord.floatRec 0x60 63 128 0 0, ExtraRecord.stringRec 0x80 [65],
        ExtraRecord.positionRec 0xa1 0 1 2 0 3] ++ 127 :: [9])).data.map
          UnknownEntityExtra.Field3
        = [ExtraValue.byteVal 7, ExtraValue.int16Val 258, ExtraValue.int32Val 256,
            ExtraValue.floatVal 1065353216, ExtraValue.stringVal [65],
            ExtraValue.position 1 2 3] :=
  ⟨by decide,
    readUnknownExtra_records [ExtraRecord.byteRec 0x00 7, ExtraRecord.int16Rec 0x20 1 2,
        ExtraRecord.int32Rec 0x41 0 0 1 0, ExtraRecord.floatRec 0x60 63 128 0 0,
        ExtraRecord.stringRec 0x80 [65], ExtraRecord.positionRec 0xa1 0 1 2 0 3] [9]
      (by
        intro rec h
        simp only [List.mem_cons, List.mem_singleton, List.not_mem_nil, or_false] at h
        rcases h with rfl | rfl | rfl | rfl | rfl | rfl <;>
          (simp [ExtraRecord.wellFormed, ExtraRecord.entryType, ExtraRecord.kind] <;> decide))⟩

theorem readUnknownExtraLoop_fields (n : Nat) :
    ∀ (r : List Nat), r.length ≤ n → ∀ (field3 : ExtraValue) (data : List UnknownEntityExtra),
      (∀ x ∈ data, x.Field1 = 0 ∧ x.Field2 = 0) →
      ∀ x ∈ (readUnknownExtraLoop r field3 data).data, x.Field1 = 0 ∧ x.Field2 = 0 := by
  induction n with
  | zero =>
    intro r hr field3 data hd x hx
    have hr0 : r = [] := List.length_eq_zero.mp (Nat.le_zero.mp hr)
    subst hr0
    unfold readUnknownExtraLoop at hx
    split at hx
    · exact hd x hx
    · rename_i heq
      have := (binaryRead_ok _ _ _ _ heq).1
      simp at this
  | succ n ih =>
    intro r hr field3 data hd x hx
    unfold readUnknownExtraLoop at hx
    split at hx
    · exact hd x hx
    · rename_i b r1 heq
      have hlt := binaryRead_one_ok_lt r r1 b heq
      have hd2 : ∀ y ∈ data ++ [(⟨0, 0,
          (readExtraPayload ((beNat b &&& 0xe0) >>> 5) r1 field3).1⟩ : UnknownEntityExtra)],
          y.Field1 = 0 ∧ y.Field2 = 0 := by
        intro y hy
        rcases List.mem_append.mp hy with h | h
        · exact hd y h
        · rw [List.mem_singleton] at h
          subst h
          exact ⟨rfl, rfl⟩
      split at hx
      · exact hd x hx
      · split at hx
        · exact hd2 x hx
        · have hle := readExtraPayload_rest_length_le ((beNat b &&& 0xe0) >>> 5) r1 field3
          exact ih _ (by omega) _ _ hd2 x hx

/-- C13, what the code does. Every record that `readUnknownExtra` returns, on any input,
has `Field1 = 0` and `Field2 = 0`: the `field1` that holds `(entryType & 0xe0) >> 5` is
declared by the `switch` statement and is local to it, and the record is built from the
function's own `field1` and `field2`, which are never assigned. -/
theorem readUnknownExtra_fields (r : List Nat) (x : UnknownEntityExtra)
    (hx : x ∈ (readUnknownExtra r).data) : x.Field1 = 0 ∧ x.Field2 = 0 :=
  readUnknownExtraLoop_fields r.length r (Nat.le_refl _) ExtraValue.nil []
    (fun y hy => absurd hy (List.not_mem_nil y)) x hx

/-- Witness of C13's theorem: the entry type `0x20`, whose extracted tag is 1, with the
payload `01 02`, then 127: the one record returned has `Field1 = 0`. -/
theorem readUnknownExtra_fields_witness :
    (0x20 &&& 0xe0) >>> 5 = 1
      ∧ readUnknownExtra [0x20, 1, 2, 127, 9]
          = ⟨[⟨0, 0, ExtraValue.int16Val 258⟩], none, [9]⟩
      ∧ (⟨0, 0, ExtraValue.int16Val 258⟩ : UnknownEntityExtra).Field1 = 0
      ∧ (⟨0, 0, ExtraValue.int16Val 258⟩ : UnknownEntityExtra).Field2 = 0 := by
  have hrun : readUnknownExtra [0x20, 1, 2, 127, 9]
      = ⟨[⟨0, 0, ExtraValue.int16Val 258⟩], none, [9]⟩ := by
    have h := readUnknownExtraLoop_records [ExtraRecord.int16Rec 0x20 1 2] [9] ExtraValue.nil []
      (by
        intro rec h
        rw [List.mem_singleton] at h
        subst h
        simp [ExtraRecord.wellFormed, ExtraRecord.entryType, ExtraRecord.kind] <;> decide)
    exact h
  have hmem : (⟨0, 0, ExtraValue.int16Val 258⟩ : UnknownEntityExtra)
      ∈ (readUnknownExtra [0x20, 1, 2, 127, 9]).data := by
    rw [hrun]
    exact List.mem_singleton.mpr rfl
  exact ⟨by decide, hrun, readUnknownExtra_fields [0x20, 1, 2, 127, 9] _ hmem⟩


/-! ## Round trips -/

theorem int32_putInt32 (x : Int) (h : -2147483648 ≤ x ∧ x < 2147483648) :
    int32 (putInt32 x) = x := by
  unfold putInt32
  rw [beBytes_four]
  unfold int32 toSigned beNat toUnsigned
  simp only [List.foldl]
  norm_num
  split <;> omega

theorem int8_putInt8 (x : Int) (h : -128 ≤ x ∧ x < 128) : int8 (putInt8 x) = x := by
  unfold putInt8 int8 toSigned beNat toUnsigned
  simp only [beBytes, List.nil_append, List.foldl]
  norm_num
  split <;> omega

theorem putInt32_length (x : Int) : (putInt32 x).length = 4 := by
  unfold putInt32
  rw [beBytes_four]
  rfl

theorem putInt8_length (x : Int) : (putInt8 x).length = 1 := by
  simp [putInt8, beBytes]

theorem putByte_eq (b : Nat) (h : b < 256) : putByte b = [b] := by
  simp [putByte, beBytes, Nat.mod_eq_of_lt h]

theorem WriteString_nil : WriteString [] = [0, 0] := by
  decide

theorem readString_empty (t : List Nat) : readString ([0, 0] ++ t) = ⟨[], none, t⟩ :=
  readString_prefixed [] t (by decide)

/-- C14. Login round trip: for every entity id `e` (an `int32`), `ServerWriteLogin` writes
`0x01`, then the four big-endian bytes of `e`, then the rest of the packet; and
`ClientReadPacket` on those bytes, whatever bytes follow them, returns no error, consumes
exactly the packet, and calls `ClientRecvLogin` once, with `e`, two empty strings and an
all-zero map seed and dimension. -/
theorem ClientReadPacket_ServerWriteLogin (T : WireTypes) (e : Int) (rest : List Nat)
    (he : -2147483648 ≤ e ∧ e < 2147483648) :
    ClientReadPacket T (ServerWriteLogin T e ++ rest)
        = ⟨rest, [Call.ClientRecvLogin e [] [] (List.replicate T.randomSeed 0)
            (List.replicate T.dimensionID 0)], Outcome.ok⟩
      ∧ ∃ e3 e2 e1 e0 : Nat, ∃ tail : List Nat,
          ServerWriteLogin T e = 0x01 :: e3 :: e2 :: e1 :: e0 :: tail
          ∧ e3 < 256 ∧ e2 < 256 ∧ e1 < 256 ∧ e0 < 256
          ∧ ((e3 * 16777216 + e2 * 65536 + e1 * 256 + e0 : Nat) : Int)
              = (if 0 ≤ e then e else e + 4294967296) := by
  have hw : ServerWriteLogin T e ++ rest
      = 0x01 :: (putInt32 e ++ ([0, 0] ++ ([0, 0] ++
          ((List.replicate T.randomSeed 0 ++ List.replicate T.dimensionID 0) ++ rest)))) := by
    unfold ServerWriteLogin
    rw [WriteString_nil, putByte_eq packetIDLogin (by decide)]
    simp [packetIDLogin]
  constructor
  · rw [hw, ClientReadPacket_sc T 0x01 _ (clientReadLogin T) rfl rfl]
    have hb : binaryRead sizeEntityID (putInt32 e ++ ([0, 0] ++ ([0, 0] ++
        ((List.replicate T.randomSeed 0 ++ List.replicate T.dimensionID 0) ++ rest))))
        = (Except.ok (putInt32 e), [0, 0] ++ ([0, 0] ++
          ((List.replicate T.randomSeed 0 ++ List.replicate T.dimensionID 0) ++ rest))) :=
      binaryRead_append_of _ _ _ (putInt32_length e)
    have hend : binaryRead (T.randomSeed + T.dimensionID)
        ((List.replicate T.randomSeed 0 ++ List.replicate T.dimensionID 0) ++ rest)
        = (Except.ok (List.replicate T.randomSeed 0 ++ List.replicate T.dimensionID 0), rest) :=
      binaryRead_append_of _ _ _ (by simp)
    have hs1 : slice 0 T.randomSeed
        (List.replicate T.randomSeed 0 ++ List.replicate T.dimensionID 0)
        = List.replicate T.randomSeed 0 := by
      have h := slice_mid_of [] (List.replicate T.randomSeed 0)
        (List.replicate T.dimensionID 0) 0 T.randomSeed rfl (by simp)
      simpa using h
    have hs2 : slice T.randomSeed T.dimensionID
        (List.replicate T.randomSeed 0 ++ List.replicate T.dimensionID 0)
        = List.replicate T.dimensionID 0 := by
      have h := slice_mid_of (List.replicate T.randomSeed 0)
        (List.replicate T.dimensionID 0) [] T.randomSeed T.dimensionID (by simp) (by simp)
      simpa using h
    unfold clientReadLogin
    rw [hb]
    simp only [readString_empty, hend, hs1, hs2, int32_putInt32 e he]
  · have hux : ((toUnsigned 32 e : Nat) : Int) = (if 0 ≤ e then e else e + 4294967296)
        ∧ toUnsigned 32 e < 4294967296 := by
      unfold toUnsigned
      norm_num
      split <;> omega
    refine ⟨toUnsigned 32 e / 16777216 % 256, toUnsigned 32 e / 65536 % 256,
      toUnsigned 32 e / 256 % 256, toUnsigned 32 e % 256,
      [0, 0] ++ ([0, 0] ++ (List.replicate T.randomSeed 0 ++ List.replicate T.dimensionID 0)),
      ?_, by omega, by omega, by omega, by omega, ?_⟩
    · unfold ServerWriteLogin
      rw [WriteString_nil, putByte_eq packetIDLogin (by decide)]
      unfold putInt32
      rw [beBytes_four]
      simp [packetIDLogin]
    · rw [← hux.1]
      omega

/-- Witness of C14: the login reply of the handshake scenario, entity id 1, followed by
one more byte. -/
theorem ClientReadPacket_ServerWriteLogin_witness :
    ServerWriteLogin beta 1 = [0x01, 0, 0, 0, 1, 0, 0, 0, 0, 0, 0, 0, 0, 0, 0, 0, 0, 0]
      ∧ (ClientReadPacket beta (ServerWriteLogin beta 1 ++ [9])
          = ⟨[9], [Call.ClientRecvLogin 1 [] [] (List.replicate beta.randomSeed 0)
              (List.replicate beta.dimensionID 0)], Outcome.ok⟩
        ∧ ∃ e3 e2 e1 e0 : Nat, ∃ tail : List Nat,
            ServerWriteLogin beta 1 = 0x01 :: e3 :: e2 :: e1 :: e0 :: tail
            ∧ e3 < 256 ∧ e2 < 256 ∧ e1 < 256 ∧ e0 < 256
            ∧ ((e3 * 16777216 + e2 * 65536 + e1 * 256 + e0 : Nat) : Int)
                = (if (0 : Int) ≤ 1 then 1 else 1 + 4294967296)) :=
  ⟨by decide, ClientReadPacket_ServerWriteLogin beta 1 [9] (by decide)⟩

theorem ServerReadPacket_common (T : WireTypes) (b : Nat) (rest : List Nat)
    (fn : List Nat → Result) (h : commonReadFns T b = some fn) :
    ServerReadPacket T (b :: rest) = fn rest := by
  unfold ServerReadPacket
  rw [binaryRead_cons]
  simp only [beNat_singleton, h]

theorem ClientReadPacket_common (T : WireTypes) (b : Nat) (rest : List Nat)
    (fn : List Nat → Result) (h : commonReadFns T b = some fn) :
    ClientReadPacket T (b :: rest) = fn rest := by
  unfold ClientReadPacket
  rw [binaryRead_cons]
  simp only [beNat_singleton, h]

theorem WriteString_prefixed (s : List Nat) (h : s.length ≤ 32767) :
    WriteString s = [s.length / 256, s.length % 256] ++ s := by
  unfold WriteString
  rw [putInt16_toSigned]
  have h1 : s.length / 256 % 256 = s.length / 256 := by omega
  rw [h1]

/-- C15. Chat round trip in both directions: for every message `m` of at most 32767 bytes
and any bytes `rest` after the packet, `ServerReadPacket` and `ClientReadPacket` on the
bytes of `WriteChatMessage m` followed by `rest` each return no error, call
`RecvChatMessage m` once and nothing else, and leave exactly `rest` unread. -/
theorem ReadPacket_WriteChatMessage (T : WireTypes) (m rest : List Nat)
    (hm : m.length ≤ 32767) :
    ServerReadPacket T (WriteChatMessage m ++ rest)
        = ⟨rest, [Call.RecvChatMessage m], Outcome.ok⟩
      ∧ ClientReadPacket T (WriteChatMessage m ++ rest)
        = ⟨rest, [Call.RecvChatMessage m], Outcome.ok⟩ := by
  have hw : WriteChatMessage m ++ rest
      = 0x03 :: ([m.length / 256, m.length % 256] ++ m ++ rest) := by
    unfold WriteChatMessage
    rw [WriteString_prefixed m hm, putByte_eq 0x03 (by decide)]
    simp
  have hr : readChatMessage ([m.length / 256, m.length % 256] ++ m ++ rest)
      = ⟨rest, [Call.RecvChatMessage m], Outcome.ok⟩ := by
    unfold readChatMessage
    simp only [readString_prefixed m rest hm]
  rw [hw]
  constructor
  · rw [ServerReadPacket_common T 0x03 _ readChatMessage rfl, hr]
  · rw [ClientReadPacket_common T 0x03 _ readChatMessage rfl, hr]

/-- Witness of C15: the message `hi` followed by one more byte. -/
theorem ReadPacket_WriteChatMessage_witness :
    WriteChatMessage [104, 105] = [0x03, 0, 2, 104, 105]
      ∧ (ServerReadPacket beta (WriteChatMessage [104, 105] ++ [9])
          = ⟨[9], [Call.RecvChatMessage [104, 105]], Outcome.ok⟩
        ∧ ClientReadPacket beta (WriteChatMessage [104, 105] ++ [9])
          = ⟨[9], [Call.RecvChatMessage [104, 105]], Outcome.ok⟩) :=
  ⟨by decide, ReadPacket_WriteChatMessage beta [104, 105] [9] (by decide)⟩


theorem beBytes_length (k : Nat) : ∀ n : Nat, (beBytes k n).length = k := by
  induction k with
  | zero => intro n; rfl
  | succ k ih =>
    intro n
    simp [beBytes, ih]

theorem beNat_append_singleton (l : List Nat) (b : Nat) :
    beNat (l ++ [b]) = beNat l * 256 + b := by
  simp [beNat, List.foldl_append]

theorem beNat_beBytes_small (k : Nat) (n : Nat) (hk : 1 ≤ k) (hn : n < 256) :
    beNat (beBytes k n) = n := by
  obtain ⟨j, rfl⟩ : ∃ j, k = j + 1 := ⟨k - 1, by omega⟩
  have hz : ∀ i : Nat, beNat (beBytes i 0) = 0 := by
    intro i
    induction i with
    | zero => rfl
    | succ i ih =>
      simp only [beBytes, Nat.zero_div, Nat.zero_mod]
      rw [beNat_append_singleton, ih]
  simp only [beBytes]
  rw [beNat_append_singleton, Nat.div_eq_of_lt hn, hz, Nat.mod_eq_of_lt hn]
  omega

theorem toSigned_of_lt (n : Nat) (h : n < 2147483648) : toSigned 32 n = (n : Int) := by
  unfold toSigned
  norm_num
  split <;> omega

/-- C16. Map-chunk framing, with the zlib stream taken as a function `Z` and the corner
block of the chunk as a function of the chunk location: when the corner is a block
location (`x`, `z` in the `int32` range, `y` in the `int8` range) and the compressed
payload is shorter than `2^31` bytes (a slice length is an `int`), `WriteMapChunk` writes
`0x33`, nine bytes of corner position, the three size fields 15, 127 and 15, four bytes
whose `int32` value is the length of `Z(blocks || blockData || blockLight || skyLight)`,
then exactly those compressed bytes; and `ClientReadPacket` on that output, whatever
follows it, calls `ClientRecvMapChunk` once with the corner position, those size fields
and that compressed payload, returns no error and leaves only what followed unread. -/
theorem ClientReadPacket_WriteMapChunk (T : WireTypes) (Z : List Nat → List Nat)
    (getChunkCornerBlockXY : Int → Int → Int × Int × Int) (chunkX chunkZ : Int)
    (blocks blockData blockLight skyLight rest : List Nat)
    (hw : 1 ≤ T.subChunkSizeCoord)
    (hx : -2147483648 ≤ (getChunkCornerBlockXY chunkX chunkZ).1
      ∧ (getChunkCornerBlockXY chunkX chunkZ).1 < 2147483648)
    (hy : -128 ≤ (getChunkCornerBlockXY chunkX chunkZ).2.1
      ∧ (getChunkCornerBlockXY chunkX chunkZ).2.1 < 128)
    (hz : -2147483648 ≤ (getChunkCornerBlockXY chunkX chunkZ).2.2
      ∧ (getChunkCornerBlockXY chunkX chunkZ).2.2 < 2147483648)
    (hlen : (Z (blocks ++ blockData ++ blockLight ++ skyLight)).length < 2147483648) :
    ClientReadPacket T
        (WriteMapChunk T Z getChunkCornerBlockXY chunkX chunkZ blocks blockData blockLight
          skyLight ++ rest)
        = ⟨rest, [Call.ClientRecvMapChunk (getChunkCornerBlockXY chunkX chunkZ).1
            (getChunkCornerBlockXY chunkX chunkZ).2.1 (getChunkCornerBlockXY chunkX chunkZ).2.2
            (beBytes T.subChunkSizeCoord 15) (beBytes T.subChunkSizeCoord 127)
            (beBytes T.subChunkSizeCoord 15)
            (Z (blocks ++ blockData ++ blockLight ++ skyLight))], Outcome.ok⟩
      ∧ beNat (beBytes T.subChunkSizeCoord 15) = 15
      ∧ beNat (beBytes T.subChunkSizeCoord 127) = 127
      ∧ ∃ pos lb : List Nat,
          WriteMapChunk T Z getChunkCornerBlockXY chunkX chunkZ blocks blockData blockLight
              skyLight
            = 0x33 :: (pos ++ beBytes T.subChunkSizeCoord 15 ++ beBytes T.subChunkSizeCoord 127
                ++ beBytes T.subChunkSizeCoord 15 ++ lb
                ++ Z (blocks ++ blockData ++ blockLight ++ skyLight))
          ∧ pos.length = 9 ∧ lb.length = 4
          ∧ int32 lb = ((Z (blocks ++ blockData ++ blockLight ++ skyLight)).length : Int) := by
  generalize hbs : Z (blocks ++ blockData ++ blockLight ++ skyLight) = bs at hlen ⊢
  generalize hcorner : getChunkCornerBlockXY chunkX chunkZ = corner at hx hy hz ⊢
  obtain ⟨x, y, z⟩ := corner
  simp only at hx hy hz
  have hl4 : (putInt32 (toSigned 32 bs.length)).length = 4 := putInt32_length _
  have hlb : int32 (putInt32 (toSigned 32 bs.length)) = (bs.length : Int) := by
    rw [toSigned_of_lt _ hlen]
    exact int32_putInt32 _ (by omega)
  have hwr : WriteMapChunk T Z getChunkCornerBlockXY chunkX chunkZ blocks blockData blockLight
      skyLight
      = 0x33 :: ((putInt32 x ++ putInt8 y ++ putInt32 z) ++ beBytes T.subChunkSizeCoord 15
          ++ beBytes T.subChunkSizeCoord 127 ++ beBytes T.subChunkSizeCoord 15
          ++ putInt32 (toSigned 32 bs.length) ++ bs) := by
    unfold WriteMapChunk
    simp only [hbs, hcorner, ChunkSizeX, ChunkSizeY, ChunkSizeZ]
    rw [putByte_eq 0x33 (by decide)]
    simp
  refine ⟨?_, beNat_beBytes_small _ 15 hw (by decide), beNat_beBytes_small _ 127 hw (by decide),
    putInt32 x ++ putInt8 y ++ putInt32 z, putInt32 (toSigned 32 bs.length), hwr,
    by simp [putInt32_length, putInt8_length], hl4, hlb⟩
  have hsz : ∀ n, (beBytes T.subChunkSizeCoord n).length = T.subChunkSizeCoord :=
    beBytes_length T.subChunkSizeCoord
  have hpx := putInt32_length x
  have hpy := putInt8_length y
  have hpz := putInt32_length z
  have hb : binaryRead (sizeBlockCoord + sizeBlockYCoord + sizeBlockCoord
      + 3 * T.subChunkSizeCoord + 4)
      (((putInt32 x ++ putInt8 y ++ putInt32 z) ++ beBytes T.subChunkSizeCoord 15
          ++ beBytes T.subChunkSizeCoord 127 ++ beBytes T.subChunkSizeCoord 15
          ++ putInt32 (toSigned 32 bs.length)) ++ (bs ++ rest))
      = (Except.ok ((putInt32 x ++ putInt8 y ++ putInt32 z) ++ beBytes T.subChunkSizeCoord 15
          ++ beBytes T.subChunkSizeCoord 127 ++ beBytes T.subChunkSizeCoord 15
          ++ putInt32 (toSigned 32 bs.length)), bs ++ rest) := by
    apply binaryRead_append_of
    simp [hsz, hpx, hpy, hpz, hl4, sizeBlockCoord, sizeBlockYCoord]
    omega
  have s1 : slice 0 4 ((putInt32 x ++ putInt8 y ++ putInt32 z)
      ++ beBytes T.subChunkSizeCoord 15 ++ beBytes T.subChunkSizeCoord 127
      ++ beBytes T.subChunkSizeCoord 15 ++ putInt32 (toSigned 32 bs.length)) = putInt32 x := by
    have h := slice_mid_of [] (putInt32 x) (putInt8 y ++ putInt32 z
      ++ beBytes T.subChunkSizeCoord 15 ++ beBytes T.subChunkSizeCoord 127
      ++ beBytes T.subChunkSizeCoord 15 ++ putInt32 (toSigned 32 bs.length)) 0 4 rfl hpx
    simpa using h
  have s2 : slice 4 1 ((putInt32 x ++ putInt8 y ++ putInt32 z)
      ++ beBytes T.subChunkSizeCoord 15 ++ beBytes T.subChunkSizeCoord 127
      ++ beBytes T.subChunkSizeCoord 15 ++ putInt32 (toSigned 32 bs.length)) = putInt8 y := by
    have h := slice_mid_of (putInt32 x) (putInt8 y) (putInt32 z
      ++ beBytes T.subChunkSizeCoord 15 ++ beBytes T.subChunkSizeCoord 127
      ++ beBytes T.subChunkSizeCoord 15 ++ putInt32 (toSigned 32 bs.length)) 4 1 hpx hpy
    simpa using h
  have s3 : slice 5 4 ((putInt32 x ++ putInt8 y ++ putInt32 z)
      ++ beBytes T.subChunkSizeCoord 15 ++ beBytes T.subChunkSizeCoord 127
      ++ beBytes T.subChunkSizeCoord 15 ++ putInt32 (toSigned 32 bs.length)) = putInt32 z := by
    have h := slice_mid_of (putInt32 x ++ putInt8 y) (putInt32 z)
      (beBytes T.subChunkSizeCoord 15 ++ beBytes T.subChunkSizeCoord 127
      ++ beBytes T.subChunkSizeCoord 15 ++ putInt32 (toSigned 32 bs.length)) 5 4
      (by simp [hpx, hpy]) hpz
    simpa using h
  have s4 : slice 9 T.subChunkSizeCoord ((putInt32 x ++ putInt8 y ++ putInt32 z)
      ++ beBytes T.subChunkSizeCoord 15 ++ beBytes T.subChunkSizeCoord 127
      ++ beBytes T.subChunkSizeCoord 15 ++ putInt32 (toSigned 32 bs.length))
      = beBytes T.subChunkSizeCoord 15 := by
    have h := slice_mid_of (putInt32 x ++ putInt8 y ++ putInt32 z)
      (beBytes T.subChunkSizeCoord 15) (beBytes T.subChunkSizeCoord 127
      ++ beBytes T.subChunkSizeCoord 15 ++ putInt32 (toSigned 32 bs.length)) 9
      T.subChunkSizeCoord (by simp [hpx, hpy, hpz]) (hsz 15)
    simpa using h
  have s5 : slice (9 + T.subChunkSizeCoord) T.subChunkSizeCoord
      ((putInt32 x ++ putInt8 y ++ putInt32 z)
      ++ beBytes T.subChunkSizeCoord 15 ++ beBytes T.subChunkSizeCoord 127
      ++ beBytes T.subChunkSizeCoord 15 ++ putInt32 (toSigned 32 bs.length))
      = beBytes T.subChunkSizeCoord 127 := by
    have h := slice_mid_of (putInt32 x ++ putInt8 y ++ putInt32 z
      ++ beBytes T.subChunkSizeCoord 15)
      (beBytes T.subChunkSizeCoord 127)
      (beBytes T.subChunkSizeCoord 15 ++ putInt32 (toSigned 32 bs.length))
      (9 + T.subChunkSizeCoord) T.subChunkSizeCoord (by simp [hpx, hpy, hpz, hsz]; omega)
      (hsz 127)
    simpa using h
  have s6 : slice (9 + 2 * T.subChunkSizeCoord) T.subChunkSizeCoord
      ((putInt32 x ++ putInt8 y ++ putInt32 z)
      ++ beBytes T.subChunkSizeCoord 15 ++ beBytes T.subChunkSizeCoord 127
      ++ beBytes T.subChunkSizeCoord 15 ++ putInt32 (toSigned 32 bs.length))
      = beBytes T.subChunkSizeCoord 15 := by
    have h := slice_mid_of (putInt32 x ++ putInt8 y ++ putInt32 z
      ++ beBytes T.subChunkSizeCoord 15 ++ beBytes T.subChunkSizeCoord 127)
      (beBytes T.subChunkSizeCoord 15) (putInt32 (toSigned 32 bs.length))
      (9 + 2 * T.subChunkSizeCoord) T.subChunkSizeCoord
      (by simp [hpx, hpy, hpz, hsz]; omega) (hsz 15)
    simpa using h
  have s7 : slice (9 + 3 * T.subChunkSizeCoord) 4
      ((putInt32 x ++ putInt8 y ++ putInt32 z)
      ++ beBytes T.subChunkSizeCoord 15 ++ beBytes T.subChunkSizeCoord 127
      ++ beBytes T.subChunkSizeCoord 15 ++ putInt32 (toSigned 32 bs.length))
      = putInt32 (toSigned 32 bs.length) := by
    have h := slice_mid_of (putInt32 x ++ putInt8 y ++ putInt32 z
      ++ beBytes T.subChunkSizeCoord 15 ++ beBytes T.subChunkSizeCoord 127
      ++ beBytes T.subChunkSizeCoord 15) (putInt32 (toSigned 32 bs.length)) []
      (9 + 3 * T.subChunkSizeCoord) 4
      (by simp [hpx, hpy, hpz, hsz]; omega) hl4
    simpa using h
  have hrf : readFull bs.length (bs ++ rest) = ⟨bs, none, rest⟩ := readFull_append bs rest
  have hcons : (0x33 :: ((putInt32 x ++ putInt8 y ++ putInt32 z)
      ++ beBytes T.subChunkSizeCoord 15 ++ beBytes T.subChunkSizeCoord 127
      ++ beBytes T.subChunkSizeCoord 15 ++ putInt32 (toSigned 32 bs.length) ++ bs)) ++ rest
      = 0x33 :: (((putInt32 x ++ putInt8 y ++ putInt32 z)
      ++ beBytes T.subChunkSizeCoord 15 ++ beBytes T.subChunkSizeCoord 127
      ++ beBytes T.subChunkSizeCoord 15 ++ putInt32 (toSigned 32 bs.length))
      ++ (bs ++ rest)) := by
    simp
  rw [hwr, hcons, ClientReadPacket_sc T 0x33 _ (clientReadMapChunk T) rfl rfl]
  unfold clientReadMapChunk
  rw [hb]
  simp only [s1, s2, s3, s4, s5, s6, s7, hlb, int32_putInt32 x hx, int8_putInt8 y hy,
    int32_putInt32 z hz]
  rw [if_neg (by omega)]
  simp only [Int.toNat_ofNat, hrf]


/-- Witness of C16: chunk `(1, 1)` with corner block `(16, 0, 16)`, a stand-in for zlib
that puts the byte `0x78` in front of its input, four one-byte arrays, and one byte after
the packet. -/
theorem ClientReadPacket_WriteMapChunk_witness :
    WriteMapChunk beta (fun bs => 0x78 :: bs) (fun cx cz => (cx * 16, 0, cz * 16)) 1 1
        [1] [2] [3] [4]
      = [0x33, 0, 0, 0, 16, 0, 0, 0, 0, 16, 15, 127, 15, 0, 0, 0, 5, 0x78, 1, 2, 3, 4]
    ∧ ClientReadPacket beta
        (WriteMapChunk beta (fun bs => 0x78 :: bs) (fun cx cz => (cx * 16, 0, cz * 16)) 1 1
          [1] [2] [3] [4] ++ [9])
      = ⟨[9], [Call.ClientRecvMapChunk 16 0 16 [15] [127] [15] [0x78, 1, 2, 3, 4]],
          Outcome.ok⟩ :=
  ⟨by decide,
    (ClientReadPacket_WriteMapChunk beta (fun bs => 0x78 :: bs)
      (fun cx cz => (cx * 16, 0, cz * 16)) 1 1 [1] [2] [3] [4] [9]
      (by decide) (by decide) (by decide) (by decide) (by decide)).1⟩

/-! ## The length prefix of a string -/

theorem readString_WriteString_mod (s t : List Nat) :
    readString (WriteString s ++ t)
      = ⟨s.take (s.length % 65536), none, s.drop (s.length % 65536) ++ t⟩ := by
  have hw : WriteString s = [s.length / 256 % 256, s.length % 256] ++ s := by
    unfold WriteString
    rw [putInt16_toSigned]
  have hb : binaryRead 2 ([s.length / 256 % 256, s.length % 256] ++ (s ++ t))
      = (Except.ok [s.length / 256 % 256, s.length % 256], s ++ t) :=
    binaryRead_append [s.length / 256 % 256, s.length % 256] (s ++ t)
  have hl : toUnsigned 16 (int16 [s.length / 256 % 256, s.length % 256])
      = s.length % 65536 := by
    rw [int16_pair _ _ (by omega) (by omega)]
    omega
  have hk : s.length % 65536 ≤ s.length := Nat.mod_le _ _
  rw [hw, List.append_assoc]
  unfold readString
  rw [hb]
  simp only [hl]
  rw [readFull_of_le _ _ (by rw [List.length_append]; omega)]
  rw [List.take_append_of_le_length hk, List.drop_append_of_le_length hk]

/-- C31. `WriteString` writes the two big-endian bytes of `len(s) mod 65536` and then all
the bytes of `s`. For every length up to 65535 `readString` on this output, whatever
follows it, returns `s` with no error and leaves what follows unread; a length from 32768 to
65535 is written as a negative `int16` and converted back to itself by `uint16`. For a
length of 65536 or more `readString` returns the first `len(s) mod 65536` bytes of `s` with
no error, and the other bytes of `s` stay in the stream before what follows. -/
theorem WriteString_truncates_length (s t : List Nat) :
    WriteString s = beBytes 2 (s.length % 65536) ++ s
      ∧ (s.length ≤ 65535 → readString (WriteString s ++ t) = ⟨s, none, t⟩)
      ∧ (32768 ≤ s.length → s.length ≤ 65535 →
          toSigned 16 s.length < 0 ∧ toUnsigned 16 (toSigned 16 s.length) = s.length)
      ∧ (65536 ≤ s.length →
          readString (WriteString s ++ t)
            = ⟨s.take (s.length % 65536), none, s.drop (s.length % 65536) ++ t⟩) := by
  refine ⟨?_, ?_, ?_, fun _ => readString_WriteString_mod s t⟩
  · unfold WriteString
    rw [putInt16_toSigned]
    simp only [beBytes, List.nil_append, List.cons_append, List.cons.injEq, and_true]
    omega
  · intro h
    rw [readString_WriteString_mod, Nat.mod_eq_of_lt (by omega)]
    simp
  · intro h1 h2
    unfold toUnsigned toSigned
    norm_num
    split <;> omega

/-- Witness of C31: the string `hi`, and a string of 65536 bytes, whose length prefix is
`00 00`: `readString` returns the empty string and leaves all its bytes in the stream. -/
theorem WriteString_truncates_length_witness :
    WriteString [104, 105] = [0, 2, 104, 105]
      ∧ readString (WriteString [104, 105] ++ [9]) = ⟨[104, 105], none, [9]⟩
      ∧ readString (WriteString (List.replicate 65536 7) ++ [9])
          = ⟨[], none, List.replicate 65536 7 ++ [9]⟩ := by
  refine ⟨by decide, (WriteString_truncates_length [104, 105] [9]).2.1 (by decide), ?_⟩
  have h := (WriteString_truncates_length (List.replicate 65536 7) [9]).2.2.2
    (by rw [List.length_replicate])
  rw [List.length_replicate, Nat.mod_self, List.take_zero, List.drop_zero] at h
  exact h

/-! ## A negative length -/

theorem ofErr_ne_panic (e : Option Error) : Outcome.ofErr e ≠ Outcome.panic := by
  cases e <;> simp [Outcome.ofErr]

/-- C32, as the code has it. Each of the three readers panics exactly when its header is
read in full and the length in it is negative: `clientReadWindowItems` and
`clientReadBlockChangeMulti` on a negative `int16` count, `clientReadMapChunk` on a negative
`int32` compressed length, each in `make`. No handler call and no error is made then. On
the window-items body `03 ff ff`, on the multi-block-change body with the count `ff ff` and
on the map-chunk body with the length `ff ff ff ff` the reader panics. -/
theorem length_prefixed_readers_panic (T : WireTypes) (r : List Nat) :
    ((clientReadWindowItems T r).outcome = Outcome.panic
        ↔ T.windowID + 2 ≤ r.length
          ∧ int16 (slice T.windowID 2 (r.take (T.windowID + 2))) < 0)
      ∧ ((clientReadBlockChangeMulti T r).outcome = Outcome.panic
        ↔ 10 ≤ r.length ∧ int16 (slice 8 2 (r.take 10)) < 0)
      ∧ ((clientReadMapChunk T r).outcome = Outcome.panic
        ↔ 9 + 3 * T.subChunkSizeCoord + 4 ≤ r.length
          ∧ int32 (slice (9 + 3 * T.subChunkSizeCoord) 4
              (r.take (9 + 3 * T.subChunkSizeCoord + 4))) < 0)
      ∧ ((clientReadWindowItems T r).outcome = Outcome.panic →
          (clientReadWindowItems T r).calls = [])
      ∧ ((clientReadBlockChangeMulti T r).outcome = Outcome.panic →
          (clientReadBlockChangeMulti T r).calls = [])
      ∧ ((clientReadMapChunk T r).outcome = Outcome.panic →
          (clientReadMapChunk T r).calls = [])
      ∧ clientReadWindowItems beta [3, 0xff, 0xff] = ⟨[], [], Outcome.panic⟩
      ∧ clientReadBlockChangeMulti beta [0, 0, 0, 1, 0, 0, 0, 2, 0xff, 0xff]
          = ⟨[], [], Outcome.panic⟩
      ∧ clientReadMapChunk beta [0, 0, 0, 0, 0, 0, 0, 0, 0, 15, 127, 15, 0xff, 0xff, 0xff, 0xff]
          = ⟨[], [], Outcome.panic⟩ := by
  refine ⟨?_, ?_, ?_, ?_, ?_, ?_, by decide, by decide, by decide⟩
  · unfold clientReadWindowItems
    split
    · rename_i e r1 heq
      have h := (binaryRead_error _ _ _ _ heq).1
      constructor
      · intro h1
        cases h1
      · intro h1
        omega
    · rename_i p r1 heq
      obtain ⟨h1, h2, _⟩ := binaryRead_ok _ _ _ _ heq
      subst h2
      dsimp only
      split
      · rename_i hneg
        exact ⟨fun _ => ⟨h1, hneg⟩, fun _ => rfl⟩
      · rename_i hneg
        constructor
        · intro h3
          split at h3 <;> cases h3
        · intro h3
          exact absurd h3.2 hneg
  · unfold clientReadBlockChangeMulti
    split
    · rename_i e r1 heq
      have h := (binaryRead_error _ _ _ _ heq).1
      simp only [sizeChunkCoord] at h
      constructor
      · intro h1
        cases h1
      · intro h1
        omega
    · rename_i p r1 heq
      obtain ⟨h1, h2, _⟩ := binaryRead_ok _ _ _ _ heq
      simp only [sizeChunkCoord] at h1 h2
      subst h2
      dsimp only
      split
      · rename_i hneg
        exact ⟨fun _ => ⟨h1, hneg⟩, fun _ => rfl⟩
      · rename_i hneg
        constructor
        · intro h3
          exact absurd h3 (ofErr_ne_panic _)
        · intro h3
          exact absurd h3.2 hneg
  · unfold clientReadMapChunk
    split
    · rename_i e r1 heq
      have h := (binaryRead_error _ _ _ _ heq).1
      simp only [sizeBlockCoord, sizeBlockYCoord] at h
      constructor
      · intro h1
        cases h1
      · intro h1
        omega
    · rename_i p r1 heq
      obtain ⟨h1, h2, _⟩ := binaryRead_ok _ _ _ _ heq
      simp only [sizeBlockCoord, sizeBlockYCoord] at h1 h2
      have h3 : 4 + 1 + 4 + 3 * T.subChunkSizeCoord + 4 = 9 + 3 * T.subChunkSizeCoord + 4 := by
        omega
      rw [h3] at h1 h2
      subst h2
      dsimp only
      split
      · rename_i hneg
        exact ⟨fun _ => ⟨h1, hneg⟩, fun _ => rfl⟩
      · rename_i hneg
        constructor
        · intro h4
          split at h4 <;> cases h4
        · intro h4
          exact absurd h4.2 hneg
  · intro h
    unfold clientReadWindowItems at h ⊢
    split at h
    · cases h
    · dsimp only at h ⊢
      split at h
      · rename_i hneg
        rw [if_pos hneg]
      · split at h <;> cases h
  · intro h
    unfold clientReadBlockChangeMulti at h ⊢
    split at h
    · cases h
    · dsimp only at h ⊢
      split at h
      · rename_i hneg
        rw [if_pos hneg]
      · exact absurd h (ofErr_ne_panic _)
  · intro h
    unfold clientReadMapChunk at h ⊢
    split at h
    · cases h
    · dsimp only at h ⊢
      split at h
      · rename_i hneg
        rw [if_pos hneg]
      · split at h <;> cases h

/-! ## A multi-block change cut short -/

theorem binaryReadSlice_short (w n : Nat) (r : List Nat) (h : r.length < w * n) :
    ∃ e, binaryReadSlice w n r = (List.replicate n (List.replicate w 0), some e, []) := by
  unfold binaryReadSlice
  rw [binaryRead_of_lt _ _ h]
  exact ⟨_, rfl⟩

theorem binaryReadSlice_rest_length (w n : Nat) (r : List Nat) :
    (binaryReadSlice w n r).2.2.length ≤ r.length - w * n := by
  unfold binaryReadSlice
  by_cases h : w * n ≤ r.length
  · rw [binaryRead_of_le _ _ h]
    simp
  · rw [binaryRead_of_lt _ _ (Nat.not_le.mp h)]
    simp

/-- C33, as the code has it. On a multi-block-change body with a count `n >= 1` that is
followed by fewer than `4 * n` bytes, so that the input ends inside the raw positions, the
block types or the metadata, `clientReadBlockChangeMulti` returns an error with the input
used up, and it has called `ClientRecvBlockChangeMulti` all the same: the errors of the
three reads are assigned to `err` one over the other and `err` is looked at only by the
caller. -/
theorem clientReadBlockChangeMulti_cut_short (T : WireTypes) (cx cz rest : List Nat)
    (c1 c0 : Nat) (hx : cx.length = 4) (hz : cz.length = 4) (hc : 0 < int16 [c1, c0])
    (hshort : rest.length < 4 * (int16 [c1, c0]).toNat) :
    ∃ (e : Error) (locs : List SubChunkXYZ) (types metadata : List Nat),
      clientReadBlockChangeMulti T (cx ++ cz ++ [c1, c0] ++ rest)
        = ⟨[], [Call.ClientRecvBlockChangeMulti (int32 cx) (int32 cz) locs types metadata],
            Outcome.error e⟩ := by
  have hb : binaryRead (sizeChunkCoord + sizeChunkCoord + 2) (cx ++ cz ++ [c1, c0] ++ rest)
      = (Except.ok (cx ++ cz ++ [c1, c0]), rest) :=
    binaryRead_append_of _ (cx ++ cz ++ [c1, c0]) rest
      (by simp [hx, hz, sizeChunkCoord])
  have h1 : slice 0 4 (cx ++ cz ++ [c1, c0]) = cx := by
    have h := slice_mid_of [] cx (cz ++ [c1, c0]) 0 4 rfl hx
    simpa using h
  have h2 : slice 4 4 (cx ++ cz ++ [c1, c0]) = cz :=
    slice_mid_of cx cz [c1, c0] 4 4 hx hz
  have h3 : slice 8 2 (cx ++ cz ++ [c1, c0]) = [c1, c0] := by
    have h := slice_mid_of (cx ++ cz) [c1, c0] [] 8 2 (by simp [hx, hz]) rfl
    simpa using h
  have hn : 0 < (int16 [c1, c0]).toNat := by omega
  have hr1 := binaryReadSlice_rest_length 2 (int16 [c1, c0]).toNat rest
  have hr2 := binaryReadSlice_rest_length sizeBlockID (int16 [c1, c0]).toNat
    (binaryReadSlice 2 (int16 [c1, c0]).toNat rest).2.2
  simp only [sizeBlockID] at hr2
  obtain ⟨e, he⟩ := binaryReadSlice_short 1 (int16 [c1, c0]).toNat
    (binaryReadSlice sizeBlockID (int16 [c1, c0]).toNat
      (binaryReadSlice 2 (int16 [c1, c0]).toNat rest).2.2).2.2
    (by simp only [sizeBlockID]; omega)
  unfold clientReadBlockChangeMulti
  rw [hb]
  simp only [h1, h2, h3]
  rw [if_neg (by omega)]
  simp only [he, Outcome.ofErr]
  exact ⟨e, _, _, _, rfl⟩

/-- Witness of C33: chunk `(1, 2)`, count 1, and the input ends after the header, or after
the raw position, or after the block type: each time the handler is called and the error is
returned. -/
theorem clientReadBlockChangeMulti_cut_short_witness :
    clientReadBlockChangeMulti beta ([0, 0, 0, 1] ++ [0, 0, 0, 2] ++ [0, 1] ++ [])
        = ⟨[], [Call.ClientRecvBlockChangeMulti 1 2 [⟨0, 0, 0⟩, ⟨0, 0, 0⟩] [0] [0]],
            Outcome.error Error.eof⟩
      ∧ clientReadBlockChangeMulti beta ([0, 0, 0, 1] ++ [0, 0, 0, 2] ++ [0, 1] ++ [0x12, 0x34])
        = ⟨[], [Call.ClientRecvBlockChangeMulti 1 2 [⟨0, 0, 0⟩, ⟨0, 0, 0⟩] [0] [0]],
            Outcome.error Error.eof⟩
      ∧ clientReadBlockChangeMulti beta
          ([0, 0, 0, 1] ++ [0, 0, 0, 2] ++ [0, 1] ++ [0x12, 0x34, 7])
        = ⟨[], [Call.ClientRecvBlockChangeMulti 1 2 [⟨0, 0, 0⟩, ⟨0, 0, 0⟩] [7] [0]],
            Outcome.error Error.eof⟩
      ∧ ∃ (e : Error) (locs : List SubChunkXYZ) (types metadata : List Nat),
        clientReadBlockChangeMulti beta ([0, 0, 0, 1] ++ [0, 0, 0, 2] ++ [0, 1] ++ [0x12, 0x34])
          = ⟨[], [Call.ClientRecvBlockChangeMulti (int32 [0, 0, 0, 1]) (int32 [0, 0, 0, 2])
              locs types metadata], Outcome.error e⟩ :=
  ⟨by decide, by decide, by decide,
    clientReadBlockChangeMulti_cut_short beta [0, 0, 0, 1] [0, 0, 0, 2] [0x12, 0x34] 0 1 rfl rfl
      (by decide) (by decide)⟩

/-! ## Entry types without a payload -/

theorem readExtraPayload_none (tag : Nat) (r : List Nat) (field3 : ExtraValue)
    (h : tag = 6 ∨ tag = 7) : readExtraPayload tag r field3 = (field3, none, r) := by
  rcases h with h | h <;> (subst h; rfl)

theorem readUnknownExtraLoop_records_then (recs : List ExtraRecord) :
    ∀ (tail : List Nat) (field3 : ExtraValue) (data : List UnknownEntityExtra),
      (∀ rec ∈ recs, rec.wellFormed) →
      readUnknownExtraLoop (extraRecordsBytes recs ++ tail) field3 data
        = readUnknownExtraLoop tail ((recs.getLast?.map ExtraRecord.value).getD field3)
            (data ++ recs.map (fun rec => ⟨0, 0, rec.value⟩)) := by
  induction recs with
  | nil =>
    intro tail field3 data _
    simp [extraRecordsBytes]
  | cons rec recs ih =>
    intro tail field3 data hwf
    obtain ⟨hne, hkind, hstr⟩ := hwf rec (List.mem_cons_self _ _)
    have hp := readExtraPayload_record rec (extraRecordsBytes recs ++ tail) field3 hstr
    rw [← hkind] at hp
    have hbytes : extraRecordsBytes (rec :: recs) ++ tail
        = rec.entryType :: (rec.payload ++ (extraRecordsBytes recs ++ tail)) := by
      simp [extraRecordsBytes]
    have hlast : ((rec :: recs).getLast?.map ExtraRecord.value).getD field3
        = (recs.getLast?.map ExtraRecord.value).getD rec.value := by
      cases recs with
      | nil => rfl
      | cons r2 rs =>
        rw [List.getLast?_cons_cons]
        cases hl : (r2 :: rs).getLast? with
        | none => simp at hl
        | some l => rfl
    rw [hbytes, readUnknownExtraLoop_step _ _ _ _ _ _ hne hp,
      ih tail rec.value _ (fun r hr => hwf r (List.mem_cons_of_mem _ hr)), hlast]
    simp

/-- C34. For an entry type byte `t` other than 127 whose top three bits are 6 or 7,
`readUnknownExtra` reads no payload: the loop appends a record whose `Field3` is the value
that `field3` holds at that moment and goes on with the byte after `t` as the next entry
type. After well-formed records that value is the value of the last of them, and nil when
`t` is the first entry type of the input. -/
theorem readUnknownExtra_no_payload (t : Nat) (recs : List ExtraRecord) (rest : List Nat)
    (ht : t ≠ 127) (htop : (t &&& 0xe0) >>> 5 = 6 ∨ (t &&& 0xe0) >>> 5 = 7)
    (hwf : ∀ rec ∈ recs, rec.wellFormed) :
    (∀ (field3 : ExtraValue) (data : List UnknownEntityExtra),
        readUnknownExtraLoop (t :: rest) field3 data
          = readUnknownExtraLoop rest field3 (data ++ [⟨0, 0, field3⟩]))
      ∧ readUnknownExtra (t :: rest)
          = readUnknownExtraLoop rest ExtraValue.nil [⟨0, 0, ExtraValue.nil⟩]
      ∧ readUnknownExtra (extraRecordsBytes recs ++ t :: rest)
          = readUnknownExtraLoop rest
              ((recs.getLast?.map ExtraRecord.value).getD ExtraValue.nil)
              (recs.map (fun rec => ⟨0, 0, rec.value⟩)
                ++ [⟨0, 0, (recs.getLast?.map ExtraRecord.value).getD ExtraValue.nil⟩]) := by
  have hstep : ∀ (field3 : ExtraValue) (data : List UnknownEntityExtra),
      readUnknownExtraLoop (t :: rest) field3 data
        = readUnknownExtraLoop rest field3 (data ++ [⟨0, 0, field3⟩]) :=
    fun field3 data =>
      readUnknownExtraLoop_step t rest field3 field3 data rest ht
        (readExtraPayload_none _ rest field3 htop)
  refine ⟨hstep, ?_, ?_⟩
  · unfold readUnknownExtra
    rw [hstep]
    rfl
  · unfold readUnknownExtra
    rw [readUnknownExtraLoop_records_then recs (t :: rest) ExtraValue.nil [] hwf, hstep]
    rfl

/-- Witness of C34: after the byte record `00 05` the entry type `0xc0`, whose top three
bits are 6, gives a second record with the value 5 and consumes nothing: the next byte,
127, ends the data. As the first entry type, `0xe0` gives a record with the nil value. -/
theorem readUnknownExtra_no_payload_witness :
    (0xc0 &&& 0xe0) >>> 5 = 6
      ∧ readUnknownExtra [0x00, 5, 0xc0, 127, 9]
          = ⟨[⟨0, 0, ExtraValue.byteVal 5⟩, ⟨0, 0, ExtraValue.byteVal 5⟩], none, [9]⟩
      ∧ readUnknownExtra [0xe0, 127, 9] = ⟨[⟨0, 0, ExtraValue.nil⟩], none, [9]⟩ := by
  have hwf : ∀ rec ∈ [ExtraRecord.byteRec 0x00 5], rec.wellFormed := by
    intro rec h
    rw [List.mem_singleton] at h
    subst h
    simp [ExtraRecord.wellFormed, ExtraRecord.entryType, ExtraRecord.kind]
  have h1 := (readUnknownExtra_no_payload 0xc0 [ExtraRecord.byteRec 0x00 5] [127, 9]
    (by decide) (Or.inl (by decide)) hwf).2.2
  have h2 := (readUnknownExtra_no_payload 0xe0 [] [127, 9]
    (by decide) (Or.inr (by decide)) (by simp)).2.1
  rw [readUnknownExtraLoop_stop] at h1 h2
  exact ⟨by decide, h1, h2⟩

/-! ## The end of the unknown extra data -/

theorem readFull_split (n : Nat) (r : List Nat) :
    ((readFull n r).err = none → r = (readFull n r).buf ++ (readFull n r).rest)
      ∧ ((readFull n r).err ≠ none → (readFull n r).rest = []) := by
  unfold readFull
  split
  · simp
  · split <;> simp

theorem readString_split (r : List Nat) :
    ((readString r).err = none → ∃ pre, r = pre ++ (readString r).rest)
      ∧ ((readString r).err ≠ none → (readString r).rest = []) := by
  unfold readString
  split
  · rename_i e r1 heq
    have h := (binaryRead_error _ _ _ _ heq).2.1
    simp [h]
  · rename_i lb r1 heq
    obtain ⟨_, h2, h3⟩ := binaryRead_ok _ _ _ _ heq
    have hs := readFull_split (toUnsigned 16 (int16 lb)) r1
    dsimp only
    refine ⟨?_, hs.2⟩
    intro h
    refine ⟨lb ++ (readFull (toUnsigned 16 (int16 lb)) r1).buf, ?_⟩
    rw [List.append_assoc, ← hs.1 h, h2, h3, List.take_append_drop]

theorem binaryRead_split (n : Nat) (r : List Nat) (e0 : ExtraValue)
    (f : List Nat → ExtraValue)
    (x : ExtraValue × Option Error × List Nat)
    (hx : x = match binaryRead n r with
      | (Except.error e, r1) => (e0, some e, r1)
      | (Except.ok b, r1) => (f b, none, r1)) :
    (x.2.1 = none → ∃ pre, r = pre ++ x.2.2) ∧ (x.2.1 ≠ none → x.2.2 = []) := by
  subst hx
  split
  · rename_i e r1 heq
    have h := (binaryRead_error _ _ _ _ heq).2.1
    simp [h]
  · rename_i b r1 heq
    obtain ⟨_, h2, h3⟩ := binaryRead_ok _ _ _ _ heq
    refine ⟨fun _ => ⟨b, ?_⟩, fun h => absurd rfl h⟩
    rw [h2, h3, List.take_append_drop]

theorem readExtraPayload_split (tag : Nat) (r : List Nat) (field3 : ExtraValue) :
    ((readExtraPayload tag r field3).2.1 = none →
        ∃ pre, r = pre ++ (readExtraPayload tag r field3).2.2)
      ∧ ((readExtraPayload tag r field3).2.1 ≠ none →
        (readExtraPayload tag r field3).2.2 = []) := by
  unfold readExtraPayload
  split
  · exact binaryRead_split 1 r _ _ _ rfl
  · exact binaryRead_split 2 r _ _ _ rfl
  · exact binaryRead_split 4 r _ _ _ rfl
  · exact binaryRead_split 4 r _ _ _ rfl
  · exact readString_split r
  · exact binaryRead_split 5 r _ _ _ rfl
  · exact ⟨fun _ => ⟨[], rfl⟩, fun h => absurd rfl h⟩

theorem readUnknownExtraLoop_ends (n : Nat) :
    ∀ (r : List Nat), r.length ≤ n → ∀ (field3 : ExtraValue) (data : List UnknownEntityExtra),
      ((readUnknownExtraLoop r field3 data).err = none →
          ∃ pre, r = pre ++ 127 :: (readUnknownExtraLoop r field3 data).rest)
        ∧ ((readUnknownExtraLoop r field3 data).err ≠ none →
          (readUnknownExtraLoop r field3 data).rest = [])
        ∧ (readUnknownExtraLoop r field3 data).data.length
            + (readUnknownExtraLoop r field3 data).rest.length ≤ data.length + r.length
        ∧ ((readUnknownExtraLoop r field3 data).err = none →
          (readUnknownExtraLoop r field3 data).data.length
            + (readUnknownExtraLoop r field3 data).rest.length + 1
              ≤ data.length + r.length) := by
  induction n with
  | zero =>
    intro r hr field3 data
    have hr0 : r = [] := List.length_eq_zero.mp (Nat.le_zero.mp hr)
    subst hr0
    unfold readUnknownExtraLoop
    split
    · rename_i e r1 heq
      have h := (binaryRead_error _ _ _ _ heq).2.1
      subst h
      simp
    · rename_i heq
      have := (binaryRead_ok _ _ _ _ heq).1
      simp at this
  | succ n ih =>
    intro r hr field3 data
    unfold readUnknownExtraLoop
    split
    · rename_i e r1 heq
      have h := (binaryRead_error _ _ _ _ heq).2.1
      subst h
      simp
    · rename_i b r1 heq
      have hlt := binaryRead_one_ok_lt r r1 b heq
      obtain ⟨_, hb, hr1⟩ := binaryRead_ok _ _ _ _ heq
      have hsplit : r = b ++ r1 := by rw [hb, hr1, List.take_append_drop]
      have hb1 : b = [beNat b] := by
        cases r with
        | nil => simp at hlt
        | cons x xs =>
          rw [hb]
          simp [beNat]
      split
      · rename_i h127
        refine ⟨fun _ => ⟨[], ?_⟩, fun h => absurd rfl h, ?_, fun _ => ?_⟩
        · rw [hsplit, hb1, h127]
          rfl
        · simp only
          omega
        · simp only
          omega
      · have hps := readExtraPayload_split ((beNat b &&& 0xe0) >>> 5) r1 field3
        have hle := readExtraPayload_rest_length_le ((beNat b &&& 0xe0) >>> 5) r1 field3
        split
        · rename_i e he
          have hrest := hps.2 (by rw [he]; simp)
          refine ⟨fun h => absurd h (by simp), fun _ => hrest, ?_, fun h => absurd h (by simp)⟩
          simp only [List.length_append, List.length_singleton]
          rw [hrest]
          simp only [List.length_nil]
          omega
        · rename_i he
          obtain ⟨pre, hpre⟩ := hps.1 he
          obtain ⟨i1, i2, i3, i4⟩ :=
            ih (readExtraPayload ((beNat b &&& 0xe0) >>> 5) r1 field3).2.2
            (by omega) (readExtraPayload ((beNat b &&& 0xe0) >>> 5) r1 field3).1
            (data ++ [⟨0, 0, (readExtraPayload ((beNat b &&& 0xe0) >>> 5) r1 field3).1⟩])
          refine ⟨?_, i2, ?_, ?_⟩
          · intro h
            obtain ⟨pre2, hpre2⟩ := i1 h
            refine ⟨b ++ pre ++ pre2, ?_⟩
            rw [List.append_assoc, List.append_assoc, ← hpre2, ← hpre, ← hsplit]
          · simp only [List.length_append, List.length_singleton] at i3
            omega
          · intro h
            have i5 := i4 h
            simp only [List.length_append, List.length_singleton] at i5
            omega

/-- C35. `readUnknownExtra` returns on every input. When it returns no error it has stopped
at an entry type 127: the input is the bytes read before that 127, the 127, and the bytes
left unread, and the records returned are not more than the bytes read before the 127.
When it returns an error the input is used up, and an input without any byte 127 gives an
error. Every pass of the loop has cost at least one byte: the number of records and of
unread bytes together is not more than the length of the input. -/
theorem readUnknownExtra_ends (r : List Nat) :
    ((readUnknownExtra r).err = none →
        ∃ pre, r = pre ++ 127 :: (readUnknownExtra r).rest
          ∧ (readUnknownExtra r).data.length ≤ pre.length)
      ∧ ((readUnknownExtra r).err ≠ none → (readUnknownExtra r).rest = [])
      ∧ (127 ∉ r → (readUnknownExtra r).err ≠ none)
      ∧ (readUnknownExtra r).data.length + (readUnknownExtra r).rest.length ≤ r.length := by
  obtain ⟨h1, h2, h3, h4⟩ :=
    readUnknownExtraLoop_ends r.length r (Nat.le_refl _) ExtraValue.nil []
  simp only [List.length_nil, Nat.zero_add] at h3 h4
  refine ⟨?_, h2, ?_, h3⟩
  · intro h
    obtain ⟨pre, hpre⟩ := h1 h
    refine ⟨pre, hpre, ?_⟩
    have hlen := congrArg List.length hpre
    simp only [List.length_append, List.length_cons] at hlen
    have h5 : (readUnknownExtraLoop r ExtraValue.nil []).data.length
        + (readUnknownExtraLoop r ExtraValue.nil []).rest.length + 1 ≤ r.length := h4 h
    have h6 : (readUnknownExtra r).data.length
        = (readUnknownExtraLoop r ExtraValue.nil []).data.length := rfl
    omega
  · intro hno h
    obtain ⟨pre, hpre⟩ := h1 h
    apply hno
    rw [hpre]
    simp

/-- Evaluation for C35: a record and the byte 127 with one byte after it; an input that
ends inside a payload; an input of two records without any 127; the empty input. -/
theorem readUnknownExtra_ends_witness :
    readUnknownExtra [0x20, 1, 2, 127, 9]
        = ⟨[⟨0, 0, ExtraValue.int16Val 258⟩], none, [9]⟩
      ∧ (readUnknownExtra [0x20, 1]).err ≠ none
      ∧ (readUnknownExtra [0x00, 5, 0x00, 6]).err ≠ none
      ∧ (readUnknownExtra []).err ≠ none := by
  have hwf : ∀ rec ∈ [ExtraRecord.int16Rec 0x20 1 2], rec.wellFormed := by
    intro rec h
    rw [List.mem_singleton] at h
    subst h
    simp [ExtraRecord.wellFormed, ExtraRecord.entryType, ExtraRecord.kind] <;> decide
  have h1 : readUnknownExtra [0x20, 1, 2, 127, 9]
      = ⟨[⟨0, 0, ExtraValue.int16Val 258⟩], none, [9]⟩ :=
    readUnknownExtraLoop_records [ExtraRecord.int16Rec 0x20 1 2] [9] ExtraValue.nil [] hwf
  exact ⟨h1, (readUnknownExtra_ends [0x20, 1]).2.2.1 (by decide),
    (readUnknownExtra_ends [0x00, 5, 0x00, 6]).2.2.1 (by decide),
    (readUnknownExtra_ends []).2.2.1 (by decide)⟩

/-! ## The two readers of packet `0x0d` -/

/-- C36. For every position `(x, y, z)`, stance, look `(yaw, pitch)` and ground flag, given
by their wire bytes, and whatever follows the packet: on the bytes that
`ServerWritePlayerPositionLook` writes, `ClientReadPacket` calls
`RecvPlayerPosition((x, y, z), stance)` and then `RecvPlayerLook(yaw, pitch)`, whereas
`ServerReadPacket` calls `RecvPlayerPosition((x, stance, z), y)`, with `y` and the stance
exchanged, and then `RecvPlayerLook(yaw, pitch)`; both return no error and leave what
follows unread. -/
theorem PlayerPositionLook_field_order (T : WireTypes) (x y z yaw pitch stance rest : List Nat)
    (onGround : Bool) (hx : x.length = T.absCoord) (hy : y.length = T.absCoord)
    (hz : z.length = T.absCoord) (hs : stance.length = T.absCoord)
    (hyaw : yaw.length = T.angleDegrees) (hpitch : pitch.length = T.angleDegrees) :
    ClientReadPacket T (ServerWritePlayerPositionLook x y z yaw pitch stance onGround ++ rest)
        = ⟨rest, [Call.RecvPlayerPosition x y z stance onGround,
            Call.RecvPlayerLook yaw pitch onGround], Outcome.ok⟩
      ∧ ServerReadPacket T
          (ServerWritePlayerPositionLook x y z yaw pitch stance onGround ++ rest)
        = ⟨rest, [Call.RecvPlayerPosition x stance z y onGround,
            Call.RecvPlayerLook yaw pitch onGround], Outcome.ok⟩ := by
  have hg : byteToBool (beNat [boolToByte onGround]) = onGround := by
    cases onGround <;> decide
  have hbyte : putByte (boolToByte onGround) = [boolToByte onGround] :=
    putByte_eq _ (by cases onGround <;> decide)
  have hbytes : ServerWritePlayerPositionLook x y z yaw pitch stance onGround ++ rest
      = 0x0d :: ((x ++ y ++ stance ++ z ++ yaw ++ pitch ++ [boolToByte onGround]) ++ rest) := by
    unfold ServerWritePlayerPositionLook
    rw [hbyte, putByte_eq 0x0d (by decide)]
    simp
  have hb : binaryRead (4 * T.absCoord + 2 * T.angleDegrees + 1)
      ((x ++ y ++ stance ++ z ++ yaw ++ pitch ++ [boolToByte onGround]) ++ rest)
      = (Except.ok (x ++ y ++ stance ++ z ++ yaw ++ pitch ++ [boolToByte onGround]), rest) :=
    binaryRead_append_of _ _ rest (by simp [hx, hy, hz, hs, hyaw, hpitch]; omega)
  have s1 : slice 0 T.absCoord (x ++ y ++ stance ++ z ++ yaw ++ pitch ++ [boolToByte onGround])
      = x := by
    have h := slice_mid_of [] x (y ++ stance ++ z ++ yaw ++ pitch ++ [boolToByte onGround])
      0 T.absCoord rfl hx
    simpa using h
  have s2 : slice T.absCoord T.absCoord
      (x ++ y ++ stance ++ z ++ yaw ++ pitch ++ [boolToByte onGround]) = y := by
    have h := slice_mid_of x y (stance ++ z ++ yaw ++ pitch ++ [boolToByte onGround])
      T.absCoord T.absCoord hx hy
    simpa using h
  have s3 : slice (2 * T.absCoord) T.absCoord
      (x ++ y ++ stance ++ z ++ yaw ++ pitch ++ [boolToByte onGround]) = stance := by
    have h := slice_mid_of (x ++ y) stance (z ++ yaw ++ pitch ++ [boolToByte onGround])
      (2 * T.absCoord) T.absCoord (by simp [hx, hy]; omega) hs
    simpa using h
  have s4 : slice (3 * T.absCoord) T.absCoord
      (x ++ y ++ stance ++ z ++ yaw ++ pitch ++ [boolToByte onGround]) = z := by
    have h := slice_mid_of (x ++ y ++ stance) z (yaw ++ pitch ++ [boolToByte onGround])
      (3 * T.absCoord) T.absCoord (by simp [hx, hy, hs]; omega) hz
    simpa using h
  have s5 : slice (4 * T.absCoord) T.angleDegrees
      (x ++ y ++ stance ++ z ++ yaw ++ pitch ++ [boolToByte onGround]) = yaw := by
    have h := slice_mid_of (x ++ y ++ stance ++ z) yaw (pitch ++ [boolToByte onGround])
      (4 * T.absCoord) T.angleDegrees (by simp [hx, hy, hs, hz]; omega) hyaw
    simpa using h
  have s6 : slice (4 * T.absCoord + T.angleDegrees) T.angleDegrees
      (x ++ y ++ stance ++ z ++ yaw ++ pitch ++ [boolToByte onGround]) = pitch := by
    have h := slice_mid_of (x ++ y ++ stance ++ z ++ yaw) pitch [boolToByte onGround]
      (4 * T.absCoord + T.angleDegrees) T.angleDegrees
      (by simp [hx, hy, hs, hz, hyaw]; omega) hpitch
    simpa using h
  have s7 : slice (4 * T.absCoord + 2 * T.angleDegrees) 1
      (x ++ y ++ stance ++ z ++ yaw ++ pitch ++ [boolToByte onGround])
      = [boolToByte onGround] := by
    have h := slice_mid_of (x ++ y ++ stance ++ z ++ yaw ++ pitch) [boolToByte onGround] []
      (4 * T.absCoord + 2 * T.angleDegrees) 1
      (by simp [hx, hy, hs, hz, hyaw, hpitch]; omega) rfl
    simpa using h
  refine ⟨?_, ?_⟩
  · rw [hbytes, ClientReadPacket_sc T 0x0d _ (clientReadPlayerPositionLook T) rfl rfl]
    unfold clientReadPlayerPositionLook
    rw [hb]
    simp only [s1, s2, s3, s4, s5, s6, s7, hg]
  · rw [hbytes]
    have hsrv : ∀ tail, ServerReadPacket T (0x0d :: tail) = serverReadPlayerPositionLook T tail := by
      intro tail
      unfold ServerReadPacket
      rw [binaryRead_cons]
      simp only [beNat_singleton]
      rfl
    rw [hsrv]
    unfold serverReadPlayerPositionLook
    rw [hb]
    simp only [s1, s2, s3, s4, s5, s6, s7, hg]

/-- Witness of C36: the position `(1.0, 2.0, 3.0)` with the stance 3.62 and the look
`(0, 0)` on the ground, as IEEE bytes. -/
theorem PlayerPositionLook_field_order_witness :
    ClientReadPacket beta
        (ServerWritePlayerPositionLook [63, 240, 0, 0, 0, 0, 0, 0] [64, 0, 0, 0, 0, 0, 0, 0]
          [64, 8, 0, 0, 0, 0, 0, 0] [0, 0, 0, 0] [0, 0, 0, 0]
          [64, 12, 245, 194, 143, 92, 40, 246] true ++ [9])
        = ⟨[9], [Call.RecvPlayerPosition [63, 240, 0, 0, 0, 0, 0, 0] [64, 0, 0, 0, 0, 0, 0, 0]
              [64, 8, 0, 0, 0, 0, 0, 0] [64, 12, 245, 194, 143, 92, 40, 246] true,
            Call.RecvPlayerLook [0, 0, 0, 0] [0, 0, 0, 0] true], Outcome.ok⟩
      ∧ ServerReadPacket beta
          (ServerWritePlayerPositionLook [63, 240, 0, 0, 0, 0, 0, 0] [64, 0, 0, 0, 0, 0, 0, 0]
            [64, 8, 0, 0, 0, 0, 0, 0] [0, 0, 0, 0] [0, 0, 0, 0]
            [64, 12, 245, 194, 143, 92, 40, 246] true ++ [9])
        = ⟨[9], [Call.RecvPlayerPosition [63, 240, 0, 0, 0, 0, 0, 0]
              [64, 12, 245, 194, 143, 92, 40, 246] [64, 8, 0, 0, 0, 0, 0, 0]
              [64, 0, 0, 0, 0, 0, 0, 0] true,
            Call.RecvPlayerLook [0, 0, 0, 0] [0, 0, 0, 0] true], Outcome.ok⟩ :=
  PlayerPositionLook_field_order beta _ _ _ _ _ _ [9] true rfl rfl rfl rfl rfl rfl

end Proto

namespace window

/-! ## What `inventoryView.Init` changes -/

theorem Init_views (σ : World) (w k inv : Nat) (a b : Int) :
    ((inventoryView.Init σ ⟨w, k⟩ w inv a b).windows w).views
      = (σ.windows w).views.set k ⟨some w, some inv, a, b⟩ := by
  simp [inventoryView.Init, SetSubscriber, setView]

theorem Init_window_fields (σ : World) (w k inv : Nat) (a b : Int) :
    ((inventoryView.Init σ ⟨w, k⟩ w inv a b).windows w).windowId = (σ.windows w).windowId
      ∧ ((inventoryView.Init σ ⟨w, k⟩ w inv a b).windows w).viewer = (σ.windows w).viewer
      ∧ ((inventoryView.Init σ ⟨w, k⟩ w inv a b).windows w).invTypeId
          = (σ.windows w).invTypeId
      ∧ ((inventoryView.Init σ ⟨w, k⟩ w inv a b).windows w).title = (σ.windows w).title := by
  simp [inventoryView.Init, SetSubscriber, setView]

theorem Init_numSlots (σ : World) (w k inv : Nat) (a b : Int) (j : Nat) :
    ((inventoryView.Init σ ⟨w, k⟩ w inv a b).inventories j).numSlots
      = (σ.inventories j).numSlots := by
  simp only [inventoryView.Init, SetSubscriber, setView]
  split <;> rfl

theorem Init_subscriber_self (σ : World) (w k inv : Nat) (a b : Int) :
    ((inventoryView.Init σ ⟨w, k⟩ w inv a b).inventories inv).subscriber = some ⟨w, k⟩ := by
  simp [inventoryView.Init, SetSubscriber, setView]

theorem Init_inventories_ne (σ : World) (w k inv : Nat) (a b : Int) (j : Nat) (h : j ≠ inv) :
    (inventoryView.Init σ ⟨w, k⟩ w inv a b).inventories j = σ.inventories j := by
  simp [inventoryView.Init, SetSubscriber, setView, h]

theorem Init_calls (σ : World) (w k inv : Nat) (a b : Int) :
    (inventoryView.Init σ ⟨w, k⟩ w inv a b).setSubscriberCalls
      = σ.setSubscriberCalls ++ [(inv, some ⟨w, k⟩)] := by
  simp [inventoryView.Init, SetSubscriber, setView]

theorem Init_transmitted (σ : World) (w k inv : Nat) (a b : Int) :
    (inventoryView.Init σ ⟨w, k⟩ w inv a b).transmitted = σ.transmitted
      ∧ (inventoryView.Init σ ⟨w, k⟩ w inv a b).panicked = σ.panicked := by
  simp [inventoryView.Init, SetSubscriber, setView]

/-! ## The loop of `Window.Init` -/

theorem slotSum_cons (ns : Nat → Int) (inv : Nat) (invs : List Nat) :
    slotSum ns (inv :: invs) = ns inv + slotSum ns invs := by
  simp [slotSum]

theorem slotSum_nonneg (ns : Nat → Int) (invs : List Nat) (h : ∀ inv ∈ invs, 0 ≤ ns inv) :
    0 ≤ slotSum ns invs := by
  induction invs with
  | nil => simp [slotSum]
  | cons inv invs ih =>
    rw [slotSum_cons]
    have h1 := h inv (List.mem_cons_self _ _)
    have h2 := ih (fun i hi => h i (List.mem_cons_of_mem _ hi))
    omega

theorem initLoop_ranges (E : Env) (w : Nat) (ns : Nat → Int) :
    ∀ (invs : List Nat) (k : Nat) (start : Int) (σ : World),
      (∀ j, (σ.inventories j).numSlots = ns j) →
      (∀ inv ∈ invs, 0 ≤ ns inv) →
      0 ≤ start →
      (∀ x : Int, 0 ≤ x → x ≤ start + slotSum ns invs → E.slotId x = x) →
      k + invs.length ≤ (σ.windows w).views.length →
      (initLoop E w invs k start σ).2 = start + slotSum ns invs
        ∧ ((initLoop E w invs k start σ).1.windows w).views.length
            = (σ.windows w).views.length
        ∧ (∀ i, i < k → ((initLoop E w invs k start σ).1.windows w).views[i]?
            = (σ.windows w).views[i]?)
        ∧ (∀ j inv, invs[j]? = some inv →
            ((initLoop E w invs k start σ).1.windows w).views[k + j]?
              = some ⟨some w, some inv, start + slotSum ns (invs.take j),
                  start + slotSum ns (invs.take j) + ns inv⟩)
        ∧ ((initLoop E w invs k start σ).1.windows w).windowId = (σ.windows w).windowId
        ∧ ((initLoop E w invs k start σ).1.windows w).viewer = (σ.windows w).viewer := by
  intro invs
  induction invs with
  | nil =>
    intro k start σ _ _ _ _ _
    refine ⟨by simp [initLoop, slotSum], rfl, fun i _ => rfl, ?_, rfl, rfl⟩
    intro j inv h
    simp at h
  | cons inv invs ih =>
    intro k start σ hns hnn h0 hr hlen
    have hinv : 0 ≤ ns inv := hnn inv (List.mem_cons_self _ _)
    have hrest : 0 ≤ slotSum ns invs :=
      slotSum_nonneg ns invs (fun i hi => hnn i (List.mem_cons_of_mem _ hi))
    have hend : E.slotId (start + (σ.inventories inv).numSlots) = start + ns inv := by
      rw [hns inv]
      apply hr
      · omega
      · rw [slotSum_cons]
        omega
    simp only [List.length_cons] at hlen
    have hviews := Init_views σ w k inv start (start + ns inv)
    have hfields := Init_window_fields σ w k inv start (start + ns inv)
    obtain ⟨i1, i2, i3, i4, i5, i6⟩ := ih (k + 1) (start + ns inv)
      (inventoryView.Init σ ⟨w, k⟩ w inv start (start + ns inv))
      (fun j => by rw [Init_numSlots]; exact hns j)
      (fun i hi => hnn i (List.mem_cons_of_mem _ hi))
      (by omega)
      (fun x hx0 hx => hr x hx0 (by rw [slotSum_cons]; omega))
      (by rw [hviews, List.length_set]; omega)
    simp only [initLoop, hend]
    refine ⟨?_, ?_, ?_, ?_, ?_, ?_⟩
    · rw [i1, slotSum_cons]
      omega
    · rw [i2, hviews, List.length_set]
    · intro i hi
      rw [i3 i (by omega), hviews, List.getElem?_set_ne (by omega)]
    · intro j inv2 hj
      cases j with
      | zero =>
        simp only [List.getElem?_cons_zero, Option.some.injEq] at hj
        subst hj
        have h := i3 k (by omega)
        rw [hviews, List.getElem?_set_self (by omega)] at h
        simpa [slotSum] using h
      | succ j =>
        simp only [List.getElem?_cons_succ] at hj
        have h := i4 j inv2 hj
        have hk : k + (j + 1) = k + 1 + j := by omega
        rw [hk, h, List.take_succ_cons, slotSum_cons]
        simp only [Option.some.injEq, inventoryView.mk.injEq, true_and]
        constructor <;> omega
    · rw [i5, hfields.1]
    · rw [i6, hfields.2.1]


theorem slotSum_take_succ (ns : Nat → Int) :
    ∀ (invs : List Nat) (i inv : Nat), invs[i]? = some inv →
      slotSum ns (invs.take (i + 1)) = slotSum ns (invs.take i) + ns inv := by
  intro invs
  induction invs with
  | nil =>
    intro i inv h
    simp at h
  | cons a invs ih =>
    intro i inv h
    cases i with
    | zero =>
      simp only [List.getElem?_cons_zero, Option.some.injEq] at h
      subst h
      simp [slotSum]
    | succ i =>
      simp only [List.getElem?_cons_succ] at h
      rw [List.take_succ_cons, List.take_succ_cons, slotSum_cons, slotSum_cons, ih i inv h]
      omega

theorem slotSum_take_mono (ns : Nat → Int) :
    ∀ (invs : List Nat), (∀ inv ∈ invs, 0 ≤ ns inv) → ∀ (i j : Nat), i ≤ j →
      slotSum ns (invs.take i) ≤ slotSum ns (invs.take j) := by
  intro invs
  induction invs with
  | nil =>
    intro _ i j _
    simp
  | cons a invs ih =>
    intro hnn i j hij
    have ha : 0 ≤ ns a := hnn a (List.mem_cons_self _ _)
    have hrest : ∀ inv ∈ invs, 0 ≤ ns inv := fun inv h => hnn inv (List.mem_cons_of_mem _ h)
    cases i with
    | zero =>
      simp only [List.take_zero]
      have := slotSum_nonneg ns ((a :: invs).take j)
        (fun inv h => hnn inv (List.mem_of_mem_take h))
      simpa [slotSum] using this
    | succ i =>
      cases j with
      | zero => omega
      | succ j =>
        rw [List.take_succ_cons, List.take_succ_cons, slotSum_cons, slotSum_cons]
        have := ih hrest i j (by omega)
        omega

theorem Window_Init_loop (E : Env) (σ : World) (w : Nat) (windowId invTypeId : Int)
    (viewer : Nat) (title : List Nat) (invs : List Nat)
    (hnn : ∀ inv ∈ invs, 0 ≤ NumSlots σ inv)
    (hrange : ∀ x : Int, 0 ≤ x → x ≤ slotSum (NumSlots σ) invs → E.slotId x = x) :
    ((Window.Init E σ w windowId invTypeId viewer title invs).windows w).views.length
        = invs.length
      ∧ (∀ (i inv : Nat), invs[i]? = some inv →
          ((Window.Init E σ w windowId invTypeId viewer title invs).windows w).views[i]?
            = some (⟨some w, some inv, slotSum (NumSlots σ) (invs.take i),
                slotSum (NumSlots σ) (invs.take i) + NumSlots σ inv⟩ : inventoryView))
      ∧ ((Window.Init E σ w windowId invTypeId viewer title invs).windows w).numSlots
          = slotSum (NumSlots σ) invs
      ∧ ((Window.Init E σ w windowId invTypeId viewer title invs).windows w).windowId
          = windowId
      ∧ ((Window.Init E σ w windowId invTypeId viewer title invs).windows w).viewer
          = viewer := by
  obtain ⟨h1, h2, _, h4, h5, h6⟩ := initLoop_ranges E w (NumSlots σ) invs 0 0
    { σ with
      windows := fun v =>
        if v = w then
          { windowId := windowId, invTypeId := invTypeId, viewer := viewer,
            views := List.replicate invs.length ⟨none, none, 0, 0⟩,
            title := title, numSlots := (σ.windows v).numSlots }
        else σ.windows v }
    (fun j => rfl) hnn (le_refl 0)
    (fun x hx0 hx => hrange x hx0 (by omega))
    (by simp)
  simp only [if_true, List.length_replicate, Nat.zero_add, Int.zero_add] at h1 h2 h4 h5 h6
  unfold Window.Init
  simp only [if_true]
  exact ⟨h2, h4, h1, h5, h6⟩

/-- C17. After `Window.Init` over backing inventories whose numbers of slots are not
negative and whose total is within the range where `SlotId` addition does not wrap: the
window has one view per inventory; view `i` is a view of the window onto inventory `i`
with `startSlot` the sum of `NumSlots` of the inventories before it and `endSlot` that
plus its own `NumSlots`; the window's `numSlots` is the sum of all `NumSlots`; view 0
starts at 0, each view starts where the previous one ends, and for `i < j` the range of
view `i` ends at or before the start of view `j`. -/
theorem Window_Init_ranges (E : Env) (σ : World) (w : Nat) (windowId invTypeId : Int)
    (viewer : Nat) (title : List Nat) (invs : List Nat)
    (hnn : ∀ inv ∈ invs, 0 ≤ NumSlots σ inv)
    (hrange : ∀ x : Int, 0 ≤ x → x ≤ slotSum (NumSlots σ) invs → E.slotId x = x) :
    ((Window.Init E σ w windowId invTypeId viewer title invs).windows w).views.length
        = invs.length
      ∧ (∀ (i inv : Nat), invs[i]? = some inv →
          ((Window.Init E σ w windowId invTypeId viewer title invs).windows w).views[i]?
            = some (⟨some w, some inv, slotSum (NumSlots σ) (invs.take i),
                slotSum (NumSlots σ) (invs.take i) + NumSlots σ inv⟩ : inventoryView))
      ∧ ((Window.Init E σ w windowId invTypeId viewer title invs).windows w).numSlots
          = slotSum (NumSlots σ) invs
      ∧ (∀ v0 : inventoryView,
          ((Window.Init E σ w windowId invTypeId viewer title invs).windows w).views[0]?
            = some v0 → v0.startSlot = 0)
      ∧ (∀ (i : Nat) (vi vj : inventoryView),
          ((Window.Init E σ w windowId invTypeId viewer title invs).windows w).views[i]?
            = some vi →
          ((Window.Init E σ w windowId invTypeId viewer title invs).windows w).views[i + 1]?
            = some vj → vj.startSlot = vi.endSlot)
      ∧ (∀ (i j : Nat) (vi vj : inventoryView), i < j →
          ((Window.Init E σ w windowId invTypeId viewer title invs).windows w).views[i]?
            = some vi →
          ((Window.Init E σ w windowId invTypeId viewer title invs).windows w).views[j]?
            = some vj → vi.startSlot ≤ vi.endSlot ∧ vi.endSlot ≤ vj.startSlot) := by
  obtain ⟨hlen, hview, hnum, _, _⟩ :=
    Window_Init_loop E σ w windowId invTypeId viewer title invs hnn hrange
  have hget : ∀ (i : Nat) (v : inventoryView),
      ((Window.Init E σ w windowId invTypeId viewer title invs).windows w).views[i]? = some v →
      ∃ inv, invs[i]? = some inv
        ∧ v = ⟨some w, some inv, slotSum (NumSlots σ) (invs.take i),
            slotSum (NumSlots σ) (invs.take i) + NumSlots σ inv⟩ := by
    intro i v hv
    have hi : i < invs.length := by
      rw [← hlen]
      exact (List.getElem?_eq_some_iff.mp hv).1
    refine ⟨invs[i], List.getElem?_eq_getElem hi, ?_⟩
    have h := hview i invs[i] (List.getElem?_eq_getElem hi)
    rw [h] at hv
    exact (Option.some.inj hv).symm
  refine ⟨hlen, hview, hnum, ?_, ?_, ?_⟩
  · intro v0 h0
    obtain ⟨inv, _, rfl⟩ := hget 0 v0 h0
    simp [slotSum]
  · intro i vi vj hi hj
    obtain ⟨inv, hinv, rfl⟩ := hget i vi hi
    obtain ⟨inv2, _, rfl⟩ := hget (i + 1) vj hj
    exact slotSum_take_succ (NumSlots σ) invs i inv hinv
  · intro i j vi vj hij hi hj
    obtain ⟨inv, hinv, rfl⟩ := hget i vi hi
    obtain ⟨inv2, _, rfl⟩ := hget j vj hj
    have h1 := slotSum_take_succ (NumSlots σ) invs i inv hinv
    have h2 := slotSum_take_mono (NumSlots σ) invs hnn (i + 1) j (by omega)
    have h3 : 0 ≤ NumSlots σ inv := hnn inv (List.mem_iff_getElem?.mpr ⟨i, hinv⟩)
    simp only
    constructor <;> omega


theorem sampleEnv_slotId (x : Int) (h0 : 0 ≤ x) (h : x ≤ 32767) : sampleEnv.slotId x = x := by
  simp only [sampleEnv, Proto.toSigned, Proto.toUnsigned]
  norm_num
  split <;> omega

/-- Witness of C17: the window of the window-click scenario over `[main(36), armor(4),
crafting(5)]`: the ranges are `[0,36)`, `[36,40)`, `[40,45)` and `numSlots` is 45. -/
theorem Window_Init_ranges_witness :
    ((Window.Init sampleEnv sampleWorld 1 3 0 7 [] [10, 11, 12]).windows 1).views
        = [⟨some 1, some 10, 0, 36⟩, ⟨some 1, some 11, 36, 40⟩, ⟨some 1, some 12, 40, 45⟩]
      ∧ ((Window.Init sampleEnv sampleWorld 1 3 0 7 [] [10, 11, 12]).windows 1).views.length
          = 3
      ∧ ((Window.Init sampleEnv sampleWorld 1 3 0 7 [] [10, 11, 12]).windows 1).numSlots
          = slotSum (NumSlots sampleWorld) [10, 11, 12]
      ∧ slotSum (NumSlots sampleWorld) [10, 11, 12] = 45 :=
  ⟨by decide,
    (Window_Init_ranges sampleEnv sampleWorld 1 3 0 7 [] [10, 11, 12] (by decide)
      (fun x h0 h => sampleEnv_slotId x h0
        (le_trans h (by decide)))).1,
    (Window_Init_ranges sampleEnv sampleWorld 1 3 0 7 [] [10, 11, 12] (by decide)
      (fun x h0 h => sampleEnv_slotId x h0
        (le_trans h (by decide)))).2.2.1,
    by decide⟩


/-! ## Slot updates -/

/-- C18. For a view `iv` of a window (its element of `views` exists and points to the
window `w`) and every local slot id `s`, `inventoryView.SlotUpdate(slot, s)` calls the
`TransmitPacket` of the window's viewer exactly once, with the bytes that `slot.SendUpdate`
writes for the window's id and the slot id `startSlot + s`; no other viewer receives
anything and nothing panics. When that addition does not wrap, the slot id sent is the
local id `s` itself only if `startSlot` is 0. -/
theorem SlotUpdate_transmits (E : Env) (σ : World) (iv : ViewRef) (slot : Slot) (s : Int)
    (view : inventoryView) (w : Nat)
    (hview : (σ.windows iv.window).views[iv.index]? = some view)
    (hw : view.window = some w) :
    (inventoryView.SlotUpdate E σ iv slot s).transmitted (σ.windows w).viewer
        = σ.transmitted (σ.windows w).viewer
            ++ [E.sendUpdate slot (σ.windows w).windowId (E.slotId (view.startSlot + s))]
      ∧ (∀ v, v ≠ (σ.windows w).viewer →
          (inventoryView.SlotUpdate E σ iv slot s).transmitted v = σ.transmitted v)
      ∧ (inventoryView.SlotUpdate E σ iv slot s).panicked = σ.panicked
      ∧ (E.slotId (view.startSlot + s) = view.startSlot + s →
          (E.slotId (view.startSlot + s) = s ↔ view.startSlot = 0)) := by
  unfold inventoryView.SlotUpdate
  rw [hview]
  simp only [hw, TransmitPacket]
  refine ⟨by simp, ?_, trivial, ?_⟩
  · intro v hv
    simp [hv]
  · intro h
    rw [h]
    constructor <;> intro h2 <;> omega

/-- Witness of C18: in the sample window over `[main(36), armor(4), crafting(5)]`, a slot
update of the armor view (index 1, `startSlot` 36) for local slot 0 sends one set-slot
packet for window 3 and slot 36 to viewer 7. -/
theorem SlotUpdate_transmits_witness :
    (inventoryView.SlotUpdate sampleEnv
        (Window.Init sampleEnv sampleWorld 1 3 0 7 [] [10, 11, 12]) ⟨1, 1⟩ ⟨5, 1, 0⟩ 0).transmitted
          ((Window.Init sampleEnv sampleWorld 1 3 0 7 [] [10, 11, 12]).windows 1).viewer
        = (Window.Init sampleEnv sampleWorld 1 3 0 7 [] [10, 11, 12]).transmitted
            ((Window.Init sampleEnv sampleWorld 1 3 0 7 [] [10, 11, 12]).windows 1).viewer
          ++ [sampleEnv.sendUpdate ⟨5, 1, 0⟩
              ((Window.Init sampleEnv sampleWorld 1 3 0 7 [] [10, 11, 12]).windows 1).windowId
              (sampleEnv.slotId ((⟨some 1, some 11, 36, 40⟩ : inventoryView).startSlot + 0))]
      ∧ (inventoryView.SlotUpdate sampleEnv
          (Window.Init sampleEnv sampleWorld 1 3 0 7 [] [10, 11, 12]) ⟨1, 1⟩ ⟨5, 1, 0⟩
          0).transmitted 7 = [[0x67, 3, 0, 36, 0, 5, 1, 0, 0]] :=
  ⟨(SlotUpdate_transmits sampleEnv (Window.Init sampleEnv sampleWorld 1 3 0 7 [] [10, 11, 12])
      ⟨1, 1⟩ ⟨5, 1, 0⟩ 0 ⟨some 1, some 11, 36, 40⟩ 1 (by decide) rfl).1,
    by decide⟩


/-! ## Subscriptions -/

theorem initCalls_getElem (w : Nat) :
    ∀ (invs : List Nat) (k i inv : Nat), invs[i]? = some inv →
      (initCalls w k invs)[i]? = some (inv, some ⟨w, k + i⟩) := by
  intro invs
  induction invs with
  | nil =>
    intro k i inv h
    simp at h
  | cons a invs ih =>
    intro k i inv h
    cases i with
    | zero =>
      simp only [List.getElem?_cons_zero, Option.some.injEq] at h
      subst h
      simp [initCalls]
    | succ i =>
      simp only [List.getElem?_cons_succ] at h
      have h2 := ih (k + 1) i inv h
      have hk : k + 1 + i = k + (i + 1) := by omega
      rw [hk] at h2
      simpa [initCalls] using h2

theorem initCalls_inventories (w : Nat) :
    ∀ (invs : List Nat) (k : Nat), (initCalls w k invs).map Prod.fst = invs := by
  intro invs
  induction invs with
  | nil => intro k; rfl
  | cons a invs ih =>
    intro k
    simp [initCalls, ih]

theorem initLoop_subscribers (E : Env) (w : Nat) :
    ∀ (invs : List Nat) (k : Nat) (start : Int) (σ : World),
      (initLoop E w invs k start σ).1.setSubscriberCalls
          = σ.setSubscriberCalls ++ initCalls w k invs
        ∧ (∀ j, j ∉ invs → (initLoop E w invs k start σ).1.inventories j = σ.inventories j)
        ∧ (invs.Nodup → ∀ (i inv : Nat), invs[i]? = some inv →
            ((initLoop E w invs k start σ).1.inventories inv).subscriber = some ⟨w, k + i⟩)
        ∧ (initLoop E w invs k start σ).1.transmitted = σ.transmitted
        ∧ (initLoop E w invs k start σ).1.panicked = σ.panicked
        ∧ ((initLoop E w invs k start σ).1.windows w).views.length
            = (σ.windows w).views.length
        ∧ (∀ i, i < k → ((initLoop E w invs k start σ).1.windows w).views[i]?
            = (σ.windows w).views[i]?)
        ∧ (∀ (i inv : Nat), invs[i]? = some inv → k + i < (σ.windows w).views.length →
            ∃ v : inventoryView,
              ((initLoop E w invs k start σ).1.windows w).views[k + i]? = some v
                ∧ v.inventory = some inv ∧ v.window = some w) := by
  intro invs
  induction invs with
  | nil =>
    intro k start σ
    refine ⟨by simp [initLoop, initCalls], fun j _ => rfl, ?_, rfl, rfl, rfl, fun i _ => rfl, ?_⟩
    · intro _ i inv h
      simp at h
    · intro i inv h
      simp at h
  | cons a invs ih =>
    intro k start σ
    obtain ⟨i1, i2, i3, i4, i5, i6, i7, i8⟩ := ih (k + 1)
      (E.slotId (start + (σ.inventories a).numSlots))
      (inventoryView.Init σ ⟨w, k⟩ w a start (E.slotId (start + (σ.inventories a).numSlots)))
    have hviews := Init_views σ w k a start (E.slotId (start + (σ.inventories a).numSlots))
    simp only [initLoop]
    refine ⟨?_, ?_, ?_, ?_, ?_, ?_, ?_, ?_⟩
    · rw [i1, Init_calls]
      simp [initCalls]
    · intro j hj
      have hja : j ≠ a := fun h => hj (h ▸ List.mem_cons_self _ _)
      have hjr : j ∉ invs := fun h => hj (List.mem_cons_of_mem _ h)
      rw [i2 j hjr, Init_inventories_ne σ w k a _ _ j hja]
    · intro hnd i inv hi
      have hnd2 := List.nodup_cons.mp hnd
      cases i with
      | zero =>
        simp only [List.getElem?_cons_zero, Option.some.injEq] at hi
        subst hi
        rw [i2 a hnd2.1, Nat.add_zero]
        exact Init_subscriber_self σ w k a _ _
      | succ i =>
        simp only [List.getElem?_cons_succ] at hi
        have h := i3 hnd2.2 i inv hi
        have hk : k + 1 + i = k + (i + 1) := by omega
        rw [hk] at h
        exact h
    · rw [i4, (Init_transmitted σ w k a _ _).1]
    · rw [i5, (Init_transmitted σ w k a _ _).2]
    · rw [i6, hviews, List.length_set]
    · intro i hi
      rw [i7 i (by omega), hviews, List.getElem?_set_ne (by omega)]
    · intro i inv hi hlt
      cases i with
      | zero =>
        simp only [List.getElem?_cons_zero, Option.some.injEq] at hi
        subst hi
        have h := i7 k (by omega)
        rw [hviews, List.getElem?_set_self (by omega)] at h
        exact ⟨_, h, rfl, rfl⟩
      | succ i =>
        simp only [List.getElem?_cons_succ] at hi
        have hk : k + (i + 1) = k + 1 + i := by omega
        rw [hk]
        exact i8 i inv hi (by rw [hviews, List.length_set]; omega)

/-- C19. With an inventory holding the one subscriber last set: after `Window.Init` over
pairwise distinct inventories, `SetSubscriber` has been called once for each inventory of
the list, in order, the call for inventory `i` having the window's view `i` as its
argument; the subscriber of inventory `i` is then the window's view `i`, and that view is
a view of the window onto inventory `i`. -/
theorem Window_Init_subscribers (E : Env) (σ : World) (w : Nat) (windowId invTypeId : Int)
    (viewer : Nat) (title : List Nat) (invs : List Nat) (hnd : invs.Nodup) :
    (Window.Init E σ w windowId invTypeId viewer title invs).setSubscriberCalls
        = σ.setSubscriberCalls ++ initCalls w 0 invs
      ∧ (initCalls w 0 invs).map Prod.fst = invs
      ∧ (∀ (i inv : Nat), invs[i]? = some inv →
          (initCalls w 0 invs)[i]? = some (inv, some ⟨w, i⟩)
          ∧ ((Window.Init E σ w windowId invTypeId viewer title invs).inventories
              inv).subscriber = some ⟨w, i⟩
          ∧ ∃ v : inventoryView,
              ((Window.Init E σ w windowId invTypeId viewer title invs).windows w).views[i]?
                = some v
              ∧ v.inventory = some inv ∧ v.window = some w) := by
  obtain ⟨h1, _, h3, _, _, _, _, h8⟩ := initLoop_subscribers E w invs 0 0
    { σ with
      windows := fun v =>
        if v = w then
          { windowId := windowId, invTypeId := invTypeId, viewer := viewer,
            views := List.replicate invs.length ⟨none, none, 0, 0⟩,
            title := title, numSlots := (σ.windows v).numSlots }
        else σ.windows v }
  simp only [if_true, List.length_replicate, Nat.zero_add] at h1 h3 h8
  unfold Window.Init
  simp only [if_true]
  refine ⟨h1, initCalls_inventories w invs 0, ?_⟩
  intro i inv hi
  have hlt : i < invs.length := (List.getElem?_eq_some_iff.mp hi).1
  have hc := initCalls_getElem w invs 0 i inv hi
  rw [Nat.zero_add] at hc
  exact ⟨hc, h3 hnd i inv hi, h8 i inv hi hlt⟩

/-- Witness of C19: the sample window over the inventories 10, 11 and 12: three calls of
`SetSubscriber`, and the armor inventory 11 has view 1 of the window as its subscriber. -/
theorem Window_Init_subscribers_witness :
    (Window.Init sampleEnv sampleWorld 1 3 0 7 [] [10, 11, 12]).setSubscriberCalls
        = [(10, some ⟨1, 0⟩), (11, some ⟨1, 1⟩), (12, some ⟨1, 2⟩)]
      ∧ ((Window.Init sampleEnv sampleWorld 1 3 0 7 [] [10, 11, 12]).inventories
          11).subscriber = some ⟨1, 1⟩ :=
  ⟨(Window_Init_subscribers sampleEnv sampleWorld 1 3 0 7 [] [10, 11, 12] (by decide)).1,
    ((Window_Init_subscribers sampleEnv sampleWorld 1 3 0 7 [] [10, 11, 12] (by decide)).2.2
      1 11 rfl).2.1⟩

/-! ## Finalizing a window -/

theorem finalizeLoop_unsubscribes :
    ∀ (views : List inventoryView) (σ : World),
      σ.panicked = false →
      (∀ view ∈ views, view.inventory ≠ none) →
      (finalizeLoop views σ).panicked = false
        ∧ (finalizeLoop views σ).transmitted = σ.transmitted
        ∧ (finalizeLoop views σ).windows = σ.windows
        ∧ (∀ j, (σ.inventories j).subscriber = none →
            ((finalizeLoop views σ).inventories j).subscriber = none)
        ∧ (∀ view ∈ views, ∀ inv, view.inventory = some inv →
            ((finalizeLoop views σ).inventories inv).subscriber = none) := by
  intro views
  induction views with
  | nil =>
    intro σ hp _
    refine ⟨hp, rfl, rfl, fun j h => h, ?_⟩
    intro view hv
    simp at hv
  | cons a views ih =>
    intro σ hp hwf
    have ha : a.inventory ≠ none := hwf a (List.mem_cons_self _ _)
    obtain ⟨inv, hinv⟩ : ∃ inv, a.inventory = some inv := by
      cases h : a.inventory with
      | none => exact absurd h ha
      | some inv => exact ⟨inv, rfl⟩
    have hfin : inventoryView.Finalize σ a = SetSubscriber σ inv none := by
      unfold inventoryView.Finalize
      rw [hinv]
    have hp1 : (SetSubscriber σ inv none).panicked = false := hp
    obtain ⟨i1, i2, i3, i4, i5⟩ := ih (SetSubscriber σ inv none) hp1
      (fun v hv => hwf v (List.mem_cons_of_mem _ hv))
    have hself : ((SetSubscriber σ inv none).inventories inv).subscriber = none := by
      simp [SetSubscriber]
    have hkeep : ∀ j, (σ.inventories j).subscriber = none →
        ((SetSubscriber σ inv none).inventories j).subscriber = none := by
      intro j hj
      simp only [SetSubscriber]
      split
      · rfl
      · exact hj
    simp only [finalizeLoop, hfin, hp1]
    refine ⟨i1, i2, i3, fun j hj => i4 j (hkeep j hj), ?_⟩
    intro view hv inv2 hinv2
    rcases List.mem_cons.mp hv with h | h
    · subst h
      rw [hinv] at hinv2
      cases hinv2
      exact i4 inv hself
    · exact i5 view h inv2 hinv2

/-- C20. After `Window.Finalize`, with either value of `sendClosePacket`, on a window all of
whose views have an inventory (as every initialised window has) in a world that has not
panicked: every backing inventory of the window has no subscriber, nothing has been
transmitted and nothing has panicked; and a slot update emitted afterwards by a backing
inventory reaches nobody, so no `TransmitPacket` call is made on any viewer. -/
theorem Window_Finalize_unsubscribes (E : Env) (σ : World) (w : Nat) (sendClosePacket : Bool)
    (hp : σ.panicked = false)
    (hwf : ∀ view ∈ (σ.windows w).views, view.inventory ≠ none) :
    (Window.Finalize E σ w sendClosePacket).panicked = false
      ∧ (Window.Finalize E σ w sendClosePacket).transmitted = σ.transmitted
      ∧ (∀ view ∈ (σ.windows w).views, ∀ inv, view.inventory = some inv →
          ((Window.Finalize E σ w sendClosePacket).inventories inv).subscriber = none
          ∧ ∀ (slot : Slot) (s : Int),
              emitSlotUpdate E (Window.Finalize E σ w sendClosePacket) inv slot s
                = Window.Finalize E σ w sendClosePacket) := by
  obtain ⟨h1, h2, _, _, h5⟩ := finalizeLoop_unsubscribes (σ.windows w).views σ hp hwf
  have hfin : Window.Finalize E σ w sendClosePacket = finalizeLoop (σ.windows w).views σ := by
    unfold Window.Finalize
    cases sendClosePacket <;> rfl
  rw [hfin]
  refine ⟨h1, h2, ?_⟩
  intro view hv inv hinv
  have hs := h5 view hv inv hinv
  refine ⟨hs, ?_⟩
  intro slot s
  unfold emitSlotUpdate
  rw [hs]

/-- Witness of C20: the sample window over the inventories 10, 11 and 12 is initialised and
then finalized with a close packet requested: the armor inventory 11 has no subscriber, and
a slot update it emits afterwards leaves viewer 7 without any packet. -/
theorem Window_Finalize_unsubscribes_witness :
    ((Window.Finalize sampleEnv (Window.Init sampleEnv sampleWorld 1 3 0 7 [] [10, 11, 12]) 1
        true).inventories 11).subscriber = none
      ∧ (emitSlotUpdate sampleEnv
          (Window.Finalize sampleEnv (Window.Init sampleEnv sampleWorld 1 3 0 7 [] [10, 11, 12])
            1 true) 11 ⟨5, 1, 0⟩ 0).transmitted 7 = []
      ∧ ((Window.Init sampleEnv sampleWorld 1 3 0 7 [] [10, 11, 12]).inventories
          11).subscriber = some ⟨1, 1⟩ := by
  have h := Window_Finalize_unsubscribes sampleEnv
    (Window.Init sampleEnv sampleWorld 1 3 0 7 [] [10, 11, 12]) 1 true (by decide) (by decide)
  have h11 := h.2.2 ⟨some 1, some 11, 36, 40⟩ (by decide) 11 rfl
  refine ⟨h11.1, ?_, by decide⟩
  rw [h11.2 ⟨5, 1, 0⟩ 0, h.2.1]
  decide

/-! ## The close packet -/

theorem finalizeLoop_transmitted :
    ∀ (views : List inventoryView) (σ : World),
      (finalizeLoop views σ).transmitted = σ.transmitted := by
  intro views
  induction views with
  | nil =>
    intro σ
    rfl
  | cons a views ih =>
    intro σ
    have hfin : (inventoryView.Finalize σ a).transmitted = σ.transmitted := by
      unfold inventoryView.Finalize
      split <;> rfl
    simp only [finalizeLoop]
    split
    · exact hfin
    · rw [ih, hfin]

/-- C21, as the code has it. `Window.Finalize` makes no `TransmitPacket` call on any viewer,
with `sendClosePacket` true as well as false: the packets transmitted to every viewer are
those transmitted before, and the world after `Finalize(true)` is the world after
`Finalize(false)`. The bytes of `proto.WriteWindowClose` are written to a buffer that is
passed to nobody. On the sample window the close packet would be `0x65, 3`, and viewer 7
has received nothing. -/
theorem Window_Finalize_close_packet (E : Env) (σ : World) (w : Nat)
    (sendClosePacket : Bool) :
    (Window.Finalize E σ w sendClosePacket).transmitted = σ.transmitted
      ∧ Window.Finalize E σ w true = Window.Finalize E σ w false
      ∧ sampleEnv.writeWindowClose 3 = [0x65, 3]
      ∧ (Window.Finalize sampleEnv
          (Window.Init sampleEnv sampleWorld 1 3 0 7 [] [10, 11, 12]) 1 true).transmitted 7
        = [] := by
  have hfin : ∀ b, Window.Finalize E σ w b = finalizeLoop (σ.windows w).views σ := by
    intro b
    unfold Window.Finalize
    cases b <;> rfl
  refine ⟨?_, ?_, by decide, ?_⟩
  · rw [hfin, finalizeLoop_transmitted]
  · rw [hfin, hfin]
  · have h : Window.Finalize sampleEnv
        (Window.Init sampleEnv sampleWorld 1 3 0 7 [] [10, 11, 12]) 1 true
        = finalizeLoop
          ((Window.Init sampleEnv sampleWorld 1 3 0 7 [] [10, 11, 12]).windows 1).views
          (Window.Init sampleEnv sampleWorld 1 3 0 7 [] [10, 11, 12]) := rfl
    rw [h, finalizeLoop_transmitted]
    decide

/-! ## Two windows over one inventory -/

theorem Init_windows_ne (σ : World) (w k inv : Nat) (a b : Int) (v : Nat) (h : v ≠ w) :
    (inventoryView.Init σ ⟨w, k⟩ w inv a b).windows v = σ.windows v := by
  simp [inventoryView.Init, SetSubscriber, setView, h]

theorem initLoop_windows_ne (E : Env) (w v : Nat) (h : v ≠ w) :
    ∀ (invs : List Nat) (k : Nat) (start : Int) (σ : World),
      (initLoop E w invs k start σ).1.windows v = σ.windows v := by
  intro invs
  induction invs with
  | nil =>
    intro k start σ
    rfl
  | cons a invs ih =>
    intro k start σ
    simp only [initLoop]
    rw [ih, Init_windows_ne σ w k a _ _ v h]

theorem Window_Init_facts (E : Env) (σ : World) (w : Nat) (windowId invTypeId : Int)
    (viewer : Nat) (title : List Nat) (invs : List Nat) :
    (invs.Nodup → ∀ (i inv : Nat), invs[i]? = some inv →
        ((Window.Init E σ w windowId invTypeId viewer title invs).inventories inv).subscriber
          = some ⟨w, i⟩)
      ∧ (Window.Init E σ w windowId invTypeId viewer title invs).panicked = σ.panicked
      ∧ (Window.Init E σ w windowId invTypeId viewer title invs).transmitted = σ.transmitted
      ∧ (∀ v, v ≠ w →
          (Window.Init E σ w windowId invTypeId viewer title invs).windows v = σ.windows v)
      ∧ (∀ view ∈ ((Window.Init E σ w windowId invTypeId viewer title invs).windows w).views,
          view.inventory ≠ none)
      ∧ (∀ inv ∈ invs,
          ∃ view ∈ ((Window.Init E σ w windowId invTypeId viewer title invs).windows w).views,
            view.inventory = some inv) := by
  obtain ⟨_, _, h3, h4, h5, h6, _, h8⟩ := initLoop_subscribers E w invs 0 0
    { σ with
      windows := fun v =>
        if v = w then
          { windowId := windowId, invTypeId := invTypeId, viewer := viewer,
            views := List.replicate invs.length ⟨none, none, 0, 0⟩,
            title := title, numSlots := (σ.windows v).numSlots }
        else σ.windows v }
  simp only [if_true, List.length_replicate, Nat.zero_add] at h3 h6 h8
  unfold Window.Init
  simp only [if_true]
  refine ⟨h3, h5, h4, ?_, ?_, ?_⟩
  · intro v hv
    simp only [if_neg hv]
    rw [initLoop_windows_ne E w v hv]
    simp only [if_neg hv]
  · intro view hview
    obtain ⟨j, hj⟩ := List.mem_iff_getElem?.mp hview
    have hlt : j < invs.length := by
      have := (List.getElem?_eq_some_iff.mp hj).1
      omega
    obtain ⟨x, hx1, hx2, _⟩ := h8 j invs[j] (List.getElem?_eq_getElem hlt) hlt
    rw [hj] at hx1
    simp only [Option.some.injEq] at hx1
    rw [hx1, hx2]
    simp
  · intro inv hinv
    obtain ⟨j, hj⟩ := List.mem_iff_getElem?.mp hinv
    have hlt : j < invs.length := (List.getElem?_eq_some_iff.mp hj).1
    obtain ⟨x, hx1, hx2, _⟩ := h8 j inv hj hlt
    exact ⟨x, List.mem_iff_getElem?.mpr ⟨j, hx1⟩, hx2⟩

/-- C39, as the code has it. With an inventory holding the one subscriber last set: when
the window `a` and then another window `b` are initialised over lists of inventories that
both hold the inventory `inv`, the subscriber of `inv` is the view of `b` onto it; and
`Finalize` of `a` then leaves `inv` without any subscriber, since `inventoryView.Finalize`
calls `SetSubscriber(nil)` whoever the subscriber is. A slot update that `inv` emits
afterwards reaches nobody: the world stays as it is and the viewer of `b` receives no
packet. -/
theorem Window_Finalize_other_window (E : Env) (σ : World) (a b : Nat)
    (idA typeA : Int) (viewerA : Nat) (titleA invsA : List Nat)
    (idB typeB : Int) (viewerB : Nat) (titleB invsB : List Nat)
    (sendClosePacket : Bool) (inv i : Nat)
    (hab : a ≠ b) (hp : σ.panicked = false) (hA : inv ∈ invsA) (hnd : invsB.Nodup)
    (hB : invsB[i]? = some inv) :
    ((Window.Init E (Window.Init E σ a idA typeA viewerA titleA invsA) b idB typeB viewerB
        titleB invsB).inventories inv).subscriber = some ⟨b, i⟩
      ∧ ((Window.Finalize E
          (Window.Init E (Window.Init E σ a idA typeA viewerA titleA invsA) b idB typeB
            viewerB titleB invsB) a sendClosePacket).inventories inv).subscriber = none
      ∧ (∀ (slot : Slot) (s : Int),
          emitSlotUpdate E
            (Window.Finalize E
              (Window.Init E (Window.Init E σ a idA typeA viewerA titleA invsA) b idB typeB
                viewerB titleB invsB) a sendClosePacket) inv slot s
          = Window.Finalize E
              (Window.Init E (Window.Init E σ a idA typeA viewerA titleA invsA) b idB typeB
                viewerB titleB invsB) a sendClosePacket)
      ∧ (Window.Finalize E
          (Window.Init E (Window.Init E σ a idA typeA viewerA titleA invsA) b idB typeB
            viewerB titleB invsB) a sendClosePacket).transmitted = σ.transmitted := by
  obtain ⟨_, a2, a3, _, a5, a6⟩ := Window_Init_facts E σ a idA typeA viewerA titleA invsA
  obtain ⟨b1, b2, b3, b4, _, _⟩ := Window_Init_facts E
    (Window.Init E σ a idA typeA viewerA titleA invsA) b idB typeB viewerB titleB invsB
  have hwin := b4 a hab
  have hp2 : (Window.Init E (Window.Init E σ a idA typeA viewerA titleA invsA) b idB typeB
      viewerB titleB invsB).panicked = false := by
    rw [b2, a2, hp]
  obtain ⟨_, f2, _, _, f5⟩ := finalizeLoop_unsubscribes
    ((Window.Init E (Window.Init E σ a idA typeA viewerA titleA invsA) b idB typeB
      viewerB titleB invsB).windows a).views
    (Window.Init E (Window.Init E σ a idA typeA viewerA titleA invsA) b idB typeB
      viewerB titleB invsB) hp2 (by rw [hwin]; exact a5)
  have hfin : Window.Finalize E
      (Window.Init E (Window.Init E σ a idA typeA viewerA titleA invsA) b idB typeB
        viewerB titleB invsB) a sendClosePacket
      = finalizeLoop
        ((Window.Init E (Window.Init E σ a idA typeA viewerA titleA invsA) b idB typeB
          viewerB titleB invsB).windows a).views
        (Window.Init E (Window.Init E σ a idA typeA viewerA titleA invsA) b idB typeB
          viewerB titleB invsB) := by
    unfold Window.Finalize
    cases sendClosePacket <;> rfl
  obtain ⟨view, hview, hinv⟩ := a6 inv hA
  have hnone := f5 view (by rw [hwin]; exact hview) inv hinv
  rw [hfin]
  refine ⟨b1 hnd i inv hB, hnone, ?_, ?_⟩
  · intro slot s
    unfold emitSlotUpdate
    rw [hnone]
  · rw [f2, b3, a3]

/-- Witness of C39: the window 1 of viewer 7 and then the window 2 of viewer 8 are
initialised over the inventories 10, 11 and 12 of the sample world; the armor inventory 11
has the view 1 of the window 2 as its subscriber, and none after `Finalize` of window 1. -/
theorem Window_Finalize_other_window_witness :
    ((Window.Init sampleEnv (Window.Init sampleEnv sampleWorld 1 3 0 7 [] [10, 11, 12])
        2 4 0 8 [] [10, 11, 12]).inventories 11).subscriber = some ⟨2, 1⟩
      ∧ ((Window.Finalize sampleEnv
          (Window.Init sampleEnv (Window.Init sampleEnv sampleWorld 1 3 0 7 [] [10, 11, 12])
            2 4 0 8 [] [10, 11, 12]) 1 false).inventories 11).subscriber = none :=
  ⟨(Window_Finalize_other_window sampleEnv sampleWorld 1 2 3 0 7 [] [10, 11, 12] 4 0 8 []
      [10, 11, 12] false 11 1 (by decide) rfl (by decide) (by decide) rfl).1,
    (Window_Finalize_other_window sampleEnv sampleWorld 1 2 3 0 7 [] [10, 11, 12] 4 0 8 []
      [10, 11, 12] false 11 1 (by decide) rfl (by decide) (by decide) rfl).2.1⟩

/-- Counterexample to C39 as stated: in the sample world the window 1 of viewer 7 and then
the window 2 of viewer 8 are initialised over the inventories 10, 11 and 12. Before
`Finalize` of window 1 a slot update of the armor inventory 11 reaches viewer 8 as a
set-slot packet for the slot 36 of window 4; after it the inventory has no subscriber and
the same slot update leaves viewer 8 without any packet. -/
theorem Window_Finalize_other_window_counterexample :
    (emitSlotUpdate sampleEnv
        (Window.Init sampleEnv (Window.Init sampleEnv sampleWorld 1 3 0 7 [] [10, 11, 12])
          2 4 0 8 [] [10, 11, 12]) 11 ⟨5, 1, 0⟩ 0).transmitted 8
        = [[0x67, 4, 0, 36, 0, 5, 1, 0, 0]]
      ∧ ((Window.Finalize sampleEnv
          (Window.Init sampleEnv (Window.Init sampleEnv sampleWorld 1 3 0 7 [] [10, 11, 12])
            2 4 0 8 [] [10, 11, 12]) 1 false).inventories 11).subscriber = none
      ∧ (emitSlotUpdate sampleEnv
          (Window.Finalize sampleEnv
            (Window.Init sampleEnv (Window.Init sampleEnv sampleWorld 1 3 0 7 [] [10, 11, 12])
              2 4 0 8 [] [10, 11, 12]) 1 false) 11 ⟨5, 1, 0⟩ 0).transmitted 8 = [] := by
  refine ⟨by decide, by decide, by decide⟩

end window

namespace block

/-! ## The two loops of `LoadBlockDefs` -/

theorem Atoi_error (s : String) (e : Error) (h : (Atoi s).2 = some e) : e = Error.atoi s := by
  unfold Atoi at h
  repeat' (first | split at h | dsimp only at h)
  all_goals first
    | (simp only [Option.some.injEq] at h; exact h.symm)
    | exact absurd h (by simp)

theorem rangeCheckLoop_error {Attrs : Type} :
    ∀ (l : List (String × blockDef Attrs)) (maxId : Int) (err : Option Error),
      (∃ kv ∈ l, (Atoi kv.1).2 ≠ none ∨ (Atoi kv.1).1 < 0 ∨ (Atoi kv.1).1 > 255) →
      ∃ e, rangeCheckLoop l maxId err = Except.error e
        ∧ ((∃ s, e = Error.atoi s) ∨ ∃ id, e = Error.outOfRange id) := by
  intro l
  induction l with
  | nil =>
    intro _ _ h
    obtain ⟨kv, hkv, _⟩ := h
    simp at hkv
  | cons a l ih =>
    intro maxId err h
    obtain ⟨idStr, bd⟩ := a
    simp only [rangeCheckLoop]
    split
    · rename_i e he
      exact ⟨e, rfl, Or.inl ⟨_, Atoi_error _ _ he⟩⟩
    · rename_i hnone
      split
      · exact ⟨_, rfl, Or.inr ⟨_, rfl⟩⟩
      · rename_i hr
        apply ih
        obtain ⟨kv, hkv, hbad⟩ := h
        rcases List.mem_cons.mp hkv with h1 | h1
        · subst h1
          exfalso
          rcases hbad with hb | hb
          · exact hb hnone
          · exact hr hb
        · exact ⟨kv, h1, hbad⟩

theorem rangeCheckLoop_ok {Attrs : Type} :
    ∀ (l : List (String × blockDef Attrs)) (maxId : Int) (err : Option Error),
      (∀ kv ∈ l, (Atoi kv.1).2 = none ∧ 0 ≤ (Atoi kv.1).1 ∧ (Atoi kv.1).1 ≤ 255) →
      ∃ m, rangeCheckLoop l maxId err = Except.ok (m, if l.isEmpty then err else none)
        ∧ maxId ≤ m ∧ (∀ kv ∈ l, (Atoi kv.1).1 ≤ m)
        ∧ (m = maxId ∨ ∃ kv ∈ l, (Atoi kv.1).1 = m) := by
  intro l
  induction l with
  | nil =>
    intro maxId err _
    exact ⟨maxId, rfl, le_refl _, by simp, Or.inl rfl⟩
  | cons a l ih =>
    intro maxId err h
    obtain ⟨idStr, bd⟩ := a
    obtain ⟨h1, h2, h3⟩ :
        (Atoi idStr).2 = none ∧ 0 ≤ (Atoi idStr).1 ∧ (Atoi idStr).1 ≤ 255 :=
      h (idStr, bd) (List.mem_cons_self _ _)
    have hr : ¬ ((Atoi idStr).1 < 0 ∨ (Atoi idStr).1 > 255) := by omega
    obtain ⟨m, e1, e2, e3, e4⟩ :=
      ih (if (Atoi idStr).1 > maxId then (Atoi idStr).1 else maxId) none
        (fun kv hkv => h kv (List.mem_cons_of_mem _ hkv))
    refine ⟨m, ?_, ?_, ?_, ?_⟩
    · simp only [rangeCheckLoop, h1, hr, if_false, e1]
      simp
    · split at e2 <;> omega
    · intro kv hkv
      rcases List.mem_cons.mp hkv with h5 | h5
      · subst h5
        show (Atoi idStr).1 ≤ m
        split at e2 <;> omega
      · exact e3 kv h5
    · rcases e4 with e4 | ⟨kv, hkv, e4⟩
      · by_cases hgt : (Atoi idStr).1 > maxId
        · rw [if_pos hgt] at e4
          exact Or.inr ⟨(idStr, bd), List.mem_cons_self _ _, e4.symm⟩
        · rw [if_neg hgt] at e4
          exact Or.inl e4
      · exact Or.inr ⟨kv, List.mem_cons_of_mem _ hkv, e4⟩

theorem LoadBlockType_of_loads {Attrs : Type} (unmarshal : AspectKind → List Nat → Bool)
    (bd : blockDef Attrs) (a : Option IBlockAspect)
    (h : loadAspect unmarshal bd = Loaded.returned a none) :
    LoadBlockType unmarshal bd = Loaded.returned (some ⟨bd.attrs, a, false⟩) none := by
  unfold LoadBlockType
  rw [h]

theorem loadLoop_ok {Attrs : Type} (unmarshal : AspectKind → List Nat → Bool) :
    ∀ (second : List (String × blockDef Attrs)) (blocks : List (BlockType Attrs))
      (err : Option Error),
      (∀ kv ∈ second, 0 ≤ (Atoi kv.1).1 ∧ (Atoi kv.1).1 < blocks.length
        ∧ ∃ a, loadAspect unmarshal kv.2 = Loaded.returned a none) →
      ∃ blocks1, loadLoop unmarshal second blocks err
          = Loaded.returned blocks1 (if second.isEmpty then err else none)
        ∧ blocks1.length = blocks.length := by
  intro second
  induction second with
  | nil =>
    intro blocks err _
    exact ⟨blocks, rfl, rfl⟩
  | cons a second ih =>
    intro blocks err h
    obtain ⟨idStr, bd⟩ := a
    obtain ⟨h1, h2, a, h3⟩ :
        0 ≤ (Atoi idStr).1 ∧ (Atoi idStr).1 < blocks.length
          ∧ ∃ a, loadAspect unmarshal bd = Loaded.returned a none :=
      h (idStr, bd) (List.mem_cons_self _ _)
    have hlt : (Atoi idStr).1.toNat < blocks.length := by omega
    have hid : ¬ (Atoi idStr).1 < 0 := by omega
    obtain ⟨blocks1, e1, e2⟩ :=
      ih (blocks.set (Atoi idStr).1.toNat ⟨bd.attrs, a, true⟩) none (by
        intro kv hkv
        rw [List.length_set]
        exact h kv (List.mem_cons_of_mem _ hkv))
    refine ⟨blocks1, ?_, ?_⟩
    · simp only [loadLoop, if_neg hid, List.getElem?_eq_getElem hlt,
        LoadBlockType_of_loads unmarshal bd a h3]
      rw [e1]
      simp
    · rw [e2, List.length_set]

theorem loadLoop_err {Attrs : Type} (unmarshal : AspectKind → List Nat → Bool) :
    ∀ (second : List (String × blockDef Attrs)) (blocks : List (BlockType Attrs))
      (err : Option Error) (blocks1 : List (BlockType Attrs)) (e : Error),
      loadLoop unmarshal second blocks err = Loaded.returned blocks1 (some e) →
      some e = err ∨ e = Error.unmarshal ∨ ∃ name, e = Error.unknownAspect name := by
  intro second
  induction second with
  | nil =>
    intro blocks err blocks1 e h
    simp only [loadLoop, Loaded.returned.injEq] at h
    exact Or.inl h.2.symm
  | cons a second ih =>
    intro blocks err blocks1 e h
    obtain ⟨idStr, bd⟩ := a
    simp only [loadLoop] at h
    split at h
    · cases h
    · split at h
      · cases h
      · split at h
        · cases h
        · rename_i x e1 hl
          simp only [Loaded.returned.injEq, Option.some.injEq] at h
          obtain ⟨_, h⟩ := h
          subst h
          unfold LoadBlockType at hl
          split at hl
          · cases hl
          · rename_i y e2 hl2
            simp only [Loaded.returned.injEq, Option.some.injEq] at hl
            obtain ⟨_, hl⟩ := hl
            subst hl
            unfold loadAspect at hl2
            split at hl2
            · simp only [Loaded.returned.injEq, Option.some.injEq] at hl2
              exact Or.inr (Or.inr ⟨_, hl2.2.symm⟩)
            · split at hl2
              · cases hl2
              · simp only [Loaded.returned.injEq] at hl2
                obtain ⟨_, hl2⟩ := hl2
                split at hl2
                · cases hl2
                · simp only [Option.some.injEq] at hl2
                  exact Or.inr (Or.inl hl2.symm)
          · cases hl
        · cases h
        · rcases ih _ _ _ _ h with h1 | h1
          · cases h1
          · exact Or.inr h1

theorem loadLoop_unknown {Attrs : Type} (unmarshal : AspectKind → List Nat → Bool) :
    ∀ (second : List (String × blockDef Attrs)) (blocks : List (BlockType Attrs))
      (err : Option Error),
      (∀ kv ∈ second, 0 ≤ (Atoi kv.1).1 ∧ (Atoi kv.1).1 < blocks.length) →
      (∀ kv ∈ second, aspectMakers kv.2.Aspect ≠ none →
        ∃ a, loadAspect unmarshal kv.2 = Loaded.returned a none) →
      (∃ kv ∈ second, aspectMakers kv.2.Aspect = none) →
      ∃ blocks1 kv, kv ∈ second ∧ aspectMakers kv.2.Aspect = none
        ∧ loadLoop unmarshal second blocks err
          = Loaded.returned blocks1 (some (Error.unknownAspect kv.2.Aspect)) := by
  intro second
  induction second with
  | nil =>
    intro blocks err _ _ h
    obtain ⟨kv, hkv, _⟩ := h
    simp at hkv
  | cons a second ih =>
    intro blocks err hid hknown hsome
    obtain ⟨idStr, bd⟩ := a
    obtain ⟨h1, h2⟩ : 0 ≤ (Atoi idStr).1 ∧ (Atoi idStr).1 < blocks.length :=
      hid (idStr, bd) (List.mem_cons_self _ _)
    have hlt : (Atoi idStr).1.toNat < blocks.length := by omega
    have hneg : ¬ (Atoi idStr).1 < 0 := by omega
    by_cases hm : aspectMakers bd.Aspect = none
    · refine ⟨blocks, (idStr, bd), List.mem_cons_self _ _, hm, ?_⟩
      simp only [loadLoop, if_neg hneg, List.getElem?_eq_getElem hlt, LoadBlockType,
        loadAspect, hm]
    · obtain ⟨a, ha⟩ := hknown (idStr, bd) (List.mem_cons_self _ _) hm
      obtain ⟨blocks1, kv, k1, k2, k3⟩ :=
        ih (blocks.set (Atoi idStr).1.toNat ⟨bd.attrs, a, true⟩) none
          (by
            intro kv hkv
            rw [List.length_set]
            exact hid kv (List.mem_cons_of_mem _ hkv))
          (fun kv hkv => hknown kv (List.mem_cons_of_mem _ hkv))
          (by
            obtain ⟨kv, hkv, hb⟩ := hsome
            rcases List.mem_cons.mp hkv with h5 | h5
            · subst h5
              exact absurd hb hm
            · exact ⟨kv, h5, hb⟩)
      refine ⟨blocks1, kv, List.mem_cons_of_mem _ k1, k2, ?_⟩
      simp only [loadLoop, if_neg hneg, List.getElem?_eq_getElem hlt,
        LoadBlockType_of_loads unmarshal bd a ha]
      exact k3

theorem aspectMakers_names (name : String) :
    aspectMakers name ≠ none ↔ name = "Standard" ∨ name = "Void" := by
  unfold aspectMakers
  by_cases h1 : name = "Standard"
  · simp [h1]
  · by_cases h2 : name = "Void"
    · simp [h2]
    · simp [h1, h2]

theorem rangeCheckLoop_inv {Attrs : Type} :
    ∀ (l : List (String × blockDef Attrs)) (maxId : Int) (err : Option Error),
      (∀ e, rangeCheckLoop l maxId err = Except.error e →
        (∃ s, e = Error.atoi s) ∨ ∃ id, e = Error.outOfRange id)
      ∧ (∀ m err1, rangeCheckLoop l maxId err = Except.ok (m, err1) →
        err1 = err ∨ err1 = none) := by
  intro l
  induction l with
  | nil =>
    intro maxId err
    refine ⟨?_, ?_⟩
    · intro e h
      cases h
    · intro m err1 h
      simp only [rangeCheckLoop, Except.ok.injEq, Prod.mk.injEq] at h
      exact Or.inl h.2.symm
  | cons a l ih =>
    intro maxId err
    obtain ⟨idStr, bd⟩ := a
    simp only [rangeCheckLoop]
    split
    · rename_i e0 he
      refine ⟨?_, ?_⟩
      · intro e h
        simp only [Except.error.injEq] at h
        subst h
        exact Or.inl ⟨_, Atoi_error _ _ he⟩
      · intro m err1 h
        cases h
    · split
      · refine ⟨?_, ?_⟩
        · intro e h
          simp only [Except.error.injEq] at h
          exact Or.inr ⟨_, h.symm⟩
        · intro m err1 h
          cases h
      · refine ⟨(ih _ _).1, ?_⟩
        intro m err1 h
        rcases (ih _ _).2 m err1 h with h1 | h1
        · exact Or.inr h1
        · exact Or.inr h1

/-! ## The keys of the definitions -/

/-- C22. `LoadBlockDefs` on a decoded definition map, whatever the order in which the two
loops range over it: when some key is refused by `strconv.Atoi` (it is not a decimal
integer) or has a value outside `[0, 255]`, the function returns the nil list and an error;
when every key is accepted with a value in `[0, 255]` and the aspect of every entry loads,
and the decoder reported no error or the map is not empty, the returned error is nil. -/
theorem LoadBlockDefs_key_errors {Attrs : Type} [Inhabited Attrs]
    (unmarshal : AspectKind → List Nat → Bool) (decodeFails : Bool)
    (first second : List (String × blockDef Attrs)) :
    ((∃ kv ∈ first, (Atoi kv.1).2 ≠ none ∨ (Atoi kv.1).1 < 0 ∨ (Atoi kv.1).1 > 255) →
      ∃ e, LoadBlockDefs unmarshal decodeFails first second = Loaded.returned [] (some e))
    ∧ ((∀ kv ∈ first, (Atoi kv.1).2 = none ∧ 0 ≤ (Atoi kv.1).1 ∧ (Atoi kv.1).1 ≤ 255) →
        second.Perm first →
        (∀ kv ∈ first, ∃ a, loadAspect unmarshal kv.2 = Loaded.returned a none) →
        (decodeFails = false ∨ first ≠ []) →
        ∃ blocks,
          LoadBlockDefs unmarshal decodeFails first second = Loaded.returned blocks none) := by
  refine ⟨?_, ?_⟩
  · intro h
    obtain ⟨e, he, _⟩ :=
      rangeCheckLoop_error first 0 (if decodeFails then some Error.decode else none) h
    exact ⟨e, by simp only [LoadBlockDefs, he]⟩
  · intro hkeys hperm hloads hdec
    obtain ⟨m, e1, e2, e3, _⟩ :=
      rangeCheckLoop_ok first 0 (if decodeFails then some Error.decode else none) hkeys
    obtain ⟨blocks, k1, _⟩ := loadLoop_ok unmarshal second
      (List.replicate (m + 1).toNat ⟨default, none, false⟩)
      (if first.isEmpty then (if decodeFails then some Error.decode else none) else none)
      (by
        intro kv hkv
        have hmem : kv ∈ first := hperm.mem_iff.mp hkv
        have h3 := e3 kv hmem
        have h4 := (hkeys kv hmem).2.1
        rw [List.length_replicate]
        exact ⟨h4, by omega, hloads kv hmem⟩)
    refine ⟨blocks, ?_⟩
    simp only [LoadBlockDefs, e1, k1]
    have hfirst : (if first.isEmpty then (if decodeFails then some Error.decode else none)
        else none) = none := by
      rcases hdec with hd | hd
      · simp [hd]
      · cases first with
        | nil => exact absurd rfl hd
        | cons a l => rfl
    rw [hfirst]
    simp

/-- Witness of C22: the key `256` is out of range and the key `1x` is no decimal integer,
and each gives an error; the map with the keys `0` and `255`, whose aspects load, gives
none. -/
theorem LoadBlockDefs_key_errors_witness :
    (∃ e, LoadBlockDefs sampleUnmarshal false
        [("3", (⟨7, "Standard", some [123, 125]⟩ : blockDef Nat)),
          ("256", ⟨8, "Void", some [123, 125]⟩)]
        [("256", ⟨8, "Void", some [123, 125]⟩), ("3", ⟨7, "Standard", some [123, 125]⟩)]
        = Loaded.returned [] (some e))
      ∧ (∃ e, LoadBlockDefs sampleUnmarshal false
        [("1x", (⟨7, "Standard", some [123, 125]⟩ : blockDef Nat))]
        [("1x", ⟨7, "Standard", some [123, 125]⟩)] = Loaded.returned [] (some e))
      ∧ (∃ blocks, LoadBlockDefs sampleUnmarshal false
        [("0", (⟨7, "Standard", some [123, 125]⟩ : blockDef Nat)),
          ("255", ⟨8, "Void", some [123, 125]⟩)]
        [("255", ⟨8, "Void", some [123, 125]⟩), ("0", ⟨7, "Standard", some [123, 125]⟩)]
        = Loaded.returned blocks none) :=
  ⟨(LoadBlockDefs_key_errors sampleUnmarshal false _ _).1
      ⟨("256", ⟨8, "Void", some [123, 125]⟩), by simp, by decide⟩,
    (LoadBlockDefs_key_errors sampleUnmarshal false _ _).1
      ⟨("1x", ⟨7, "Standard", some [123, 125]⟩), by simp, by decide⟩,
    (LoadBlockDefs_key_errors sampleUnmarshal false _ _).2 (by decide)
      (List.Perm.swap _ _ _)
      (by
        intro kv hkv
        simp only [List.mem_cons, List.mem_singleton, List.not_mem_nil, or_false] at hkv
        rcases hkv with h | h
        · subst h
          exact ⟨_, rfl⟩
        · subst h
          exact ⟨_, rfl⟩)
      (Or.inl rfl)⟩

/-! ## Ids defined more than once -/

/-- C23. `LoadBlockDefs` never returns the error `defined more than once`, whatever the
decoder left in the map: the error is assigned and then assigned over by the result of
`LoadBlockType` before the function can return it. On the map with the two keys `1` and
`01`, which both denote the id 1 and whose aspects load, the function returns no error in
either order of the second loop, and the entry visited last is the one that stays. -/
theorem LoadBlockDefs_defined_twice {Attrs : Type} [Inhabited Attrs]
    (unmarshal : AspectKind → List Nat → Bool) (decodeFails : Bool)
    (first second : List (String × blockDef Attrs)) (blocks : List (BlockType Attrs))
    (id : Int) :
    LoadBlockDefs unmarshal decodeFails first second
        ≠ Loaded.returned blocks (some (Error.definedMoreThanOnce id))
      ∧ LoadBlockDefs sampleUnmarshal false
          [("1", (⟨7, "Standard", some [123, 125]⟩ : blockDef Nat)),
            ("01", ⟨8, "Void", some [123, 125]⟩)]
          [("1", ⟨7, "Standard", some [123, 125]⟩), ("01", ⟨8, "Void", some [123, 125]⟩)]
        = Loaded.returned
            [⟨0, none, false⟩, ⟨8, some ⟨AspectKind.void, [123, 125]⟩, true⟩] none
      ∧ LoadBlockDefs sampleUnmarshal false
          [("1", (⟨7, "Standard", some [123, 125]⟩ : blockDef Nat)),
            ("01", ⟨8, "Void", some [123, 125]⟩)]
          [("01", ⟨8, "Void", some [123, 125]⟩), ("1", ⟨7, "Standard", some [123, 125]⟩)]
        = Loaded.returned
            [⟨0, none, false⟩, ⟨7, some ⟨AspectKind.standard, [123, 125]⟩, true⟩] none := by
  refine ⟨?_, by decide, by decide⟩
  intro h
  unfold LoadBlockDefs at h
  split at h
  · rename_i e he
    simp only [Loaded.returned.injEq, Option.some.injEq] at h
    rcases (rangeCheckLoop_inv first 0 _).1 e he with ⟨s, hs⟩ | ⟨i, hi⟩
    · rw [hs] at h
      cases h.2
    · rw [hi] at h
      cases h.2
  · rename_i m err1 he
    rcases loadLoop_err unmarshal second _ err1 blocks _ h with h1 | h1 | ⟨name, h1⟩
    · rcases (rangeCheckLoop_inv first 0 _).2 m err1 he with h2 | h2
      · rw [h2] at h1
        cases decodeFails <;> simp at h1
      · rw [h2] at h1
        cases h1
    · cases h1
    · cases h1

/-! ## Aspects that are not registered -/

/-- C24. The registry `aspectMakers` holds exactly the names `Standard` and `Void`, and a
definition loads into a block type only if its aspect name is one of the two. For every
definition map with valid ids in which some entry names another aspect and the aspect of
every entry that names `Standard` or `Void` loads, `LoadBlockDefs` returns the error
`Unknown aspect type` for the aspect name of such an entry. -/
theorem LoadBlockDefs_unknown_aspect {Attrs : Type} [Inhabited Attrs]
    (unmarshal : AspectKind → List Nat → Bool) (decodeFails : Bool)
    (first second : List (String × blockDef Attrs))
    (hperm : second.Perm first)
    (hkeys : ∀ kv ∈ first, (Atoi kv.1).2 = none ∧ 0 ≤ (Atoi kv.1).1 ∧ (Atoi kv.1).1 ≤ 255)
    (hknown : ∀ kv ∈ first, kv.2.Aspect = "Standard" ∨ kv.2.Aspect = "Void" →
      ∃ a, loadAspect unmarshal kv.2 = Loaded.returned a none)
    (hsome : ∃ kv ∈ first, kv.2.Aspect ≠ "Standard" ∧ kv.2.Aspect ≠ "Void") :
    (∀ name, aspectMakers name ≠ none ↔ name = "Standard" ∨ name = "Void")
      ∧ (∀ (bd : blockDef Attrs) (b : BlockType Attrs),
          LoadBlockType unmarshal bd = Loaded.returned (some b) none →
          bd.Aspect = "Standard" ∨ bd.Aspect = "Void")
      ∧ ∃ blocks kv, kv ∈ first ∧ kv.2.Aspect ≠ "Standard" ∧ kv.2.Aspect ≠ "Void"
          ∧ LoadBlockDefs unmarshal decodeFails first second
            = Loaded.returned blocks (some (Error.unknownAspect kv.2.Aspect)) := by
  have hnone : ∀ name, aspectMakers name = none ↔ ¬ (name = "Standard" ∨ name = "Void") := by
    intro name
    rw [← aspectMakers_names]
    simp
  refine ⟨aspectMakers_names, ?_, ?_⟩
  · intro bd b h
    rw [← aspectMakers_names]
    intro hm
    simp [LoadBlockType, loadAspect, hm] at h
  · obtain ⟨m, e1, e2, e3, _⟩ :=
      rangeCheckLoop_ok first 0 (if decodeFails then some Error.decode else none) hkeys
    obtain ⟨blocks, kv, k1, k2, k3⟩ := loadLoop_unknown unmarshal second
      (List.replicate (m + 1).toNat ⟨default, none, false⟩)
      (if first.isEmpty then (if decodeFails then some Error.decode else none) else none)
      (by
        intro kv hkv
        have hmem : kv ∈ first := hperm.mem_iff.mp hkv
        have h3 := e3 kv hmem
        have h4 := (hkeys kv hmem).2.1
        rw [List.length_replicate]
        exact ⟨h4, by omega⟩)
      (fun kv hkv hm => hknown kv (hperm.mem_iff.mp hkv) ((aspectMakers_names _).mp hm))
      (by
        obtain ⟨kv, hkv, h1, h2⟩ := hsome
        refine ⟨kv, hperm.mem_iff.mpr hkv, (hnone _).mpr ?_⟩
        rintro (h | h)
        · exact h1 h
        · exact h2 h)
    have hk := (hnone _).mp k2
    refine ⟨blocks, kv, hperm.mem_iff.mp k1, fun h => hk (Or.inl h), fun h => hk (Or.inr h), ?_⟩
    simp only [LoadBlockDefs, e1, k3]

/-- Witness of C24: the map with the keys `1`, whose aspect `Standard` loads, and `2`,
whose aspect is named `Bogus`. -/
theorem LoadBlockDefs_unknown_aspect_witness :
    ∃ blocks kv, kv ∈ [("1", (⟨7, "Standard", some [123, 125]⟩ : blockDef Nat)),
          ("2", ⟨8, "Bogus", some [123, 125]⟩)]
      ∧ kv.2.Aspect ≠ "Standard" ∧ kv.2.Aspect ≠ "Void"
      ∧ LoadBlockDefs sampleUnmarshal false
          [("1", (⟨7, "Standard", some [123, 125]⟩ : blockDef Nat)),
            ("2", ⟨8, "Bogus", some [123, 125]⟩)]
          [("1", ⟨7, "Standard", some [123, 125]⟩), ("2", ⟨8, "Bogus", some [123, 125]⟩)]
        = Loaded.returned blocks (some (Error.unknownAspect kv.2.Aspect)) :=
  (LoadBlockDefs_unknown_aspect sampleUnmarshal false _ _ (List.Perm.refl _) (by decide)
    (by
      intro kv hkv hk
      simp only [List.mem_cons, List.mem_singleton, List.not_mem_nil, or_false] at hkv
      rcases hkv with h | h
      · subst h
        exact ⟨_, rfl⟩
      · subst h
        exact absurd hk (by decide))
    ⟨("2", ⟨8, "Bogus", some [123, 125]⟩), by simp, by decide⟩).2.2

/-- Counterexample to C24 as stated: the map has valid ids and its entry `2` names the
aspect `Bogus`; the entry `1` names `Standard` with the raw arguments `"x"` (34, 120, 34),
which `json.Unmarshal` refuses, or with no arguments at all. When the second loop visits
the entry `1` first, `LoadBlockDefs` returns the error of `json.Unmarshal` in the one case
and panics in the other, and not the error `Unknown aspect type`. -/
theorem LoadBlockDefs_unknown_aspect_counterexample :
    aspectMakers "Bogus" = none
      ∧ LoadBlockDefs sampleUnmarshal false
          [("1", (⟨7, "Standard", some [34, 120, 34]⟩ : blockDef Nat)),
            ("2", ⟨8, "Bogus", some [123, 125]⟩)]
          [("1", ⟨7, "Standard", some [34, 120, 34]⟩), ("2", ⟨8, "Bogus", some [123, 125]⟩)]
        = Loaded.returned [⟨0, none, false⟩, ⟨0, none, false⟩, ⟨0, none, false⟩]
            (some Error.unmarshal)
      ∧ LoadBlockDefs sampleUnmarshal false
          [("1", (⟨7, "Standard", none⟩ : blockDef Nat)), ("2", ⟨8, "Bogus", some [123, 125]⟩)]
          [("1", ⟨7, "Standard", none⟩), ("2", ⟨8, "Bogus", some [123, 125]⟩)]
        = Loaded.panic := by
  decide

/-! ## The error of the decoder -/

theorem rangeCheckLoop_cons_err {Attrs : Type} (kv : String × blockDef Attrs)
    (l : List (String × blockDef Attrs)) (maxId : Int) (err1 err2 : Option Error) :
    rangeCheckLoop (kv :: l) maxId err1 = rangeCheckLoop (kv :: l) maxId err2 := by
  obtain ⟨idStr, bd⟩ := kv
  simp only [rangeCheckLoop]

/-- C37, as the code has it. The error that `decoder.Decode` returns is assigned to `err`
and never looked at. When the map the decoder left is not empty, the first loop assigns
over it, and `LoadBlockDefs` returns what it returns without the error: in particular no
error at all when every key is valid and every aspect loads. Only when the map is empty
does the error of the decoder reach the caller, with a list of one zero block type. -/
theorem LoadBlockDefs_decoder_error {Attrs : Type} [Inhabited Attrs]
    (unmarshal : AspectKind → List Nat → Bool)
    (first second : List (String × blockDef Attrs)) (hne : first ≠ []) :
    LoadBlockDefs unmarshal true first second = LoadBlockDefs unmarshal false first second
      ∧ ((∀ kv ∈ first, (Atoi kv.1).2 = none ∧ 0 ≤ (Atoi kv.1).1 ∧ (Atoi kv.1).1 ≤ 255) →
          second.Perm first →
          (∀ kv ∈ first, ∃ a, loadAspect unmarshal kv.2 = Loaded.returned a none) →
          ∃ blocks,
            LoadBlockDefs unmarshal true first second = Loaded.returned blocks none)
      ∧ LoadBlockDefs unmarshal true ([] : List (String × blockDef Attrs)) []
          = Loaded.returned [⟨default, none, false⟩] (some Error.decode) := by
  have hsame : LoadBlockDefs unmarshal true first second
      = LoadBlockDefs unmarshal false first second := by
    cases first with
    | nil => exact absurd rfl hne
    | cons kv l =>
      unfold LoadBlockDefs
      rw [rangeCheckLoop_cons_err kv l 0 _ (if false = true then some Error.decode else none)]
  refine ⟨hsame, ?_, rfl⟩
  intro hkeys hperm hloads
  obtain ⟨m, e1, e2, e3, _⟩ := rangeCheckLoop_ok first 0 none hkeys
  obtain ⟨blocks, k1, _⟩ := loadLoop_ok unmarshal second
    (List.replicate (m + 1).toNat ⟨default, none, false⟩)
    (if first.isEmpty then none else none)
    (by
      intro kv hkv
      have hmem : kv ∈ first := hperm.mem_iff.mp hkv
      have h3 := e3 kv hmem
      have h4 := (hkeys kv hmem).2.1
      rw [List.length_replicate]
      exact ⟨h4, by omega, hloads kv hmem⟩)
  refine ⟨blocks, ?_⟩
  simp only [ite_self] at e1 k1
  rw [hsame]
  simp [LoadBlockDefs, e1, k1]

/-- Witness of C37: the decoder reports an error after it has decoded the one definition
of the block 1: `LoadBlockDefs` returns the two block types and no error. -/
theorem LoadBlockDefs_decoder_error_witness :
    LoadBlockDefs sampleUnmarshal true
        [("1", (⟨7, "Standard", some [123, 125]⟩ : blockDef Nat))]
        [("1", ⟨7, "Standard", some [123, 125]⟩)]
      = Loaded.returned
          [⟨0, none, false⟩, ⟨7, some ⟨AspectKind.standard, [123, 125]⟩, true⟩] none := by
  have h := (LoadBlockDefs_decoder_error sampleUnmarshal
    [("1", (⟨7, "Standard", some [123, 125]⟩ : blockDef Nat))]
    [("1", ⟨7, "Standard", some [123, 125]⟩)] (by simp)).1
  rw [h]
  decide

/-! ## The list of block types -/

theorem rangeCheckLoop_valid {Attrs : Type} :
    ∀ (l : List (String × blockDef Attrs)) (maxId : Int) (err : Option Error)
      (x : Int × Option Error), rangeCheckLoop l maxId err = Except.ok x →
      ∀ kv ∈ l, (Atoi kv.1).2 = none ∧ 0 ≤ (Atoi kv.1).1 ∧ (Atoi kv.1).1 ≤ 255 := by
  intro l
  induction l with
  | nil =>
    intro _ _ _ _ kv hkv
    simp at hkv
  | cons a l ih =>
    intro maxId err x h kv hkv
    obtain ⟨idStr, bd⟩ := a
    simp only [rangeCheckLoop] at h
    split at h
    · cases h
    · rename_i hnone
      split at h
      · cases h
      · rename_i hr
        rcases List.mem_cons.mp hkv with h1 | h1
        · subst h1
          show (Atoi idStr).2 = none ∧ 0 ≤ (Atoi idStr).1 ∧ (Atoi idStr).1 ≤ 255
          exact ⟨hnone, by omega, by omega⟩
        · exact ih _ _ _ h kv h1

theorem LoadBlockType_inv {Attrs : Type} (unmarshal : AspectKind → List Nat → Bool)
    (bd : blockDef Attrs) (block : BlockType Attrs)
    (h : LoadBlockType unmarshal bd = Loaded.returned (some block) none) :
    ∃ a, block = ⟨bd.attrs, a, false⟩ := by
  unfold LoadBlockType at h
  split at h
  · cases h
  · cases h
  · rename_i aspect _
    simp only [Loaded.returned.injEq, Option.some.injEq, and_true] at h
    exact ⟨aspect, h.symm⟩

theorem loadLoop_result {Attrs : Type} (unmarshal : AspectKind → List Nat → Bool) :
    ∀ (second : List (String × blockDef Attrs)) (blocks : List (BlockType Attrs))
      (err : Option Error) (blocks1 : List (BlockType Attrs)),
      loadLoop unmarshal second blocks err = Loaded.returned blocks1 none →
      blocks1.length = blocks.length
        ∧ (∀ kv ∈ second, 0 ≤ (Atoi kv.1).1 ∧ (Atoi kv.1).1.toNat < blocks.length)
        ∧ ((second.map (fun kv => (Atoi kv.1).1)).Nodup →
            (∀ kv ∈ second, ∃ a, blocks1[(Atoi kv.1).1.toNat]? = some ⟨kv.2.attrs, a, true⟩)
            ∧ (∀ i : Nat, (∀ kv ∈ second, (Atoi kv.1).1.toNat ≠ i) →
                blocks1[i]? = blocks[i]?)) := by
  intro second
  induction second with
  | nil =>
    intro blocks err blocks1 h
    simp only [loadLoop, Loaded.returned.injEq] at h
    obtain ⟨h1, _⟩ := h
    subst h1
    refine ⟨rfl, ?_, fun _ => ⟨?_, fun i _ => rfl⟩⟩
    · intro kv hkv
      simp at hkv
    · intro kv hkv
      simp at hkv
  | cons a second ih =>
    intro blocks err blocks1 h
    obtain ⟨idStr, bd⟩ := a
    simp only [loadLoop] at h
    split at h
    · cases h
    · rename_i hneg
      split at h
      · cases h
      · rename_i old hold
        split at h
        · cases h
        · simp at h
        · cases h
        · rename_i block hblock
          obtain ⟨a, ha⟩ := LoadBlockType_inv unmarshal bd block hblock
          subst ha
          have hlt : (Atoi idStr).1.toNat < blocks.length :=
            (List.getElem?_eq_some_iff.mp hold).1
          obtain ⟨i1, i2, i3⟩ := ih _ _ _ h
          rw [List.length_set] at i1 i2
          refine ⟨i1, ?_, ?_⟩
          · intro kv hkv
            rcases List.mem_cons.mp hkv with h1 | h1
            · subst h1
              show 0 ≤ (Atoi idStr).1 ∧ (Atoi idStr).1.toNat < blocks.length
              exact ⟨by omega, hlt⟩
            · exact i2 kv h1
          · intro hnd
            rw [List.map_cons, List.nodup_cons] at hnd
            obtain ⟨j1, j2⟩ := i3 hnd.2
            have hfresh : ∀ kv ∈ second, (Atoi kv.1).1.toNat ≠ (Atoi idStr).1.toNat := by
              intro kv hkv heq
              apply hnd.1
              have h0 := (i2 kv hkv).1
              have h1 : (Atoi kv.1).1 = (Atoi idStr).1 := by omega
              rw [← h1]
              exact List.mem_map.mpr ⟨kv, hkv, rfl⟩
            refine ⟨?_, ?_⟩
            · intro kv hkv
              rcases List.mem_cons.mp hkv with h1 | h1
              · subst h1
                refine ⟨a, ?_⟩
                show blocks1[(Atoi idStr).1.toNat]? = _
                rw [j2 _ hfresh, List.getElem?_set_self hlt]
              · exact j1 kv h1
            · intro i hi
              have h1 : (Atoi idStr).1.toNat ≠ i := hi (idStr, bd) (List.mem_cons_self _ _)
              rw [j2 i (fun kv hkv => hi kv (List.mem_cons_of_mem _ hkv)),
                List.getElem?_set_ne h1]

/-- C38. When `LoadBlockDefs` returns no error on a definition map whose ids are pairwise
distinct: the returned list has the length 1 for an empty map and else the largest id plus
one (every id is below the length, and some id is the length minus one); the entry at an
index is marked defined if and only if the index is an id of the map; and the entry at the
id of a definition is defined and carries the `BlockAttrs` of that definition. -/
theorem LoadBlockDefs_result {Attrs : Type} [Inhabited Attrs]
    (unmarshal : AspectKind → List Nat → Bool) (decodeFails : Bool)
    (first second : List (String × blockDef Attrs)) (blocks : List (BlockType Attrs))
    (hperm : second.Perm first)
    (hdistinct : (first.map (fun kv => (Atoi kv.1).1)).Nodup)
    (hok : LoadBlockDefs unmarshal decodeFails first second = Loaded.returned blocks none) :
    (first = [] → blocks.length = 1)
      ∧ (∀ kv ∈ first, 0 ≤ (Atoi kv.1).1 ∧ (Atoi kv.1).1 < blocks.length)
      ∧ (first ≠ [] → ∃ kv ∈ first, (Atoi kv.1).1 + 1 = blocks.length)
      ∧ (∀ i : Nat, i < blocks.length →
          ((∃ b, blocks[i]? = some b ∧ b.defined = true) ↔ ∃ kv ∈ first, (Atoi kv.1).1 = i))
      ∧ (∀ kv ∈ first, ∃ a,
          blocks[(Atoi kv.1).1.toNat]? = some ⟨kv.2.attrs, a, true⟩) := by
  unfold LoadBlockDefs at hok
  split at hok
  · simp at hok
  · rename_i m err1 hrange
    have hkeys := rangeCheckLoop_valid first 0 _ _ hrange
    obtain ⟨m2, e1, e2, e3, e4⟩ :=
      rangeCheckLoop_ok first 0 (if decodeFails then some Error.decode else none) hkeys
    rw [hrange] at e1
    simp only [Except.ok.injEq, Prod.mk.injEq] at e1
    obtain ⟨hm, _⟩ := e1
    subst hm
    have hnd2 : (second.map (fun kv => (Atoi kv.1).1)).Nodup :=
      ((hperm.map _).nodup_iff).mpr hdistinct
    obtain ⟨r1, r2, r3⟩ := loadLoop_result unmarshal second _ _ _ hok
    obtain ⟨r4, r5⟩ := r3 hnd2
    rw [List.length_replicate] at r1 r2
    have hlen : (blocks.length : Int) = m + 1 := by omega
    refine ⟨?_, ?_, ?_, ?_, ?_⟩
    · intro hnil
      subst hnil
      rcases e4 with h | ⟨kv, hkv, _⟩
      · omega
      · simp at hkv
    · intro kv hkv
      have h1 := e3 kv hkv
      have h2 := (hkeys kv hkv).2.1
      exact ⟨h2, by omega⟩
    · intro hne
      rcases e4 with h | ⟨kv, hkv, h⟩
      · cases first with
        | nil => exact absurd rfl hne
        | cons kv l =>
          refine ⟨kv, List.mem_cons_self _ _, ?_⟩
          have h1 := e3 kv (List.mem_cons_self _ _)
          have h2 := (hkeys kv (List.mem_cons_self _ _)).2.1
          omega
      · exact ⟨kv, hkv, by omega⟩
    · intro i hi
      constructor
      · rintro ⟨b, hb, hdef⟩
        by_contra hno
        have hfree : ∀ kv ∈ second, (Atoi kv.1).1.toNat ≠ i := by
          intro kv hkv heq
          apply hno
          have hmem : kv ∈ first := hperm.mem_iff.mp hkv
          have h2 := (hkeys kv hmem).2.1
          exact ⟨kv, hmem, by omega⟩
        rw [r5 i hfree, List.getElem?_replicate] at hb
        split at hb
        · simp only [Option.some.injEq] at hb
          rw [← hb] at hdef
          cases hdef
        · cases hb
      · rintro ⟨kv, hkv, hid⟩
        obtain ⟨a, ha⟩ := r4 kv (hperm.mem_iff.mpr hkv)
        have h3 : (Atoi kv.1).1.toNat = i := by omega
        rw [h3] at ha
        exact ⟨_, ha, rfl⟩
    · intro kv hkv
      exact r4 kv (hperm.mem_iff.mpr hkv)

/-- Witness of C38: the map with the ids 0 and 2, visited in opposite orders by the two
loops: three block types, the entries 0 and 2 defined with the attributes 7 and 8. -/
theorem LoadBlockDefs_result_witness :
    LoadBlockDefs sampleUnmarshal false
        [("0", (⟨7, "Standard", some [123, 125]⟩ : blockDef Nat)),
          ("2", ⟨8, "Void", some [123, 125]⟩)]
        [("2", ⟨8, "Void", some [123, 125]⟩), ("0", ⟨7, "Standard", some [123, 125]⟩)]
        = Loaded.returned
          [⟨7, some ⟨AspectKind.standard, [123, 125]⟩, true⟩, ⟨0, none, false⟩,
            ⟨8, some ⟨AspectKind.void, [123, 125]⟩, true⟩] none
      ∧ ∃ kv ∈ [("0", (⟨7, "Standard", some [123, 125]⟩ : blockDef Nat)),
            ("2", ⟨8, "Void", some [123, 125]⟩)],
          (Atoi kv.1).1 + 1
            = ([⟨7, some ⟨AspectKind.standard, [123, 125]⟩, true⟩, ⟨0, none, false⟩,
                ⟨8, some ⟨AspectKind.void, [123, 125]⟩, true⟩] : List (BlockType Nat)).length :=
  ⟨by decide,
    (LoadBlockDefs_result sampleUnmarshal false
      [("0", (⟨7, "Standard", some [123, 125]⟩ : blockDef Nat)),
        ("2", ⟨8, "Void", some [123, 125]⟩)]
      [("2", ⟨8, "Void", some [123, 125]⟩), ("0", ⟨7, "Standard", some [123, 125]⟩)]
      _ (List.Perm.swap _ _ _) (by decide) (by decide)).2.2.1 (by simp)⟩

end block

namespace chunkstore

/-! ## The entities of a chunk -/

/-- C25. `chunkReader.Entities` on every chunk tag tree: when `Lookup` finds no list at
`Level/Entities` (the path is absent, or the tag there is of another kind), the nil list is
returned, and when it finds a list, the elements of the list are returned in their order.
The function has no other way to end. -/
theorem Entities_tolerant (r : chunkReader) :
    ((∀ kind v, r.chunkTag.Lookup ["Level", "Entities"] ≠ some (Tag.list kind v)) →
      r.Entities = [])
    ∧ (∀ kind v, r.chunkTag.Lookup ["Level", "Entities"] = some (Tag.list kind v) →
      r.Entities = v) := by
  refine ⟨?_, ?_⟩
  · intro h
    unfold chunkReader.Entities
    split
    · rename_i kind v heq
      exact absurd heq (h kind v)
    · rfl
  · intro kind v h
    unfold chunkReader.Entities
    rw [h]

/-- Witness of C25: a chunk without `Entities`, a chunk whose `Entities` is an `Int`, a tree
that is no compound, and a chunk with a list of two entities. -/
theorem Entities_tolerant_witness :
    chunkReader.Entities ⟨sampleChunk sampleLevel⟩ = []
      ∧ chunkReader.Entities ⟨sampleChunk (sampleLevel ++ [("Entities", Tag.int 5)])⟩ = []
      ∧ chunkReader.Entities ⟨Tag.string "Level"⟩ = []
      ∧ chunkReader.Entities
          ⟨sampleChunk (sampleLevel ++ [("Entities", Tag.list 10
            [Tag.compound [("id", Tag.string "Pig")], Tag.compound []])])⟩
          = [Tag.compound [("id", Tag.string "Pig")], Tag.compound []] :=
  ⟨(Entities_tolerant _).1 (by
      intro kind v h
      have h2 : (sampleChunk sampleLevel).Lookup ["Level", "Entities"] = none := by rfl
      rw [h2] at h
      cases h),
    (Entities_tolerant _).1 (by
      intro kind v h
      have h2 : (sampleChunk (sampleLevel ++ [("Entities", Tag.int 5)])).Lookup
          ["Level", "Entities"] = some (Tag.int 5) := by rfl
      rw [h2] at h
      cases h),
    (Entities_tolerant _).1 (by
      intro kind v h
      cases h),
    (Entities_tolerant _).2 10 _ (by rfl)⟩

/-! ## The required tags of a chunk -/

theorem assertInt_panic (t : Option Tag) (h : ∀ v, t ≠ some (Tag.int v)) :
    assertInt t = Got.panic := by
  unfold assertInt
  split
  · rename_i v
    exact absurd rfl (h v)
  · rfl

theorem assertByteArray_panic (t : Option Tag) (h : ∀ v, t ≠ some (Tag.byteArray v)) :
    assertByteArray t = Got.panic := by
  unfold assertByteArray
  split
  · rename_i v
    exact absurd rfl (h v)
  · rfl

/-- C26, as the code has it. `newChunkReader` returns the reader of every tag tree that
`nbt.Read` returned, with no error, and passes on the error of `nbt.Read`; it does not look
into the tree. An accessor whose required path is missing or holds a tag of another kind
panics: `ChunkLoc` when `Level/xPos` or `Level/zPos` is no `Int`, and `Blocks`,
`BlockData`, `BlockLight`, `SkyLight` and `HeightMap` when their path is no `ByteArray`.
When the path holds the right kind, the accessor returns its value. -/
theorem accessors_panic {ε : Type} (root : Tag) :
    newChunkReader (Except.ok root : Except ε Tag) = (some ⟨root⟩, none)
      ∧ (∀ err : ε, newChunkReader (Except.error err) = (none, some err))
      ∧ (((∀ v, root.Lookup ["Level", "xPos"] ≠ some (Tag.int v))
            ∨ (∀ v, root.Lookup ["Level", "zPos"] ≠ some (Tag.int v))) →
          chunkReader.ChunkLoc ⟨root⟩ = Got.panic)
      ∧ ((∀ v, root.Lookup ["Level", "Blocks"] ≠ some (Tag.byteArray v)) →
          chunkReader.Blocks ⟨root⟩ = Got.panic)
      ∧ ((∀ v, root.Lookup ["Level", "Data"] ≠ some (Tag.byteArray v)) →
          chunkReader.BlockData ⟨root⟩ = Got.panic)
      ∧ ((∀ v, root.Lookup ["Level", "BlockLight"] ≠ some (Tag.byteArray v)) →
          chunkReader.BlockLight ⟨root⟩ = Got.panic)
      ∧ ((∀ v, root.Lookup ["Level", "SkyLight"] ≠ some (Tag.byteArray v)) →
          chunkReader.SkyLight ⟨root⟩ = Got.panic)
      ∧ ((∀ v, root.Lookup ["Level", "HeightMap"] ≠ some (Tag.byteArray v)) →
          chunkReader.HeightMap ⟨root⟩ = Got.panic)
      ∧ (∀ x z, root.Lookup ["Level", "xPos"] = some (Tag.int x) →
          root.Lookup ["Level", "zPos"] = some (Tag.int z) →
          chunkReader.ChunkLoc ⟨root⟩ = Got.value (x, z))
      ∧ (∀ v, root.Lookup ["Level", "Blocks"] = some (Tag.byteArray v) →
          chunkReader.Blocks ⟨root⟩ = Got.value v)
      ∧ (∀ v, root.Lookup ["Level", "Data"] = some (Tag.byteArray v) →
          chunkReader.BlockData ⟨root⟩ = Got.value v)
      ∧ (∀ v, root.Lookup ["Level", "BlockLight"] = some (Tag.byteArray v) →
          chunkReader.BlockLight ⟨root⟩ = Got.value v)
      ∧ (∀ v, root.Lookup ["Level", "SkyLight"] = some (Tag.byteArray v) →
          chunkReader.SkyLight ⟨root⟩ = Got.value v)
      ∧ (∀ v, root.Lookup ["Level", "HeightMap"] = some (Tag.byteArray v) →
          chunkReader.HeightMap ⟨root⟩ = Got.value v) := by
  refine ⟨rfl, fun _ => rfl, ?_, fun h => assertByteArray_panic _ h,
    fun h => assertByteArray_panic _ h, fun h => assertByteArray_panic _ h,
    fun h => assertByteArray_panic _ h, fun h => assertByteArray_panic _ h, ?_, ?_, ?_, ?_,
    ?_, ?_⟩
  · intro h
    unfold chunkReader.ChunkLoc
    rcases h with h | h
    · rw [assertInt_panic _ h]
    · rw [assertInt_panic (root.Lookup ["Level", "zPos"]) h]
      split <;> rfl
  · intro x z hx hz
    simp only [chunkReader.ChunkLoc, hx, hz, assertInt]
  · intro v h
    simp only [chunkReader.Blocks, h, assertByteArray]
  · intro v h
    simp only [chunkReader.BlockData, h, assertByteArray]
  · intro v h
    simp only [chunkReader.BlockLight, h, assertByteArray]
  · intro v h
    simp only [chunkReader.SkyLight, h, assertByteArray]
  · intro v h
    simp only [chunkReader.HeightMap, h, assertByteArray]

/-- Counterexample to C26 as stated: on the sample chunk without its `Blocks` tag, and on
the sample chunk whose `xPos` is a string, `newChunkReader` returns the reader and no
error, and `Blocks`, respectively `ChunkLoc`, panics; on the whole sample chunk both return
their values. -/
theorem accessors_panic_counterexample :
    (newChunkReader (Except.ok (sampleChunk (sampleLevel.eraseIdx 2)) : Except Unit Tag)).2
        = none
      ∧ chunkReader.Blocks ⟨sampleChunk (sampleLevel.eraseIdx 2)⟩ = Got.panic
      ∧ (newChunkReader
          (Except.ok (sampleChunk (("xPos", Tag.string "3") :: sampleLevel.eraseIdx 0)) :
            Except Unit Tag)).2 = none
      ∧ chunkReader.ChunkLoc ⟨sampleChunk (("xPos", Tag.string "3") :: sampleLevel.eraseIdx 0)⟩
          = Got.panic
      ∧ chunkReader.Blocks ⟨sampleChunk sampleLevel⟩ = Got.value [1, 2]
      ∧ chunkReader.ChunkLoc ⟨sampleChunk sampleLevel⟩ = Got.value (3, -2) := by
  refine ⟨rfl, ?_, rfl, ?_, ?_, ?_⟩ <;> decide

end chunkstore

namespace chunkymonkey

/-! ## The transmit queue -/

theorem TransmitPacket_send (s : State) (bs : List Nat) (hopen : s.txQueue.closed = false)
    (hroom : s.txQueue.buffer.length < s.txQueue.capacity) :
    TransmitPacket s (some bs)
      = Step.done { s with txQueue := { s.txQueue with buffer := s.txQueue.buffer ++ [some bs] } } := by
  simp [TransmitPacket, Chan.send, hopen, hroom]

/-- C27, as the code has it. The transmit queue that `StartPlayer` makes has the capacity
128. A `TransmitPacket` call with a packet that is not nil, made while the open queue of
this capacity holds 128 packets, does not return: the sender waits until the transmit loop
has taken a packet, and the connection is not closed. With fewer packets in the queue the
call returns with the packet appended and the connection as it was. -/
theorem TransmitPacket_full (s : State) (bs : List Nat) (hopen : s.txQueue.closed = false)
    (hcap : s.txQueue.capacity = 128) :
    (∀ s0, (StartPlayer s0).txQueue = ⟨128, [], false⟩)
      ∧ (s.txQueue.buffer.length = 128 → TransmitPacket s (some bs) = Step.blocks)
      ∧ (s.txQueue.buffer.length < 128 →
          ∃ s1, TransmitPacket s (some bs) = Step.done s1
            ∧ s1.txQueue.buffer = s.txQueue.buffer ++ [some bs]
            ∧ s1.connClosed = s.connClosed) := by
  refine ⟨fun _ => rfl, ?_, ?_⟩
  · intro hfull
    simp [TransmitPacket, Chan.send, hopen, hcap, hfull]
  · intro hroom
    rw [TransmitPacket_send s bs hopen (by omega)]
    exact ⟨_, rfl, rfl, rfl⟩

/-- Witness of C27: the queue of a player just made, with 128 packets sent on it. -/
theorem TransmitPacket_full_witness :
    TransmitPacket
        { sampleState with txQueue := ⟨128, List.replicate 128 (some [0]), false⟩ } (some [1])
      = Step.blocks :=
  (TransmitPacket_full
    { sampleState with txQueue := ⟨128, List.replicate 128 (some [0]), false⟩ } [1] rfl
    rfl).2.1 (List.length_replicate _ _)

/-- Counterexample to C27 as stated: with 128 packets in the queue of a player just made,
`TransmitPacket` does not return and so closes nothing, and with 127 packets it returns
with the connection still open. -/
theorem TransmitPacket_full_counterexample :
    TransmitPacket
        { sampleState with txQueue := ⟨128, List.replicate 128 (some [0]), false⟩ } (some [1])
        = Step.blocks
      ∧ TransmitPacket
          { sampleState with txQueue := ⟨128, List.replicate 127 (some [0]), false⟩ } (some [1])
        = Step.done
          { sampleState with
            txQueue := ⟨128, List.replicate 127 (some [0]) ++ [some [1]], false⟩ }
      ∧ sampleState.connClosed = false := by
  refine ⟨?_, ?_, rfl⟩
  · simp [TransmitPacket, Chan.send, sampleState]
  · simp [TransmitPacket, Chan.send, sampleState]

/-- C28, as the code has it. `RecvDisconnect` enqueues its work, and when the game runs the
work in a state whose transmit queue is open, the player is removed, the queue closed and
the connection closed. On every state whose transmit queue is closed, `TransmitPacket` with
a packet that is not nil panics: the packet is sent on the closed channel. -/
theorem TransmitPacket_after_disconnect (E : Env) (s : State) (reason bs : List Nat)
    (hopen : s.txQueue.closed = false) :
    RecvDisconnect s reason = Enqueue s Work.disconnect
      ∧ runWork E s Work.disconnect
        = Step.done { s with removed := true, txQueue := { s.txQueue with closed := true },
                             connClosed := true }
      ∧ (∀ s2 : State, s2.txQueue.closed = true → TransmitPacket s2 (some bs) = Step.panic) := by
  refine ⟨rfl, ?_, ?_⟩
  · simp [runWork, Chan.close, hopen]
  · intro s2 h2
    simp [TransmitPacket, Chan.send, h2]

/-- Witness of C28: a player just made disconnects, and a packet of one byte is
transmitted afterwards. -/
theorem TransmitPacket_after_disconnect_witness :
    runWork sampleGame sampleState Work.disconnect
        = Step.done { sampleState with removed := true, txQueue := ⟨128, [], true⟩,
                                       connClosed := true }
      ∧ TransmitPacket { sampleState with removed := true, txQueue := ⟨128, [], true⟩,
                                          connClosed := true } (some [1]) = Step.panic :=
  ⟨(TransmitPacket_after_disconnect sampleGame sampleState [] [1] rfl).2.1,
    (TransmitPacket_after_disconnect sampleGame sampleState [] [1] rfl).2.2 _ rfl⟩

/-- C30, as the code has it. `TransmitPacket` skips the nil packet only: for the nil slice
the state is unchanged, and every packet that is not nil, the one of length 0 as well, is
appended to an open queue that has room. -/
theorem TransmitPacket_skips_nil (s : State) :
    TransmitPacket s none = Step.done s
      ∧ (∀ bs : List Nat, s.txQueue.closed = false →
          s.txQueue.buffer.length < s.txQueue.capacity →
          TransmitPacket s (some bs)
            = Step.done
              { s with txQueue := { s.txQueue with buffer := s.txQueue.buffer ++ [some bs] } })
      ∧ TransmitPacket sampleState (some [])
        = Step.done { sampleState with txQueue := ⟨128, [some []], false⟩ } := by
  refine ⟨rfl, fun bs h1 h2 => TransmitPacket_send s bs h1 h2, by decide⟩

/-! ## Digging -/

/-- C29. `RecvPlayerDigging` leaves the state as it is for every status other than
`DigBlockBroke` and enqueues one piece of work for `DigBlockBroke`. When the game runs this
work and there is no chunk or `GetBlock` sets its flag, the state is unchanged: no block is
set and nothing is enqueued. In every case the work returns, adds no item by itself, and
enqueues either nothing or the one piece of work that adds a pickup item of the item type
of dirt with the count 1 at the position of the block, the latter only when the block type
read before `SetBlock` was dirt or grass. -/
theorem RecvPlayerDigging_effects (E : Env) (s : State) (status : Int) (blockLoc : BlockXYZ)
    (face : Int) :
    (status ≠ E.DigBlockBroke → RecvPlayerDigging E s status blockLoc face = s)
      ∧ (status = E.DigBlockBroke →
          RecvPlayerDigging E s status blockLoc face = Enqueue s (Work.digBlock blockLoc))
      ∧ (E.Get (E.ToChunkLocal blockLoc).1 = none →
          runWork E s (Work.digBlock blockLoc) = Step.done s)
      ∧ (∀ chunk, E.Get (E.ToChunkLocal blockLoc).1 = some chunk →
          (E.GetBlock chunk (E.ToChunkLocal blockLoc).2).2 = true →
          runWork E s (Work.digBlock blockLoc) = Step.done s)
      ∧ ∃ s1, runWork E s (Work.digBlock blockLoc) = Step.done s1
          ∧ s1.pickupItems = s.pickupItems
          ∧ (s1.queue = s.queue
            ∨ (s1.queue = s.queue ++ [Work.addPickupItem
                  ⟨E.BlockIDDirt, 1, E.ToXYZInteger blockLoc, (0, 0, 0)⟩]
                ∧ ∃ chunk, E.Get (E.ToChunkLocal blockLoc).1 = some chunk
                  ∧ ((E.GetBlock chunk (E.ToChunkLocal blockLoc).2).1 = E.BlockIDDirt
                    ∨ (E.GetBlock chunk (E.ToChunkLocal blockLoc).2).1 = E.BlockIDGrass))) := by
  refine ⟨?_, ?_, ?_, ?_, ?_⟩
  · intro h
    simp [RecvPlayerDigging, h]
  · intro h
    simp [RecvPlayerDigging, h]
  · intro h
    simp only [runWork, h]
  · intro chunk h1 h2
    simp only [runWork, h1, h2, if_true]
  · simp only [runWork]
    split
    · exact ⟨s, rfl, rfl, Or.inl rfl⟩
    · rename_i chunk hchunk
      split
      · exact ⟨s, rfl, rfl, Or.inl rfl⟩
      · split
        · split
          · rename_i hd
            exact ⟨_, rfl, rfl, Or.inr ⟨rfl, chunk, hchunk, hd⟩⟩
          · exact ⟨_, rfl, rfl, Or.inl rfl⟩
        · exact ⟨_, rfl, rfl, Or.inl rfl⟩

/-- Evaluation for C29 on the sample: a dig of the grass block at `(5, 64, 7)` that broke
the block sets the block to air and enqueues a pickup item of dirt, which the game then
adds; the status 0 enqueues nothing, and a dig outside the chunk sets nothing. -/
theorem RecvPlayerDigging_effects_witness :
    RecvPlayerDigging sampleGame sampleState 3 ⟨5, 64, 7⟩ 1
        = { sampleState with queue := [Work.digBlock ⟨5, 64, 7⟩] }
      ∧ runWork sampleGame sampleState (Work.digBlock ⟨5, 64, 7⟩)
        = Step.done { sampleState with
            setBlockCalls := [(0, (5, 64, 7), 0, 0)]
            queue := [Work.addPickupItem ⟨3, 1, (176, 2048, 240), (0, 0, 0)⟩] }
      ∧ RecvPlayerDigging sampleGame sampleState 0 ⟨5, 64, 7⟩ 1 = sampleState
      ∧ runWork sampleGame sampleState (Work.digBlock ⟨50, 64, 7⟩) = Step.done sampleState :=
  ⟨(RecvPlayerDigging_effects sampleGame sampleState 3 ⟨5, 64, 7⟩ 1).2.1 rfl, by decide,
    (RecvPlayerDigging_effects sampleGame sampleState 0 ⟨5, 64, 7⟩ 1).1 (by decide),
    (RecvPlayerDigging_effects sampleGame sampleState 3 ⟨50, 64, 7⟩ 1).2.2.1 (by decide)⟩

end chunkymonkey
